import Mathlib

/-! NooDS front-ends: audio stretching, display pacing, worker shutdown and menus

A shallow embedding of the parts of `src/vita/main.cpp`, `src/desktop/noo_canvas.cpp`
and `src/desktop/layout_dialog.cpp` that drive the emulator core: the audio worker's
nearest-neighbour stretch, the software swap interval of `NooCanvas::draw`, the
start/stop protocol of the three Vita worker threads, the layout dialog, and the menus
of the Vita front-end with the creation of the core.

Machine integers are `Int`s; every arithmetic result of type `int` goes through
`wrapInt32`, and `/` on `int` is `Int.tdiv` (truncation towards zero).
-/

namespace NooDS

/-! ## Machine integers -/

/-- The value of a mathematical integer stored in a 32-bit two's-complement `int`. It is
irreducible so that elaboration never unfolds it on a symbolic argument; proofs unfold it
explicitly. -/
@[irreducible] def wrapInt32 (x : Int) : Int := (x + 2147483648) % 4294967296 - 2147483648

/-! ## Vita audio worker (`outputAudio`, main.cpp 202-217) -/

/-- The expression `i * 699 / 1024` on `int`, as written in the stretch loop. -/
def sampleIndex (i : Int) : Int := Int.tdiv (wrapInt32 (i * 699)) 1024

/-- The read `original[j]` from the batch returned by `getSamples`; a read outside the
batch has no defined value. -/
def readSample (original : List Nat) (j : Int) : Option Nat :=
  if 0 ≤ j then original[j.toNat]? else none

/-- The write `audioBuffer[i] = v`; a write outside the array has no defined result. -/
def writeSample (audioBuffer : List Nat) (i : Int) (v : Nat) : Option (List Nat) :=
  if 0 ≤ i ∧ i.toNat < audioBuffer.length then some (audioBuffer.set i.toNat v) else none

/-- The loop `for (int i = 0; i < 1024; i++) audioBuffer[i] = original[i * 699 / 1024];`
continued from index `i`; `fuel` bounds the number of times the loop condition is tested. -/
def stretchLoop (original : List Nat) : Nat → Int → List Nat → Option (List Nat)
  | 0, _, _ => none
  | fuel + 1, i, audioBuffer =>
    if i < 1024 then
      match readSample original (sampleIndex i) with
      | some v =>
        match writeSample audioBuffer i v with
        | some written => stretchLoop original fuel (wrapInt32 (i + 1)) written
        | none => none
      | none => none
    else some audioBuffer

/-- The stretch loop of `outputAudio` started at `i = 0`. -/
def stretch (original audioBuffer : List Nat) : Option (List Nat) :=
  stretchLoop original 1025 0 audioBuffer

/-- What one iteration of the `outputAudio` loop does to the outside world. -/
structure AudioIteration where
  /-- The count passed to `core->spu.getSamples`. -/
  requested : Nat
  /-- The global `audioBuffer` after the stretch loop. -/
  audioBuffer : List Nat
  /-- The buffer handed to `sceAudioOutOutput`. -/
  submitted : List Nat
  deriving DecidableEq, Repr

/-- One iteration of the body of `while (running)` in `outputAudio`: `original` is the batch
that `getSamples(699)` returns, `audioBuffer` the global buffer before the iteration. -/
def outputAudioIteration (original audioBuffer : List Nat) : Option AudioIteration :=
  match stretch original audioBuffer with
  | some buffer => some { requested := 699, audioBuffer := buffer, submitted := buffer }
  | none => none

/-! ## Desktop canvas (`NooCanvas::draw`, noo_canvas.cpp 60-167) -/

/-- The fields of the `ScreenLayout` object that `draw` reads. -/
structure ScreenLayout where
  topX : Int
  topY : Int
  topWidth : Int
  topHeight : Int
  botX : Int
  botY : Int
  botWidth : Int
  botHeight : Int
  deriving DecidableEq, Repr

/-- What `draw` can observe of a running core during one tick. -/
structure CoreView where
  /-- The result of `isGbaMode()`. -/
  isGbaMode : Bool
  /-- The result `gpu.getFrame` returns if it is called during this tick. -/
  frameReady : Bool
  deriving DecidableEq, Repr

/-- Everything outside the canvas object that one call of `draw` reads. -/
structure TickEnv where
  /-- The result of `frame->getCore()`: `none` is the null pointer. -/
  core : Option CoreView
  /-- Whether `ScreenLayout::gbaCrop` is nonzero. -/
  gbaCrop : Bool
  /-- The value of `ScreenLayout::screenRotation`. -/
  screenRotation : Int
  /-- Whether `Settings::highRes3D` is nonzero. -/
  highRes3D : Bool
  /-- The byte left in the local `texCoords` when no `case` of the switch assigns it. -/
  indeterminate : Nat
  /-- The layout that the resize handler computes when `SendSizeEvent` is called. -/
  resized : ScreenLayout
  /-- The first reading of `steady_clock::now()`, in clock periods (nanoseconds). -/
  now : Int
  /-- The second reading of `steady_clock::now()`, stored into `lastRateTime`. -/
  nowAfter : Int
  deriving DecidableEq, Repr

/-- The members of `NooCanvas` that `draw` reads or writes. -/
structure NooCanvas where
  layout : ScreenLayout
  gbaMode : Bool
  display : Bool
  frameCount : Int
  swapInterval : Int
  refreshRate : Int
  lastRateTime : Int
  deriving DecidableEq, Repr

/-- The calls `draw` makes on the window, the core and OpenGL, in program order. -/
inductive DrawCall where
  | setCurrent
  | clearColor
  | clear
  | sendSizeEvent
  /-- The call `gpu.getFrame(framebuffer, gba)`. -/
  | getFrame (gba : Bool)
  /-- The call `glTexImage2D` of a `width` by `height` image read from `&framebuffer[offset]`. -/
  | texImage2D (width height offset : Nat)
  /-- One `glBegin(GL_QUADS)` block: four vertices, each `(s, t, x, y)`. -/
  | quad (vertices : List (Nat × Nat × Int × Int))
  | finish
  | swapBuffers
  deriving DecidableEq, Repr

/-- One second in periods of `steady_clock`. The source converts the elapsed period count to
a `double` number of seconds and tests `>= 1.0f`; for a whole number of nanoseconds that test
holds exactly from 1000000000 on. -/
def oneSecond : Int := 1000000000

/-- The `switch (ScreenLayout::screenRotation)` choosing the texture-coordinate byte. -/
def texCoordsFor (screenRotation : Int) (indeterminate : Nat) : Nat :=
  if screenRotation = 0 then 0x4B
  else if screenRotation = 1 then 0x2D
  else if screenRotation = 2 then 0xD2
  else indeterminate % 256

/-- The argument `(texCoords >> k) & 1` of `glTexCoord2i`. -/
def texBit (texCoords k : Nat) : Nat := (texCoords >>> k) &&& 1

/-- The `glBegin(GL_QUADS)` block drawn over the rectangle `(x, y, width, height)`. -/
def screenQuad (texCoords : Nat) (x y width height : Int) : DrawCall :=
  .quad [(texBit texCoords 0, texBit texCoords 1, wrapInt32 (x + width), wrapInt32 (y + height)),
         (texBit texCoords 2, texBit texCoords 3, x, wrapInt32 (y + height)),
         (texBit texCoords 4, texBit texCoords 5, x, y),
         (texBit texCoords 6, texBit texCoords 7, wrapInt32 (x + width), y)]

/-- The drawing of the screens (noo_canvas.cpp 96-144) for the current `gbaMode`. -/
def drawScreens (gbaMode : Bool) (resShift texCoords : Nat) (l : ScreenLayout) : List DrawCall :=
  if gbaMode then
    [.texImage2D (240 <<< resShift) (160 <<< resShift) 0,
     screenQuad texCoords l.topX l.topY l.topWidth l.topHeight]
  else
    [.texImage2D (256 <<< resShift) (192 <<< resShift) 0,
     screenQuad texCoords l.topX l.topY l.topWidth l.topHeight,
     .texImage2D (256 <<< resShift) (192 <<< resShift) ((256 * 192) <<< (resShift * 2)),
     screenQuad texCoords l.botX l.botY l.botWidth l.botHeight]

/-- The branch `if (frame->getCore()) { ... }` of `draw` (noo_canvas.cpp 71-147). -/
def drawCore (s : NooCanvas) (env : TickEnv) (c : CoreView) : NooCanvas × List DrawCall :=
  let gba := c.isGbaMode && env.gbaCrop
  let changed := s.gbaMode != gba
  let layout := if changed then env.resized else s.layout
  let count := wrapInt32 (s.frameCount + 1)
  let poll := decide (count ≥ s.swapInterval)
  let frameCount := if poll && c.frameReady then 0 else count
  let texCoords := texCoordsFor env.screenRotation env.indeterminate
  let resShift := if env.highRes3D then 1 else 0
  ({ s with layout := layout, gbaMode := gba, frameCount := frameCount, display := true },
   (if changed then [DrawCall.sendSizeEvent] else []) ++
   (if poll then [DrawCall.getFrame gba] else []) ++
   drawScreens gba resShift texCoords layout)

/-- The refresh-rate tracking at the end of `draw` (noo_canvas.cpp 155-163). -/
def trackRefreshRate (s : NooCanvas) (env : TickEnv) : NooCanvas :=
  let refreshRate := wrapInt32 (s.refreshRate + 1)
  if env.now - s.lastRateTime ≥ oneSecond then
    { s with swapInterval := Int.tdiv (wrapInt32 (refreshRate + 5)) 60,
             refreshRate := 0,
             lastRateTime := env.nowAfter }
  else { s with refreshRate := refreshRate }

/-- One call of `NooCanvas::draw`: the new canvas state and the calls made. -/
def draw (s : NooCanvas) (env : TickEnv) : NooCanvas × List DrawCall :=
  if env.core.isNone && !s.display then (s, [])
  else
    let (s1, calls) :=
      match env.core with
      | some c => drawCore s env c
      | none => ({ s with display := false }, [])
    (trackRefreshRate s1 env,
     [DrawCall.setCurrent, .clearColor, .clear] ++ calls ++ [.finish, .swapBuffers])

/-- Successive calls of `draw`, one per element of `envs`: the final state and the calls of
each tick. -/
def drawTicks (s : NooCanvas) : List TickEnv → NooCanvas × List (List DrawCall)
  | [] => (s, [])
  | env :: envs =>
    let (s1, calls) := draw s env
    let (s2, rest) := drawTicks s1 envs
    (s2, calls :: rest)

/-- Whether a call of `draw` gets past the early return of line 63 and so reaches the
refresh-rate tracking. -/
def counted (s : NooCanvas) (env : TickEnv) : Bool := env.core.isSome || s.display

/-- The number of calls of `draw` among the ticks `envs`, started in state `s`, that get past
the early return: the ticks the refresh-rate counter counts. -/
def countedTicks (s : NooCanvas) : List TickEnv → Nat
  | [] => 0
  | env :: envs => (if counted s env then 1 else 0) + countedTicks (draw s env).1 envs

/-- Whether `gpu.getFrame` was called among `calls`. -/
def polled (calls : List DrawCall) : Bool :=
  calls.any fun c => match c with
    | .getFrame _ => true
    | _ => false

/-- The number of calls of `gpu.getFrame` among `calls`. -/
def pollCount (calls : List DrawCall) : Nat :=
  calls.countP fun c => match c with
    | .getFrame _ => true
    | _ => false

/-- Whether a screen image was uploaded or a quad drawn among `calls`. -/
def rendersScreen (calls : List DrawCall) : Bool :=
  calls.any fun c => match c with
    | .texImage2D _ _ _ => true
    | .quad _ => true
    | _ => false

/-- A layout with the two DS screens stacked at native size, for worked examples. -/
def stackedLayout : ScreenLayout :=
  { topX := 0, topY := 0, topWidth := 256, topHeight := 192,
    botX := 0, botY := 192, botWidth := 256, botHeight := 192 }

/-- A tick at clock reading `now` with default settings (no rotation, no GBA crop, native
resolution), for worked examples. -/
def exampleTick (core : Option CoreView) (now : Int) : TickEnv :=
  { core := core, gbaCrop := false, screenRotation := 0, highRes3D := false,
    indeterminate := 0, resized := stackedLayout, now := now, nowAfter := now }

/-- Modelled from the spec: the initial values of the pacing members of `NooCanvas`, which
are declared in `noo_canvas.h` (not among the sources). The spec gives a tick count starting
at 0 and a swap interval starting at 1; the canvas starts out displaying. -/
def pacingStart (layout : ScreenLayout) (startTime : Int) : NooCanvas :=
  { layout := layout, gbaMode := false, display := true,
    frameCount := 0, swapInterval := 1, refreshRate := 0, lastRateTime := startTime }

/-! ## Vita worker threads (`runCore`, `outputAudio`, `checkSave`, `startCore`, `stopCore`,
main.cpp 195-296)

The four threads are interleaved statement by statement: every step executes one statement of
one thread atomically, and a scheduler choice says which thread moves. -/

/-- The two cartridge slots of the core. -/
inductive Slot where
  | nds
  | gba
  deriving DecidableEq, Repr

/-- The three worker threads created by `startCore`. -/
inductive Worker where
  | core
  | audio
  | save
  deriving DecidableEq, Repr

/-- The observable actions of the main thread and of the workers. -/
inductive Event where
  /-- Control enters `startCore`. -/
  | startCoreEntered
  /-- The call `scePowerSetArmClockFrequency(mhz)`. -/
  | setArmClock (mhz : Nat)
  /-- The assignment `running = value`. -/
  | setRunning (value : Bool)
  /-- The statement `new std::thread(...)` creating worker `w`. -/
  | spawned (w : Worker)
  /-- The call `sceKernelSetEventFlag(eventFlag, 1)`. -/
  | setEventFlag
  /-- The call `join()` on worker `w` has returned. -/
  | joined (w : Worker)
  /-- Control leaves `stopCore`. -/
  | stopCoreReturned
  /-- The call `core->runFrame()`. -/
  | runFrame
  /-- The call `core->spu.getSamples(count)`. -/
  | getSamples (count : Nat)
  /-- The call `sceAudioOutOutput(audioPort, audioBuffer)`. -/
  | audioOut
  /-- The call `sceKernelWaitEventFlag` has returned; `signalled` tells whether the flag
  ended the wait (otherwise the timeout did). -/
  | waitEventFlag (timeout : Nat) (signalled : Bool)
  /-- The call `writeSave()` on the cartridge in `slot`. -/
  | writeSave (slot : Slot)
  deriving DecidableEq, Repr

/-- Where the thread running `runCore` stands. -/
inductive CorePc where
  /-- About to test `while (running)`. -/
  | loopCheck
  /-- About to call `core->runFrame()`. -/
  | runFrame
  /-- No thread is running `runCore` (not started, or returned). -/
  | terminated
  deriving DecidableEq, Repr

/-- Where the thread running `outputAudio` stands. -/
inductive AudioPc where
  /-- About to test `while (running)`. -/
  | loopCheck
  /-- About to call `getSamples(699)` and stretch the batch. -/
  | getSamples
  /-- About to call `sceAudioOutOutput`. -/
  | output
  /-- No thread is running `outputAudio`. -/
  | terminated
  deriving DecidableEq, Repr

/-- Where the thread running `checkSave` stands. -/
inductive SavePc where
  /-- About to test `while (running)`. -/
  | loopCheck
  /-- In `sceKernelWaitEventFlag` with the 3000000 microsecond timeout. -/
  | wait
  /-- About to call `core->cartridgeNds.writeSave()`. -/
  | writeNds
  /-- About to call `core->cartridgeGba.writeSave()`. -/
  | writeGba
  /-- No thread is running `checkSave`. -/
  | terminated
  deriving DecidableEq, Repr

/-- Where the main thread stands with respect to `startCore` and `stopCore`; each value names
the statement executed next. -/
inductive MainPc where
  /-- Outside both functions with the emulation stopped; next is the call of `startCore`
  and its line 273. -/
  | stopped
  /-- Next is `running = true` (line 276). -/
  | startRunning
  /-- Next is `coreThread = new std::thread(runCore)` (line 277). -/
  | spawnCore
  /-- Next is `audioThread = new std::thread(outputAudio)` (line 278). -/
  | spawnAudio
  /-- Next is `saveThread = new std::thread(checkSave)` (line 279). -/
  | spawnSave
  /-- Outside both functions with the emulation started; next is the call of `stopCore` and
  its line 284, `running = false`. -/
  | started
  /-- Next is `sceKernelSetEventFlag(eventFlag, 1)` (line 285). -/
  | stopSetEvent
  /-- Next is `coreThread->join()` (line 288). -/
  | joinCore
  /-- Next is `audioThread->join()` (line 290). -/
  | joinAudio
  /-- Next is `saveThread->join()` (line 292). -/
  | joinSave
  /-- Next is `scePowerSetArmClockFrequency(333)` (line 295) and the return. -/
  | stopClock
  deriving DecidableEq, Repr

/-- The shared variables and the position of every thread. -/
structure Vita where
  /-- The global `running`. -/
  running : Bool
  /-- Bit 1 of the kernel event flag `eventFlag`. -/
  eventFlag : Bool
  main : MainPc
  core : CorePc
  audio : AudioPc
  save : SavePc
  /-- Whether the NDS cartridge's save memory was modified since its last `writeSave`. -/
  unsavedNds : Bool
  /-- Whether the GBA cartridge's save memory was modified since its last `writeSave`. -/
  unsavedGba : Bool
  /-- The events so far, most recent first. -/
  trace : List Event
  deriving DecidableEq, Repr

/-- One scheduling decision: which thread executes its next statement, together with what
the environment decides for that statement. -/
inductive Choice where
  | main
  /-- The core thread moves; if the statement is `runFrame()`, `modified` is the cartridge
  whose save memory the emulated frame writes, if any. -/
  | core (modified : Option Slot)
  | audio
  /-- The save thread moves; if it is in the timed wait, `signalled` tells whether the wait
  ends by the flag (true) or by the timeout (false). -/
  | save (signalled : Bool)
  deriving DecidableEq, Repr

/-- The timeout `SceUInt timeout = 3000000` of `checkSave`, in microseconds. -/
def saveTimeout : Nat := 3000000

/-- The state at program start: no worker exists, `running = false`, the event flag was
created with pattern 0 (main.cpp 65, 709). -/
def Vita.initial : Vita :=
  { running := false, eventFlag := false, main := .stopped, core := .terminated,
    audio := .terminated, save := .terminated, unsavedNds := false, unsavedGba := false,
    trace := [] }

/-- One statement of the main thread in `startCore` (271-280) or `stopCore` (282-296); a
`join` can only return once the joined thread has terminated. -/
def stepMain (s : Vita) : Option Vita :=
  match s.main with
  | .stopped =>
    some { s with main := .startRunning,
                  trace := .setArmClock 444 :: .startCoreEntered :: s.trace }
  | .startRunning =>
    some { s with main := .spawnCore, running := true, trace := .setRunning true :: s.trace }
  | .spawnCore =>
    some { s with main := .spawnAudio, core := .loopCheck,
                  trace := .spawned .core :: s.trace }
  | .spawnAudio =>
    some { s with main := .spawnSave, audio := .loopCheck,
                  trace := .spawned .audio :: s.trace }
  | .spawnSave =>
    some { s with main := .started, save := .loopCheck, trace := .spawned .save :: s.trace }
  | .started =>
    some { s with main := .stopSetEvent, running := false,
                  trace := .setRunning false :: s.trace }
  | .stopSetEvent =>
    some { s with main := .joinCore, eventFlag := true, trace := .setEventFlag :: s.trace }
  | .joinCore =>
    if s.core = .terminated then
      some { s with main := .joinAudio, trace := .joined .core :: s.trace }
    else none
  | .joinAudio =>
    if s.audio = .terminated then
      some { s with main := .joinSave, trace := .joined .audio :: s.trace }
    else none
  | .joinSave =>
    if s.save = .terminated then
      some { s with main := .stopClock, trace := .joined .save :: s.trace }
    else none
  | .stopClock =>
    some { s with main := .stopped,
                  trace := .stopCoreReturned :: .setArmClock 333 :: s.trace }

/-- One statement of `runCore` (195-200). The effect of `runFrame` on the save memory is
given by the scheduler choice. -/
def stepCore (s : Vita) (modified : Option Slot) : Option Vita :=
  match s.core with
  | .loopCheck => some { s with core := if s.running then .runFrame else .terminated }
  | .runFrame =>
    some { s with core := .loopCheck,
                  unsavedNds := s.unsavedNds || decide (modified = some .nds),
                  unsavedGba := s.unsavedGba || decide (modified = some .gba),
                  trace := .runFrame :: s.trace }
  | .terminated => none

/-- One statement of `outputAudio` (202-217); the stretch loop itself is
`outputAudioIteration` and moves no shared control state. -/
def stepAudio (s : Vita) : Option Vita :=
  match s.audio with
  | .loopCheck => some { s with audio := if s.running then .getSamples else .terminated }
  | .getSamples => some { s with audio := .output, trace := .getSamples 699 :: s.trace }
  | .output => some { s with audio := .loopCheck, trace := .audioOut :: s.trace }
  | .terminated => none

/-- One statement of `checkSave` (219-229). The wait uses `SCE_EVENT_WAITOR |
SCE_EVENT_WAITCLEAR_PAT` on bit 1: it returns by the flag only when the flag is set, and then
clears it; it returns by timeout only while the flag is clear. -/
def stepSave (s : Vita) (signalled : Bool) : Option Vita :=
  match s.save with
  | .loopCheck => some { s with save := if s.running then .wait else .terminated }
  | .wait =>
    if signalled = s.eventFlag then
      some { s with save := .writeNds, eventFlag := false,
                    trace := .waitEventFlag saveTimeout signalled :: s.trace }
    else none
  | .writeNds =>
    some { s with save := .writeGba, unsavedNds := false, trace := .writeSave .nds :: s.trace }
  | .writeGba =>
    some { s with save := .loopCheck, unsavedGba := false,
                  trace := .writeSave .gba :: s.trace }
  | .terminated => none

/-- One step of the interleaved program; `none` when the chosen thread cannot move. -/
def step (s : Vita) : Choice → Option Vita
  | .main => stepMain s
  | .core modified => stepCore s modified
  | .audio => stepAudio s
  | .save signalled => stepSave s signalled

/-- A whole schedule, executed from `s`; `none` when some choice names a thread that cannot
move at that point. -/
def run (s : Vita) : List Choice → Option Vita
  | [] => some s
  | c :: rest =>
    match step s c with
    | some s1 => run s1 rest
    | none => none

/-- Whether a scheduler choice moves the save thread. -/
def Choice.isSave : Choice → Bool
  | .save _ => true
  | _ => false

/-- Whether an event is a call into the core made by a worker (`runFrame`, `getSamples`,
`writeSave`). -/
def Event.isCoreOp : Event → Bool
  | .runFrame => true
  | .getSamples _ => true
  | .writeSave _ => true
  | _ => false

/-- Whether an event is an action of the save thread. -/
def Event.bySave : Event → Bool
  | .waitEventFlag _ _ => true
  | .writeSave _ => true
  | _ => false

/-- The events of the save thread in a trace (most recent first). -/
def saveEvents (trace : List Event) : List Event := trace.filter Event.bySave

/-- Whether, at the end of the trace (most recent first), the main thread is between a return
of `stopCore` (or program start) and the next call of `startCore`. -/
def stoppedNow : List Event → Bool
  | [] => true
  | .stopCoreReturned :: _ => true
  | .startCoreEntered :: _ => false
  | _ :: rest => stoppedNow rest

/-- Whether no worker called into the core at a time when the main thread was between a
return of `stopCore` (or program start) and the next call of `startCore`. -/
def quietWhileStopped : List Event → Bool
  | [] => true
  | e :: rest => (!(e.isCoreOp && stoppedNow rest)) && quietWhileStopped rest

/-- How far a call of `stopCore` has got, as seen from its events. -/
inductive StopPhase where
  | outside
  | cleared
  | signalled
  | joinedCore
  | joinedAudio
  | joinedSave
  deriving DecidableEq, Repr

/-- The order monitor for `stopCore`: reads one event in phase `p` and gives the next phase,
or `none` when the event is one of `running = false`, set event flag, the three joins, or the
return of `stopCore`, and comes out of the order clear, signal, join core, join audio, join
save, return. -/
def stopOrderStep (p : StopPhase) : Event → Option StopPhase
  | .setRunning false => if p = .outside then some .cleared else none
  | .setEventFlag => if p = .cleared then some .signalled else none
  | .joined .core => if p = .signalled then some .joinedCore else none
  | .joined .audio => if p = .joinedCore then some .joinedAudio else none
  | .joined .save => if p = .joinedAudio then some .joinedSave else none
  | .stopCoreReturned => if p = .joinedSave then some .outside else none
  | _ => some p

/-- The order monitor run over a whole trace (most recent first). -/
def stopOrder : List Event → Option StopPhase
  | [] => some .outside
  | e :: rest =>
    match stopOrder rest with
    | some p => stopOrderStep p e
    | none => none

/-- The phase of `stopCore` that a position of the main thread corresponds to. -/
def MainPc.stopPhase : MainPc → StopPhase
  | .stopSetEvent => .cleared
  | .joinCore => .signalled
  | .joinAudio => .joinedCore
  | .joinSave => .joinedAudio
  | .stopClock => .joinedSave
  | _ => .outside

/-- Which workers can exist, and what `running` holds, at each position of the main
thread. -/
def workersMatch (s : Vita) : Bool :=
  match s.main with
  | .stopped | .startRunning =>
    !s.running && s.core == .terminated && s.audio == .terminated && s.save == .terminated
  | .spawnCore =>
    s.running && s.core == .terminated && s.audio == .terminated && s.save == .terminated
  | .spawnAudio => s.running && s.audio == .terminated && s.save == .terminated
  | .spawnSave => s.running && s.save == .terminated
  | .started => s.running
  | .stopSetEvent | .joinCore => !s.running
  | .joinAudio => !s.running && s.core == .terminated
  | .joinSave => !s.running && s.core == .terminated && s.audio == .terminated
  | .stopClock =>
    !s.running && s.core == .terminated && s.audio == .terminated && s.save == .terminated

/-- The invariant of the interleaved program: the workers fit the position of the main
thread, and the trace monitors agree with that position. -/
def Vita.Consistent (s : Vita) : Prop :=
  workersMatch s = true ∧ stoppedNow s.trace = decide (s.main = .stopped) ∧
  quietWhileStopped s.trace = true ∧ stopOrder s.trace = some s.main.stopPhase

/-- A schedule in which the save worker completes one flush, the emulated frame then writes
the NDS save memory, and `stopCore` clears `running` before the worker tests it again. -/
def lostSaveSchedule : List Choice :=
  [.main, .main, .main, .main, .main,
   .save false, .save false, .save false, .save false,
   .core none, .core (some .nds),
   .main,
   .save false, .core none, .audio,
   .main, .main, .main, .main, .main]

/-- A schedule in which every worker calls into the core once and `stopCore` then runs to
its return while the save worker is in its timed wait. -/
def stopWhileWaitingSchedule : List Choice :=
  [.main, .main, .main, .main, .main,
   .core none, .core none, .audio, .audio, .audio,
   .save false, .save false, .save false, .save false, .save false,
   .main, .main,
   .core none, .audio, .save true, .save false, .save false, .save false,
   .main, .main, .main, .main]

/-! ## Audio port parameters (main.cpp 206-208, 719) -/

/-- The sample rate of the emulated sound hardware, as the comment of `outputAudio` gives it
(`The NDS sample rate is 32768Hz`, main.cpp 206). -/
def nativeSampleRate : Nat := 32768

/-- The buffer length passed to `sceAudioOutOpenPort` (main.cpp 719). -/
def audioPortLength : Nat := 1024

/-- The sample rate passed to `sceAudioOutOpenPort` (main.cpp 719). -/
def audioPortRate : Nat := 48000

/-- The quotient `a / b` rounded to the nearest integer (halves upwards), the `round` of the
specification. -/
def roundDiv (a b : Nat) : Nat := (2 * a + b) / (2 * b)

/-! ## Framebuffer regions (main.cpp 70, 798-817; noo_canvas.cpp 96-133) -/

/-- The number of elements of `uint32_t framebuffer[256 * 192 * 8]`. -/
def framebufferSize : Nat := 256 * 192 * 8

/-- The elements of `framebuffer` read by the `glTexImage2D` calls among `calls`, each as
`(first index, number of elements)`. -/
def imageRegions : List DrawCall → List (Nat × Nat)
  | [] => []
  | .texImage2D width height offset :: rest => (offset, width * height) :: imageRegions rest
  | _ :: rest => imageRegions rest

/-- One call of the Vita `drawScreen` (main.cpp 643-668): `data` is `&framebuffer[offset]`;
its copy loop reads `height` rows of `width` elements, `data[y * width]` onwards. -/
structure VitaScreenDraw where
  offset : Nat
  width : Nat
  height : Nat
  scrX : Int
  scrY : Int
  scrWidth : Int
  scrHeight : Int
  deriving DecidableEq, Repr

/-- The `drawScreen` calls of the Vita main loop (main.cpp 804-817). -/
def vitaDrawScreens (gbaMode : Bool) (resShift : Nat) (l : ScreenLayout) : List VitaScreenDraw :=
  if gbaMode then
    [{ offset := 0, width := 240 <<< resShift, height := 160 <<< resShift,
       scrX := l.topX, scrY := l.topY, scrWidth := l.topWidth, scrHeight := l.topHeight }]
  else
    [{ offset := 0, width := 256 <<< resShift, height := 192 <<< resShift,
       scrX := l.topX, scrY := l.topY, scrWidth := l.topWidth, scrHeight := l.topHeight },
     { offset := (256 * 192) <<< (resShift * 2), width := 256 <<< resShift,
       height := 192 <<< resShift,
       scrX := l.botX, scrY := l.botY, scrWidth := l.botWidth, scrHeight := l.botHeight }]

/-- The elements of `framebuffer` that the copy loop of `drawScreen` reads, as
`(first index, number of elements)`. -/
def VitaScreenDraw.region (d : VitaScreenDraw) : Nat × Nat := (d.offset, d.width * d.height)

/-- The value of `bool resShift = Settings::highRes3D` used as a shift count. -/
def resShiftOf (highRes3D : Bool) : Nat := if highRes3D then 1 else 0

/-! ## Texture rotation (noo_canvas.cpp 87-113) -/

/-- The vertices `(s, t, x, y)` of a quad. -/
def DrawCall.vertices : DrawCall → List (Nat × Nat × Int × Int)
  | .quad vs => vs
  | _ => []

/-- The quad drawn over the unit square, whose corners are bottom-right `(1, 1)`, bottom-left
`(0, 1)`, top-left `(0, 0)` and top-right `(1, 0)` (y grows downwards, as in the window). -/
def unitQuad (texCoords : Nat) : List (Nat × Nat × Int × Int) :=
  (screenQuad texCoords 0 0 1 1).vertices

/-- Where a quarter turn clockwise of the image puts the texture point `(s, t)` of the unit
square (t grows downwards): the top-left corner goes to the top-right. -/
def quarterTurnCw (p : Int × Int) : Int × Int := (1 - p.2, p.1)

/-- Where a quarter turn counter-clockwise of the image puts the texture point `(s, t)`: the
top-left corner goes to the bottom-left. -/
def quarterTurnCcw (p : Int × Int) : Int × Int := (p.2, 1 - p.1)

/-- The texture corner `(s, t)` assigned to the vertex at position `pos` of the unit quad. -/
def texAt (texCoords : Nat) (pos : Int × Int) : Option (Int × Int) :=
  ((unitQuad texCoords).find? fun v => decide ((v.2.2.1, v.2.2.2) = pos)).map
    fun v => ((v.1 : Int), (v.2.1 : Int))

/-! ## Desktop layout dialog (layout_dialog.cpp)

The accessors `ScreenLayout::get...`/`set...` and `NooApp::getScreenFilter`/`setScreenFilter`
are declared outside the sources; a setter stores its `int` argument and a getter returns the
stored value. -/

/-- The layout settings the dialog reads and writes. -/
structure LayoutSettings where
  screenPosition : Int
  screenRotation : Int
  screenArrangement : Int
  screenSizing : Int
  screenGap : Int
  integerScale : Int
  gbaCrop : Int
  screenFilter : Int
  deriving DecidableEq, Repr

/-- The array `prevSettings` of `LayoutDialog`, one field per index used. -/
structure PrevSettings where
  slot0 : Int
  slot1 : Int
  slot2 : Int
  slot3 : Int
  slot4 : Int
  slot5 : Int
  slot6 : Int
  deriving DecidableEq, Repr

/-- The events of the dialog's event table other than the two buttons. -/
inductive LayoutEvent where
  | posCenter
  | posTop
  | posBottom
  | posLeft
  | posRight
  | rotateNone
  | rotateCw
  | rotateCcw
  | arrangeAuto
  | arrangeVert
  | arrangeHori
  | sizeEven
  | sizeTop
  | sizeBot
  | gapNone
  | gapQuart
  | gapHalf
  | gapFull
  | intScale
  | gbaCrop
  | filter
  deriving DecidableEq, Repr

/-- The value of `!x` for an `int` setting `x`, stored back into an `int`. -/
def logicalNot (x : Int) : Int := if x = 0 then 1 else 0

/-- The part of the constructor `LayoutDialog::LayoutDialog` that remembers the settings
(layout_dialog.cpp 78-85). -/
def LayoutDialog.remember (g : LayoutSettings) : PrevSettings :=
  { slot0 := g.screenRotation,
    slot1 := g.screenArrangement,
    slot2 := g.screenSizing,
    slot3 := g.screenGap,
    slot4 := g.integerScale,
    slot5 := g.gbaCrop,
    slot6 := g.screenFilter }

/-- The handlers `posCenter` to `filter` (layout_dialog.cpp 197-342). -/
def LayoutDialog.handle (g : LayoutSettings) : LayoutEvent → LayoutSettings
  | .posCenter => { g with screenPosition := 0 }
  | .posTop => { g with screenPosition := 1 }
  | .posBottom => { g with screenPosition := 2 }
  | .posLeft => { g with screenPosition := 3 }
  | .posRight => { g with screenPosition := 4 }
  | .rotateNone => { g with screenRotation := 0 }
  | .rotateCw => { g with screenRotation := 1 }
  | .rotateCcw => { g with screenRotation := 2 }
  | .arrangeAuto => { g with screenArrangement := 0 }
  | .arrangeVert => { g with screenArrangement := 1 }
  | .arrangeHori => { g with screenArrangement := 2 }
  | .sizeEven => { g with screenSizing := 0 }
  | .sizeTop => { g with screenSizing := 1 }
  | .sizeBot => { g with screenSizing := 2 }
  | .gapNone => { g with screenGap := 0 }
  | .gapQuart => { g with screenGap := 1 }
  | .gapHalf => { g with screenGap := 2 }
  | .gapFull => { g with screenGap := 3 }
  | .intScale => { g with integerScale := logicalNot g.integerScale }
  | .gbaCrop => { g with gbaCrop := logicalNot g.gbaCrop }
  | .filter => { g with screenFilter := logicalNot g.screenFilter }

/-- The handler `LayoutDialog::cancel` (layout_dialog.cpp 344-357). -/
def LayoutDialog.cancel (prev : PrevSettings) (g : LayoutSettings) : LayoutSettings :=
  { g with screenRotation := prev.slot0,
           screenArrangement := prev.slot1,
           screenSizing := prev.slot2,
           screenGap := prev.slot3,
           integerScale := prev.slot4,
           gbaCrop := prev.slot5,
           screenFilter := prev.slot6 }

/-- A dialog session that ends in cancel: the settings after construction at `g`, the events
`events` in order, and `cancel`. -/
def LayoutDialog.cancelled (g : LayoutSettings) (events : List LayoutEvent) : LayoutSettings :=
  LayoutDialog.cancel (LayoutDialog.remember g) (events.foldl LayoutDialog.handle g)

/-- Settings with every value 0 (position centre, no rotation, ...). -/
def defaultLayoutSettings : LayoutSettings :=
  { screenPosition := 0, screenRotation := 0, screenArrangement := 0, screenSizing := 0,
    screenGap := 0, integerScale := 0, gbaCrop := 0, screenFilter := 0 }

/-! ## Vita menus (`menu`, `message`, main.cpp 76-193)

`unsigned int`, `size_t` and `uint32_t` are 32 bits wide on the Vita; their values are `Nat`s
below 4294967296. -/

/-- The sum of two 32-bit unsigned values. It is irreducible; proofs unfold it explicitly. -/
@[irreducible] def addUInt32 (a b : Nat) : Nat := (a + b) % 4294967296

/-- The difference of two 32-bit unsigned values, wrapping below zero. It is irreducible;
proofs unfold it explicitly. -/
@[irreducible] def subUInt32 (a b : Nat) : Nat :=
  (a % 4294967296 + (4294967296 - b % 4294967296)) % 4294967296

/-- The value of `~x` for a `uint32_t`. -/
def notUInt32 (x : Nat) : Nat := 4294967295 ^^^ x

/-- The mask `SCE_CTRL_UP` of the Vita SDK header `psp2/ctrl.h`. -/
def SCE_CTRL_UP : Nat := 0x10

/-- The mask `SCE_CTRL_DOWN` of the Vita SDK header `psp2/ctrl.h`. -/
def SCE_CTRL_DOWN : Nat := 0x40

/-- The three text colours `COLOR_TEXT1`, `COLOR_TEXT2`, `COLOR_TEXT3` (main.cpp 42-44). -/
inductive TextColor where
  | text1
  | text2
  | text3
  deriving DecidableEq, Repr

/-- One call of `vita2d_pgf_draw_text`. A coordinate or text that depends on a vector element
outside the vector is `none`. -/
structure DrawText where
  x : Option Int
  y : Nat
  color : TextColor
  text : Option String
  deriving DecidableEq, Repr

/-- The arguments of `menu` other than the selection. -/
structure MenuArgs where
  title : String
  subtitle : String
  items : List String
  /-- The vector behind `subitems`, `none` for a null pointer. -/
  subitems : Option (List String)
  buttonMask : Nat

/-- The value of `visible = std::min(items->size(), 24U)` (main.cpp 86). -/
def menuVisible (size : Nat) : Nat := min size 24

/-- The scroll offset computed at main.cpp 85, 101-108. -/
def menuOffset (size selection : Nat) : Nat :=
  if size > 24 then
    if selection ≥ subUInt32 size 13 then subUInt32 size 24
    else if selection > 11 then subUInt32 selection 11
    else 0
  else 0

/-- The colour of row `i`: `(*selection == i + offset) ? COLOR_TEXT3 : COLOR_TEXT1`. -/
def rowColor (selection offset i : Nat) : TextColor :=
  if selection = addUInt32 i offset then .text3 else .text1

/-- The item rows drawn by the loop at main.cpp 110-113, top row first. -/
def menuItemRows (items : List String) (selection y : Nat) : List DrawText :=
  (List.range (menuVisible items.length)).map fun i =>
    { x := some 5,
      y := addUInt32 y (i * 20 % 4294967296),
      color := rowColor selection (menuOffset items.length selection) i,
      text := items[addUInt32 i (menuOffset items.length selection)]? }

/-- The sub-item rows drawn by the loop at main.cpp 115-124, top row first; `textWidth` is
`vita2d_pgf_text_width` at scale 1. -/
def menuSubitemRows (textWidth : String → Int) (items subitems : List String)
    (selection y : Nat) : List DrawText :=
  (List.range (menuVisible items.length)).map fun i =>
    { x := (subitems[i]?).map fun sub => wrapInt32 (955 - textWidth sub),
      y := addUInt32 y (i * 20 % 4294967296),
      color := rowColor selection (menuOffset items.length selection) i,
      text := subitems[addUInt32 i (menuOffset items.length selection)]? }

/-- The value of `pressed = held.buttons & ~buttons` (main.cpp 132, 184). -/
def newlyPressed (held buttons : Nat) : Nat := held &&& notUInt32 buttons

/-- How a call of `menu` stands after the button polls available to it. -/
inductive MenuResult where
  /-- The call returned `pressed`, leaving `*selection = selection` and the polls `rest`
  unread. -/
  | returned (pressed selection : Nat) (rest : List Nat)
  /-- The call is still in its loop, with the local `buttons` and `*selection` as given. -/
  | waiting (buttons selection : Nat)
  deriving DecidableEq, Repr

/-- The loop of `menu` from the poll onwards (main.cpp 129-153), one iteration per element of
the list of `held.buttons` values; every iteration first draws `menuFrame` for the current
selection. `size` is `items->size()`. -/
def menuLoop (size buttonMask : Nat) : List Nat → Nat → Nat → MenuResult
  | [], buttons, selection => .waiting buttons selection
  | held :: rest, buttons, selection =>
    if newlyPressed held buttons &&& buttonMask ≠ 0 then
      .returned (newlyPressed held buttons) selection rest
    else if newlyPressed held buttons &&& SCE_CTRL_UP ≠ 0 ∧ selection > 0 then
      menuLoop size buttonMask rest held (subUInt32 selection 1)
    else if newlyPressed held buttons &&& SCE_CTRL_DOWN ≠ 0 ∧ selection < subUInt32 size 1 then
      menuLoop size buttonMask rest held (addUInt32 selection 1)
    else menuLoop size buttonMask rest held selection

/-- The function `menu`: the loop entered with `buttons = 0xFFFFFFFF` (main.cpp 80). -/
def menu (a : MenuArgs) (polls : List Nat) (selection : Nat) : MenuResult :=
  menuLoop a.items.length a.buttonMask polls 0xFFFFFFFF selection

/-- The selection a call of `menu` has left in `*selection`. -/
def MenuResult.selection : MenuResult → Nat
  | .returned _ selection _ => selection
  | .waiting _ selection => selection

/-- How a call of `message` stands after the button polls available to it. -/
inductive MessageResult where
  /-- The call returned `pressed`, leaving the polls `rest` unread. -/
  | returned (pressed : Nat) (rest : List Nat)
  /-- The call is still in its loop, with the local `buttons` as given. -/
  | waiting (buttons : Nat)
  deriving DecidableEq, Repr

/-- The text lines one iteration of `message` draws (main.cpp 166-176): the pieces of `text`
between newline characters, 20 pixels apart. -/
def messageFrame (text : String) : List DrawText :=
  (text.splitOn "\n").enum.map fun (k, line) =>
    { x := some 5, y := (20 * (k + 1)) % 4294967296, color := .text1, text := some line }

/-- The loop of `message` from the poll onwards (main.cpp 181-192). -/
def messageLoop (buttonMask : Nat) : List Nat → Nat → MessageResult
  | [], buttons => .waiting buttons
  | held :: rest, buttons =>
    if newlyPressed held buttons &&& buttonMask ≠ 0 then
      .returned (newlyPressed held buttons) rest
    else messageLoop buttonMask rest held

/-- The function `message`: the loop entered with `buttons = 0xFFFFFFFF` (main.cpp 159). -/
def message (buttonMask : Nat) (polls : List Nat) : MessageResult :=
  messageLoop buttonMask polls 0xFFFFFFFF

/-- No poll of the list has, inside `mask`, a button held that was not held at the poll
before it. -/
def NoNewPress (mask : Nat) (polls : List Nat) : Prop :=
  List.Chain' (fun previous held => newlyPressed held previous &&& mask = 0) polls

/-! ## Touch transform (`ScreenLayout::getTouchX`, `getTouchY`) -/

/-- Modelled from the spec: the clamping of a pointer coordinate to the nearest edge of a
rectangle side that starts at `origin` and is `size` pixels long (section 4.5: "if outside
both, clamp to nearest edge"). The function it belongs to, in
`src/common/screen_layout.cpp`, is not among the sources. -/
def clampToSide (p origin size : Int) : Int := max origin (min p (origin + size - 1))

/-- Modelled from the spec: the rescaling of the offset `d` along a side of `size` output
pixels to the `native` pixels of the touch screen (section 4.5: "rescale into the
touch-capable screen's fixed native resolution"); the function it belongs to, in
`src/common/screen_layout.cpp`, is not among the sources. A side without extent, as that of
the rectangle the spec calls "empty/unused in cropped mode", has only its origin to clamp to,
so the offset is 0; the transform "must not fail" and returns "a clamped in-bounds result
rather than failing", so there the result is that 0 and nothing is divided by the size. -/
def rescale (d size native : Int) : Int := if size ≤ 0 then 0 else d * native / size

/-- Modelled from the spec: `ScreenLayout::getTouchX` and `getTouchY` of
`src/common/screen_layout.cpp`, which is not among the sources. Section 4.5: "given a pointer
coordinate in output space, determine which rectangle it falls within (if outside both, clamp
to nearest edge - must not fail), subtract the rectangle's origin, undo rotation, and rescale
into the touch-capable screen's fixed native resolution". The touch-capable screen is the
bottom screen, 256 by 192; rotation 1 is clockwise and 2 counter-clockwise, as in
`NooCanvas::draw`. The layout is any value of the eight fields, so every layout that
`layout.update` computes is one. The result is `(touchX, touchY)`. -/
def getTouch (l : ScreenLayout) (screenRotation x y : Int) : Int × Int :=
  let dx := clampToSide x l.botX l.botWidth - l.botX
  let dy := clampToSide y l.botY l.botHeight - l.botY
  if screenRotation = 0 then (rescale dx l.botWidth 256, rescale dy l.botHeight 192)
  else if screenRotation = 1 then (rescale dy l.botHeight 256, 191 - rescale dx l.botWidth 192)
  else (255 - rescale dy l.botHeight 256, rescale dx l.botWidth 192)

/-- A layout of the cropped single-screen mode for worked examples: the touch screen is not
shown and its rectangle has no extent. -/
def croppedLayout : ScreenLayout :=
  { topX := 0, topY := 0, topWidth := 240, topHeight := 160,
    botX := 0, botY := 0, botWidth := 0, botHeight := 0 }

/-! ## Vita front-end: core creation and the menus around it
(`createCore`, `startCore`, `stopCore`, `settingsMenu`, `setPath`, `fileBrowser`,
`saveTypeMenu`, `pauseMenu`, `main`; main.cpp 231-296, 298-641, 670-747) -/

/-- The mask `SCE_CTRL_TRIANGLE` of the Vita SDK header `psp2/ctrl.h`. -/
def SCE_CTRL_TRIANGLE : Nat := 0x1000

/-- The mask `SCE_CTRL_CIRCLE` of the Vita SDK header `psp2/ctrl.h`. -/
def SCE_CTRL_CIRCLE : Nat := 0x2000

/-- The mask `SCE_CTRL_CROSS` of the Vita SDK header `psp2/ctrl.h`. -/
def SCE_CTRL_CROSS : Nat := 0x4000

/-- The values of `CoreError` that the handler in `createCore` tells apart
(main.cpp 247-264). -/
inductive CoreError where
  | ERROR_BIOS
  | ERROR_FIRM
  | ERROR_ROM
  deriving DecidableEq, Repr

/-- What the global `Core *core` holds: `nullptr` (its value at program start and after a
failed `createCore`), a constructed core, or the address of a core that `delete core` has
destroyed and that nothing has been assigned over yet. -/
inductive CorePtr where
  | null
  | valid
  | deleted
  deriving DecidableEq, Repr

/-- The calls of the front-end that the trace records. -/
inductive FrontEvent where
  /-- The statement `core = new Core(ndsPath, gbaPath)` was executed with these paths. -/
  | newCore (ndsPath gbaPath : String)
  /-- The call `createCore()` returned `result`. -/
  | createCore (result : Bool)
  /-- The call `startCore()` was made while `core` was as given; it starts the three
  workers. -/
  | startCore (core : CorePtr)
  /-- The call `stopCore()` was made. -/
  | stopCore
  /-- The call `message(text, ...)` was made. -/
  | message (text : String)
  /-- The call `menu(title, subtitle, ...)` returned. -/
  | menu (title subtitle : String)
  /-- The call `resizeSave(size)` was made on `core->cartridgeGba` (`gba`) or on
  `core->cartridgeNds`. -/
  | resizeSave (gba : Bool) (size : Nat)
  /-- The call `layout.update(960, 544, gbaMode)` was made. -/
  | layoutUpdate
  /-- The call `Settings::save()` was made. -/
  | settingsSave
  deriving DecidableEq, Repr

/-- The fourteen settings that `settingsMenu` shows, in the order of its rows. -/
structure FrontSettings where
  directBoot : Int
  fpsLimiter : Int
  threaded2D : Int
  threaded3D : Int
  highRes3D : Int
  screenPosition : Int
  screenRotation : Int
  screenArrangement : Int
  screenSizing : Int
  screenGap : Int
  integerScale : Int
  gbaCrop : Int
  screenFilter : Int
  showFpsCounter : Int
  deriving DecidableEq, Repr

/-- The globals of main.cpp that the menus read and write, the inputs that the coming calls
will read, and the calls made so far. -/
structure Front where
  confirmButton : Nat
  cancelButton : Nat
  ndsPath : String
  gbaPath : String
  core : CorePtr
  settings : FrontSettings
  /-- The values of `held.buttons` that the coming polls of `menu` and `message` read. -/
  polls : List Nat
  /-- What the coming executions of `new Core(ndsPath, gbaPath)` do: `none` constructs the
  core, `some e` throws `e`. -/
  constructs : List (Option CoreError)
  /-- The entries, as name and `SCE_S_ISDIR`, that the coming directory listings of
  `fileBrowser` read. -/
  dirs : List (List (String × Bool))
  /-- The results of the coming calls of `core->isGbaMode()` in `saveTypeMenu`. -/
  gbaModes : List Bool
  /-- Whether `pressed.ry >= 192` holds at the coming iterations of the loop of `main`. -/
  sticks : List Bool
  /-- The calls made so far, the most recent first. -/
  trace : List FrontEvent
  deriving DecidableEq, Repr

/-- How a call of one of the front-end functions stands once the inputs available to it are
used up. -/
inductive Outcome (α : Type) where
  /-- The call returned `value`. -/
  | done (value : α) (s : Front)
  /-- The call has not returned: it waits for a button, or an input it needs is not in the
  state. -/
  | pending (s : Front)
  /-- The call has executed an operation that C++ gives no meaning to. -/
  | undefined (s : Front)
  deriving DecidableEq, Repr

/-- The state in which a call stands. -/
def Outcome.state {α : Type} : Outcome α → Front
  | .done _ s => s
  | .pending s => s
  | .undefined s => s

/-- The call `message(text, buttonMask)` on the polls of the state. -/
def Front.message (s : Front) (text : String) (buttonMask : Nat) : Outcome Nat :=
  match NooDS.message buttonMask s.polls with
  | .returned pressed rest =>
    .done pressed { s with polls := rest, trace := .message text :: s.trace }
  | .waiting _ => .pending { s with polls := [], trace := .message text :: s.trace }

/-- The call `menu(title, subtitle, &items, subitems, &selection, buttonMask)` on the polls
of the state; it returns `pressed` and leaves the new `selection`. -/
def Front.menu (s : Front) (a : MenuArgs) (selection : Nat) : Outcome (Nat × Nat) :=
  match NooDS.menu a s.polls selection with
  | .returned pressed selection rest =>
    .done (pressed, selection)
      { s with polls := rest, trace := .menu a.title a.subtitle :: s.trace }
  | .waiting _ _ => .pending { s with polls := [] }

/-- The text that `createCore` shows for an error (main.cpp 247-264). -/
def errorText : CoreError → String
  | .ERROR_BIOS =>
    "Error loading BIOS.\n" ++
    "Make sure the path settings point to valid BIOS files and try again.\n" ++
    "You can modify the path settings in ux0:/data/noods/noods.ini."
  | .ERROR_FIRM =>
    "Error loading firmware.\n" ++
    "Make sure the path settings point to a bootable firmware file or try another boot method.\n" ++
    "You can modify the path settings in ux0:/data/noods/noods.ini."
  | .ERROR_ROM =>
    "Error loading ROM.\n" ++
    "Make sure the ROM file is accessible and try again."

/-- The function `createCore` (main.cpp 231-269). `if (core) delete core;` leaves a
non-null `core` pointing to a destroyed object, and deleting such a pointer again has no
meaning; the constructor then returns, and `core` is assigned, or throws, and `core` keeps
its value until `core = nullptr` after the message. -/
def createCore (s : Front) : Outcome Bool :=
  if s.core = .deleted then .undefined s
  else
    match s.constructs with
    | [] => .pending s
    | result :: later =>
      let s1 : Front :=
        { s with
          core := if s.core = .null then .null else .deleted
          constructs := later
          trace := .newCore s.ndsPath s.gbaPath :: s.trace }
      match result with
      | none => .done true { s1 with core := .valid, trace := .createCore true :: s1.trace }
      | some e =>
        match s1.message (errorText e) s1.confirmButton with
        | .done _ s2 =>
          .done false { s2 with core := .null, trace := .createCore false :: s2.trace }
        | .pending s2 => .pending s2
        | .undefined s2 => .undefined s2

/-- The function `startCore` (main.cpp 271-280): the three workers are started on the
`core` of this moment. -/
def startCore (s : Front) : Front := { s with trace := .startCore s.core :: s.trace }

/-- The function `stopCore` (main.cpp 282-296). -/
def stopCore (s : Front) : Front := { s with trace := .stopCore :: s.trace }

/-- The rows of `settingsMenu` (main.cpp 302-318). -/
def settingsItems : List String :=
  ["Direct Boot", "FPS Limiter", "Threaded 2D", "Threaded 3D", "High-Resolution 3D",
   "Screen Position", "Screen Rotation", "Screen Arrangement", "Screen Sizing", "Screen Gap",
   "Integer Scale", "GBA Crop", "Screen Filter", "Show FPS Counter"]

/-- The element `names[value]` of a `std::vector<std::string>` indexed by an `int`; `none`
where the index is outside the vector. -/
def nameAt (names : List String) (value : Int) : Option String :=
  if 0 ≤ value then names[value.toNat]? else none

/-- The vector `subitems` that an iteration of `settingsMenu` builds (main.cpp 330-346);
`none` where a setting is outside its vector of names. -/
def settingsSubitems (g : FrontSettings) : Option (List String) :=
  let toggle := ["Off", "On"]
  let position := ["Center", "Top", "Bottom", "Left", "Right"]
  let rotation := ["None", "Clockwise", "Counter-Clockwise"]
  let arrangement := ["Automatic", "Vertical", "Horizontal"]
  let sizing := ["Even", "Enlarge Top", "Enlarge Bottom"]
  let gap := ["None", "Quarter", "Half", "Full"]
  [nameAt toggle g.directBoot,
   nameAt toggle g.fpsLimiter,
   nameAt toggle g.threaded2D,
   nameAt toggle (if g.threaded3D ≠ 0 then 1 else 0),
   nameAt toggle g.highRes3D,
   nameAt position g.screenPosition,
   nameAt rotation g.screenRotation,
   nameAt arrangement g.screenArrangement,
   nameAt sizing g.screenSizing,
   nameAt gap g.screenGap,
   nameAt toggle g.integerScale,
   nameAt toggle g.gbaCrop,
   nameAt toggle g.screenFilter,
   nameAt toggle g.showFpsCounter].mapM id

/-- The expression `(value + 1) % count` on `int`. -/
def nextValue (value count : Int) : Int := Int.tmod (wrapInt32 (value + 1)) count

/-- The `switch (selection)` of `settingsMenu` (main.cpp 357-373). -/
def nextSetting (g : FrontSettings) (selection : Nat) : FrontSettings :=
  match selection with
  | 0 => { g with directBoot := nextValue g.directBoot 2 }
  | 1 => { g with fpsLimiter := nextValue g.fpsLimiter 2 }
  | 2 => { g with threaded2D := nextValue g.threaded2D 2 }
  | 3 => { g with threaded3D := nextValue g.threaded3D 2 }
  | 4 => { g with highRes3D := nextValue g.highRes3D 2 }
  | 5 => { g with screenPosition := nextValue g.screenPosition 5 }
  | 6 => { g with screenRotation := nextValue g.screenRotation 3 }
  | 7 => { g with screenArrangement := nextValue g.screenArrangement 3 }
  | 8 => { g with screenSizing := nextValue g.screenSizing 3 }
  | 9 => { g with screenGap := nextValue g.screenGap 4 }
  | 10 => { g with integerScale := nextValue g.integerScale 2 }
  | 11 => { g with gbaCrop := nextValue g.gbaCrop 2 }
  | 12 => { g with screenFilter := nextValue g.screenFilter 2 }
  | 13 => { g with showFpsCounter := nextValue g.showFpsCounter 2 }
  | _ => g

/-- The loop of `settingsMenu` (main.cpp 327-382), at most `fuel` iterations of it. -/
def settingsMenuLoop : Nat → Nat → Front → Outcome Unit
  | 0, _, s => .pending s
  | fuel + 1, selection, s =>
    match settingsSubitems s.settings with
    | none => .undefined s
    | some subitems =>
      match s.menu
          { title := "Settings", subtitle := "", items := settingsItems
            subitems := some subitems, buttonMask := s.confirmButton ||| s.cancelButton }
          selection with
      | .done (pressed, selection) s1 =>
        if pressed &&& s1.confirmButton ≠ 0 then
          settingsMenuLoop fuel selection
            { s1 with settings := nextSetting s1.settings selection }
        else if pressed &&& s1.cancelButton ≠ 0 then
          .done () { s1 with trace := .settingsSave :: .layoutUpdate :: s1.trace }
        else settingsMenuLoop fuel selection s1
      | .pending s1 => .pending s1
      | .undefined s1 => .undefined s1

/-- The function `settingsMenu` (main.cpp 298-383). Every iteration of its loop reads at
least one poll, so one iteration more than there are polls is as many as can run. -/
def settingsMenu (s : Front) : Outcome Unit := settingsMenuLoop (s.polls.length + 1) 0 s

/-- The call `s.find(pattern, pos)` of `std::string`: the least index from `pos` on at
which `pattern` occurs in `s`, `none` for `npos`. -/
def stringFind (s pattern : String) (pos : Nat) : Option Nat :=
  (List.range (s.length + 1)).find? fun i =>
    decide (pos ≤ i) && pattern.data.isPrefixOf (s.data.drop i)

/-- The call `s.rfind(pattern)` of `std::string`: the greatest index at which `pattern`
occurs in `s`, `none` for `npos`. -/
def stringRfind (s pattern : String) : Option Nat :=
  (List.range (s.length + 1)).reverse.find? fun i => pattern.data.isPrefixOf (s.data.drop i)

/-- The call `s.substr(0, count)` of `std::string`, with `none` for a `count` of `npos`. -/
def substrFromStart (s : String) (count : Option Nat) : String :=
  match count with
  | none => s
  | some n => ⟨s.data.take n⟩

/-- The test `name.find(extension, name.length() - 4) != std::string::npos` of `setPath`
and `fileBrowser` (main.cpp 388, 406, 447-448); `size_t` has 32 bits on the Vita. -/
def findsExtension (name extension : String) : Bool :=
  (stringFind name extension (subUInt32 name.length 4)).isSome

/-- The function `setPath` (main.cpp 385-430). -/
def setPath (path : String) (s : Front) : Outcome Nat :=
  if findsExtension path ".nds" then
    let asked : Outcome Unit :=
      if s.gbaPath ≠ "" then
        match s.message "Load the previous GBA ROM alongside this ROM?"
            (s.confirmButton ||| s.cancelButton) with
        | .done pressed s1 =>
          .done () (if pressed &&& s1.confirmButton = 0 then { s1 with gbaPath := "" } else s1)
        | .pending s1 => .pending s1
        | .undefined s1 => .undefined s1
      else .done () s
    match asked with
    | .done _ s1 =>
      match createCore { s1 with ndsPath := path } with
      | .done true s2 => .done 2 s2
      | .done false s2 => .done 1 { s2 with ndsPath := "" }
      | .pending s2 => .pending s2
      | .undefined s2 => .undefined s2
    | .pending s1 => .pending s1
    | .undefined s1 => .undefined s1
  else if findsExtension path ".gba" then
    let asked : Outcome Unit :=
      if s.ndsPath ≠ "" then
        match s.message "Load the previous NDS ROM alongside this ROM?"
            (s.confirmButton ||| s.cancelButton) with
        | .done pressed s1 =>
          .done () (if pressed &&& s1.confirmButton = 0 then { s1 with ndsPath := "" } else s1)
        | .pending s1 => .pending s1
        | .undefined s1 => .undefined s1
      else .done () s
    match asked with
    | .done _ s1 =>
      match createCore { s1 with gbaPath := path } with
      | .done true s2 => .done 2 s2
      | .done false s2 => .done 1 { s2 with gbaPath := "" }
      | .pending s2 => .pending s2
      | .undefined s2 => .undefined s2
    | .pending s1 => .pending s1
    | .undefined s1 => .undefined s1
  else .done 0 s

/-- The vector `files` that an iteration of `fileBrowser` builds from a directory listing
(main.cpp 443-453): the names of the folders and of the ROMs, sorted. -/
def listFiles (entries : List (String × Bool)) : List String :=
  ((entries.filter fun e =>
      e.2 || findsExtension e.1 ".nds" || findsExtension e.1 ".gba").map Prod.fst).insertionSort
    (fun a b => a ≤ b)

/-- The expression `path.substr(0, path.rfind("/"))` (main.cpp 469, 480). -/
def parentPath (path : String) : String := substrFromStart path (stringRfind path "/")

/-- The loop of `fileBrowser` (main.cpp 437-489), at most `fuel` iterations of it, entered
with the locals `path` and `selection`. -/
def fileBrowserLoop : Nat → String → Nat → Front → Outcome Unit
  | 0, _, _, s => .pending s
  | fuel + 1, path, selection, s =>
    match s.dirs with
    | [] => .pending s
    | entries :: later =>
      match ({ s with dirs := later } : Front).menu
          { title := "NooDS", subtitle := path, items := listFiles entries, subitems := none
            buttonMask := s.confirmButton ||| s.cancelButton ||| SCE_CTRL_TRIANGLE }
          selection with
      | .done (pressed, selection) s1 =>
        if pressed &&& s1.confirmButton ≠ 0 ∧ (listFiles entries).length > 0 then
          match (listFiles entries)[selection]? with
          | none => .undefined s1
          | some name =>
            match setPath (path ++ "/" ++ name) s1 with
            | .done 2 s2 => .done () s2
            | .done 1 s2 => fileBrowserLoop fuel (parentPath (path ++ "/" ++ name)) 0 s2
            | .done _ s2 => fileBrowserLoop fuel (path ++ "/" ++ name) 0 s2
            | .pending s2 => .pending s2
            | .undefined s2 => .undefined s2
        else if pressed &&& s1.cancelButton ≠ 0 ∧ path ≠ "ux0:" then
          fileBrowserLoop fuel (parentPath path) 0 s1
        else if pressed &&& SCE_CTRL_TRIANGLE ≠ 0 then
          match settingsMenu s1 with
          | .done _ s2 => fileBrowserLoop fuel path selection s2
          | .pending s2 => .pending s2
          | .undefined s2 => .undefined s2
        else fileBrowserLoop fuel path selection s1
      | .pending s1 => .pending s1
      | .undefined s1 => .undefined s1

/-- The function `fileBrowser` (main.cpp 432-490). Every iteration of its loop reads at
least one poll. -/
def fileBrowser (s : Front) : Outcome Unit := fileBrowserLoop (s.polls.length + 1) "ux0:" 0 s

/-- The call `core->isGbaMode()`, which has no meaning unless `core` points to a core. -/
def isGbaMode (s : Front) : Outcome Bool :=
  if s.core ≠ .valid then .undefined s
  else
    match s.gbaModes with
    | [] => .pending s
    | gba :: later => .done gba { s with gbaModes := later }

/-- The items of `saveTypeMenu` (main.cpp 496-520). -/
def saveTypeItems (gba : Bool) : List String :=
  if gba then
    ["None", "EEPROM 0.5KB", "EEPROM 8KB", "SRAM 32KB", "FLASH 64KB", "FLASH 128KB"]
  else
    ["None", "EEPROM 0.5KB", "EEPROM 8KB", "EEPROM 64KB", "EEPROM 128KB", "FRAM 32KB",
     "FLASH 256KB", "FLASH 512KB", "FLASH 1024KB", "FLASH 8192KB"]

/-- The sizes that the two `switch (selection)` of `saveTypeMenu` pass to `resizeSave`
(main.cpp 536-560). -/
def saveSizes (gba : Bool) : List Nat :=
  if gba then [0, 0x200, 0x2000, 0x8000, 0x10000, 0x20000]
  else [0, 0x200, 0x2000, 0x10000, 0x20000, 0x8000, 0x40000, 0x80000, 0x100000, 0x800000]

/-- The loop of `saveTypeMenu` (main.cpp 522-571), at most `fuel` iterations of it. -/
def saveTypeMenuLoop : Nat → List String → Nat → Front → Outcome Bool
  | 0, _, _, s => .pending s
  | fuel + 1, items, selection, s =>
    match s.menu
        { title := "Change Save Type", subtitle := "", items := items, subitems := none
          buttonMask := s.confirmButton ||| s.cancelButton }
        selection with
    | .done (pressed, selection) s1 =>
      if pressed &&& s1.confirmButton ≠ 0 then
        match s1.message "Are you sure? This may result in data loss!"
            (s1.confirmButton ||| s1.cancelButton) with
        | .done sure s2 =>
          if sure &&& s2.confirmButton = 0 then saveTypeMenuLoop fuel items selection s2
          else
            match isGbaMode s2 with
            | .done gba s3 =>
              match (saveSizes gba)[selection]? with
              | some size => .done true { s3 with trace := .resizeSave gba size :: s3.trace }
              | none => .done true s3
            | .pending s3 => .pending s3
            | .undefined s3 => .undefined s3
        | .pending s2 => .pending s2
        | .undefined s2 => .undefined s2
      else if pressed &&& s1.cancelButton ≠ 0 then .done false s1
      else saveTypeMenuLoop fuel items selection s1
    | .pending s1 => .pending s1
    | .undefined s1 => .undefined s1

/-- The function `saveTypeMenu` (main.cpp 492-572). -/
def saveTypeMenu (s : Front) : Outcome Bool :=
  match isGbaMode s with
  | .done gba s1 => saveTypeMenuLoop (s1.polls.length + 1) (saveTypeItems gba) 0 s1
  | .pending s1 => .pending s1
  | .undefined s1 => .undefined s1

/-- The statements `if (!createCore()) fileBrowser(); startCore(); return;` of `pauseMenu`
(main.cpp 604-607, 614-617). -/
def restart (s : Front) : Outcome Unit :=
  match createCore s with
  | .done true s1 => .done () (startCore s1)
  | .done false s1 =>
    match fileBrowser s1 with
    | .done _ s2 => .done () (startCore s2)
    | .pending s2 => .pending s2
    | .undefined s2 => .undefined s2
  | .pending s1 => .pending s1
  | .undefined s1 => .undefined s1

/-- The loop of `pauseMenu` (main.cpp 589-640), at most `fuel` iterations of it. -/
def pauseMenuLoop : Nat → Nat → Front → Outcome Unit
  | 0, _, s => .pending s
  | fuel + 1, selection, s =>
    match s.menu
        { title := "NooDS", subtitle := ""
          items := ["Resume", "Restart", "Change Save Type", "Settings", "File Browser"]
          subitems := none, buttonMask := s.confirmButton ||| s.cancelButton }
        selection with
    | .done (pressed, selection) s1 =>
      if pressed &&& s1.confirmButton ≠ 0 then
        match selection with
        | 0 => .done () (startCore s1)
        | 1 => restart s1
        | 2 =>
          match saveTypeMenu s1 with
          | .done true s2 => restart s2
          | .done false s2 => pauseMenuLoop fuel selection s2
          | .pending s2 => .pending s2
          | .undefined s2 => .undefined s2
        | 3 =>
          match settingsMenu s1 with
          | .done _ s2 => pauseMenuLoop fuel selection s2
          | .pending s2 => .pending s2
          | .undefined s2 => .undefined s2
        | 4 =>
          match fileBrowser s1 with
          | .done _ s2 => .done () (startCore s2)
          | .pending s2 => .pending s2
          | .undefined s2 => .undefined s2
        | _ => pauseMenuLoop fuel selection s1
      else if pressed &&& s1.cancelButton ≠ 0 then .done () (startCore s1)
      else pauseMenuLoop fuel selection s1
    | .pending s1 => .pending s1
    | .undefined s1 => .undefined s1

/-- The function `pauseMenu` (main.cpp 574-641). -/
def pauseMenu (s : Front) : Outcome Unit :=
  pauseMenuLoop ((stopCore s).polls.length + 1) 0 (stopCore s)

/-- The path that `main` takes from the line of `args.txt` (main.cpp 729-730):
`path.substr(0, path.length() - 1)`. With `size_t` of 32 bits the count `path.length() - 1`
is `0xFFFFFFFF` for the empty line and `length - 1` otherwise, and `substr` takes as many
characters as there are up to that count. -/
def argsPath (line : String) : String :=
  ⟨line.data.take (if line.length = 0 then 0xFFFFFFFF else line.length - 1)⟩

/-- The loop of `main` (main.cpp 746-831) as far as the menus go, at most `fuel` iterations
of it: the pause menu is opened when the right stick is down; what the rest of the
iteration sends to the core and draws is left out. -/
def mainLoop : Nat → Front → Outcome Unit
  | 0, s => .pending s
  | fuel + 1, s =>
    match s.sticks with
    | [] => .pending s
    | down :: later =>
      if down then
        match pauseMenu { s with sticks := later } with
        | .done _ s1 => mainLoop fuel s1
        | .pending s1 => .pending s1
        | .undefined s1 => .undefined s1
      else mainLoop fuel { s with sticks := later }

/-- The statements of `main` that load a ROM before the workers are started
(main.cpp 720-741). `args` is the line read from `args.txt`, `none` where the file does not
exist. -/
def loadRom (args : Option String) (s : Front) : Outcome Unit :=
  match args with
  | some line =>
    match setPath (argsPath line) s with
    | .done result s1 => if result < 2 then fileBrowser s1 else .done () s1
    | .pending s1 => .pending s1
    | .undefined s1 => .undefined s1
  | none => fileBrowser s

/-- The function `main` from the button assignment on (main.cpp 699-747). `assign` is the
registry value `button_assign`; `args` is the line read from `args.txt`, `none` where the
file does not exist. The polls, construction results, listings and stick positions to come
are those of `s`. -/
def main (assign : Int) (args : Option String) (s : Front) : Outcome Unit :=
  match loadRom args
      { s with
        confirmButton := if assign ≠ 0 then SCE_CTRL_CROSS else SCE_CTRL_CIRCLE
        cancelButton := if assign ≠ 0 then SCE_CTRL_CIRCLE else SCE_CTRL_CROSS } with
  | .done _ s1 =>
    mainLoop (s1.sticks.length + 1) (startCore { s1 with trace := .layoutUpdate :: s1.trace })
  | .pending s1 => .pending s1
  | .undefined s1 => .undefined s1

/-- The state of the globals at program start (`core` is null, the paths are empty) with the
inputs to come. -/
def Front.atStart (settings : FrontSettings) (polls : List Nat)
    (constructs : List (Option CoreError)) (dirs : List (List (String × Bool)))
    (gbaModes : List Bool) (sticks : List Bool) : Front :=
  { confirmButton := 0, cancelButton := 0, ndsPath := "", gbaPath := "", core := .null
    settings := settings, polls := polls, constructs := constructs, dirs := dirs
    gbaModes := gbaModes, sticks := sticks, trace := [] }

/-- Whether the most recent `createCore` of a trace returned true. -/
def lastCreateOk : List FrontEvent → Bool
  | [] => false
  | .createCore result :: _ => result
  | _ :: earlier => lastCreateOk earlier

/-- Whether every `startCore` of a trace was called with `core` pointing to a core and with
a `createCore` before it of which the most recent returned true. -/
def startsChecked : List FrontEvent → Bool
  | [] => true
  | .startCore core :: earlier =>
    decide (core = .valid) && lastCreateOk earlier && startsChecked earlier
  | _ :: earlier => startsChecked earlier

/-- The state is one in which the workers may be started: `core` points to a core and the
most recent `createCore` returned true. -/
def Front.Ready (s : Front) : Prop := s.core = .valid ∧ lastCreateOk s.trace = true

/-- The call changed neither `core` nor what the most recent `createCore` returned, and
started no worker. -/
def Front.Unchanged (s t : Front) : Prop :=
  t.core = s.core ∧ lastCreateOk t.trace = lastCreateOk s.trace ∧
  startsChecked t.trace = startsChecked s.trace ∧
  t.confirmButton = s.confirmButton ∧ t.cancelButton = s.cancelButton

/-- Every `startCore` up to where the call stands was checked, and if the call returned,
`post` holds of its value and state. -/
def Outcome.Holds {α : Type} (o : Outcome α) (post : α → Front → Prop) : Prop :=
  startsChecked o.state.trace = true ∧ ∀ value s, o = .done value s → post value s

/-- The call has read from the polls of `s` and left the stick positions to come as they
were. -/
def Front.Later (s t : Front) : Prop :=
  t.polls.length ≤ s.polls.length ∧ t.sticks = s.sticks

/-- If the call returned, `post` holds of its value and state. -/
def Outcome.Returns {α : Type} (o : Outcome α) (post : α → Front → Prop) : Prop :=
  ∀ value s, o = .done value s → post value s

/-- A run of the front-end for the worked example: `args.txt` names a ROM whose first load
fails with `ERROR_ROM`; it loads from the file browser; the pause menu is opened and
Restart fails with `ERROR_BIOS`; a GBA ROM chosen in the file browser then loads. The
confirm button is cross (`assign = 1`). -/
def exampleFront : Front :=
  Front.atStart
    { directBoot := 1, fpsLimiter := 1, threaded2D := 0, threaded3D := 0, highRes3D := 0
      screenPosition := 0, screenRotation := 0, screenArrangement := 0, screenSizing := 0
      screenGap := 0, integerScale := 0, gbaCrop := 0, screenFilter := 1, showFpsCounter := 0 }
    [0, 0x4000, 0, 0x4000, 0, 0x40, 0, 0x4000, 0, 0x4000, 0, 0x4000, 0, 0x2000]
    [some .ERROR_ROM, none, some .ERROR_BIOS, none]
    [[("roms", true), ("game.nds", false), ("notes.txt", false)], [("a.gba", false)]]
    []
    [false, true, false]

/-! ## Worked inputs for the sub-item rows of `menu` -/

/-- A text measure for the worked example, ten pixels for every character; the measure the
code uses, `vita2d_pgf_text_width`, belongs to the vita2d library and is a parameter of
`menuSubitemRows`. -/
def exampleTextWidth (text : String) : Int := 10 * (text.length : Int)

/-- Twenty-five items, one more than a screen shows. -/
def exampleItems : List String := List.replicate 25 "Item"

/-- Twenty-five sub-items, the first two of different widths. -/
def exampleSubitems : List String := "On" :: "Counter-Clockwise" :: List.replicate 23 "Off"

/-! ## Notions for the classification of paths by `setPath` -/

/-- The path ends in `extension`, character for character (in the words of the claim on
`setPath`: "the path ends in `.nds`"). -/
def pathEndsIn (path extension : String) : Prop := extension.data <:+ path.data

instance (path extension : String) : Decidable (pathEndsIn path extension) :=
  inferInstanceAs (Decidable (extension.data <:+ path.data))

/-- The number of calls of `createCore` in a trace that have returned. -/
def createCoreCalls : List FrontEvent → Nat
  | [] => 0
  | .createCore _ :: earlier => createCoreCalls earlier + 1
  | _ :: earlier => createCoreCalls earlier

/-! ## Notions for the paths of the file browser -/

/-- The path begins with `ux0:` (in the words of the claim on the file browser: "the path
always begins with `ux0:`"). -/
def beginsWithRoot (path : String) : Prop := "ux0:".data <+: path.data

instance (path : String) : Decidable (beginsWithRoot path) :=
  inferInstanceAs (Decidable ("ux0:".data <+: path.data))

/-- The path is `ux0:` alone or `ux0:` followed by a `/` and more: the form that appending
an entry and cutting at the last `/` both keep. -/
def UnderRoot (path : String) : Prop :=
  ∃ rest, path.data = "ux0:".data ++ rest ∧ (rest = [] ∨ rest.head? = some '/')

/-- The titles and subtitles of the menus that have returned in a trace, the most recent
first. -/
def menusShown : List FrontEvent → List (String × String)
  | [] => []
  | .menu title subtitle :: earlier => (title, subtitle) :: menusShown earlier
  | _ :: earlier => menusShown earlier

/-- Inputs for a worked run of the file browser with cross as the confirm button: circle is
pressed at the root; the folder `roms` is entered, left again with circle, and entered
again; there the ROM `a.nds` fails to load, and loads at the second attempt. -/
def exampleBrowse : Front :=
  { Front.atStart exampleFront.settings
      [0, 0x2000, 0, 0x40, 0, 0x4000, 0, 0x2000, 0, 0x40, 0, 0x4000, 0, 0x4000, 0, 0x4000,
       0, 0x4000]
      [some .ERROR_ROM, none]
      [[("game.nds", false), ("roms", true)], [("game.nds", false), ("roms", true)],
       [("a.nds", false)], [("game.nds", false), ("roms", true)], [("a.nds", false)],
       [("a.nds", false)]]
      [] [] with
    confirmButton := SCE_CTRL_CROSS
    cancelButton := SCE_CTRL_CIRCLE }

/-- A menu that the file browser shows: its own, titled `NooDS` with a path that begins with
`ux0:` as subtitle, or the settings menu opened from it. -/
def browserMenu (m : String × String) : Prop :=
  m = ("Settings", "") ∨ (m.1 = "NooDS" ∧ beginsWithRoot m.2)

/-- Every menu in the trace of `t` is in the trace of `s` already or satisfies `allowed`. -/
def Front.Shows (allowed : String × String → Prop) (s t : Front) : Prop :=
  ∀ m ∈ menusShown t.trace, m ∈ menusShown s.trace ∨ allowed m

/-- The state `s1` in which `setPath` goes on after its question about the other ROM
(main.cpp 391-395, 409-413). With no other ROM set (`other` empty) nothing is asked and `s1`
is `s`. Otherwise `message(text, confirmButton | cancelButton)` has returned `pressed` on the
polls of `s`, and the other path has been cleared by `clear` unless the confirm button was
among the buttons pressed. -/
def afterQuestion (other text : String) (clear : Front → Front) (s s1 : Front) : Prop :=
  (other = "" ∧ s1 = s) ∨
  (other ≠ "" ∧ ∃ pressed rest,
    message (s.confirmButton ||| s.cancelButton) s.polls = .returned pressed rest ∧
    s1 = if pressed &&& s.confirmButton = 0 then
        clear { s with polls := rest, trace := .message text :: s.trace }
      else { s with polls := rest, trace := .message text :: s.trace })

/-! ## Theorems: audio stretch -/

theorem wrapInt32_of_inRange (x : Int) (hlo : -2147483648 ≤ x) (hhi : x < 2147483648) :
    wrapInt32 x = x := by
  unfold wrapInt32
  omega

theorem sampleIndex_eq_natDiv (i : Nat) (hi : i < 1024) :
    sampleIndex (i : Int) = ((i * 699 / 1024 : Nat) : Int) := by
  unfold sampleIndex
  rw [wrapInt32_of_inRange _ (by omega) (by omega),
    Int.tdiv_eq_ediv (by omega) (by omega)]
  omega

theorem readSample_sampleIndex (original : List Nat) (i : Nat) (hi : i < 1024) :
    readSample original (sampleIndex (i : Int)) = original[i * 699 / 1024]? := by
  rw [sampleIndex_eq_natDiv i hi]
  unfold readSample
  rw [if_pos (Int.ofNat_nonneg _), Int.toNat_ofNat]

theorem stretchLoop_spec (original : List Nat) (horig : original.length = 699) :
    ∀ (fuel i : Nat) (buf : List Nat), i ≤ 1024 → 1024 - i < fuel → buf.length = 1024 →
      ∃ out, stretchLoop original fuel (i : Int) buf = some out ∧ out.length = 1024 ∧
        (∀ k, i ≤ k → k < 1024 → out[k]? = original[k * 699 / 1024]?) ∧
        (∀ k, k < i → out[k]? = buf[k]?) := by
  intro fuel
  induction fuel with
  | zero => intro i buf _ h; omega
  | succ fuel ih =>
    intro i buf hi hfuel hlen
    by_cases hlt : i < 1024
    · have hidx : i * 699 / 1024 < original.length := by omega
      obtain ⟨v, hv⟩ : ∃ v, original[i * 699 / 1024]? = some v :=
        ⟨_, List.getElem?_eq_getElem hidx⟩
      have hread : readSample original (sampleIndex (i : Int)) = some v := by
        rw [readSample_sampleIndex original i hlt, hv]
      have hwrite : writeSample buf (i : Int) v = some (buf.set i v) := by
        unfold writeSample
        rw [if_pos ⟨Int.ofNat_nonneg _, by rw [Int.toNat_ofNat]; omega⟩, Int.toNat_ofNat]
      have hnext : wrapInt32 ((i : Int) + 1) = ((i + 1 : Nat) : Int) := by
        rw [wrapInt32_of_inRange _ (by omega) (by omega)]
        omega
      obtain ⟨out, hout, hl, hnew, hold⟩ :=
        ih (i + 1) (buf.set i v) (by omega) (by omega) (by simpa using hlen)
      refine ⟨out, ?_, hl, ?_, ?_⟩
      · rw [stretchLoop, if_pos (by omega), hread]
        simp only [hwrite, hnext]
        exact hout
      · intro k hk hk1
        by_cases hki : k = i
        · subst hki
          rw [hold k (by omega), List.getElem?_set_self (by omega), hv]
        · exact hnew k (by omega) hk1
      · intro k hk
        have h1 := hold k (by omega)
        rw [h1]
        exact List.getElem?_set_ne (by omega)
    · have : i = 1024 := by omega
      subst this
      refine ⟨buf, ?_, hlen, ?_, ?_⟩
      · rw [stretchLoop, if_neg (by omega)]
      · intro k hk hk1; omega
      · intro k _; rfl

/-- C1: for every batch `original` of 699 native-rate samples and every previous content of
the 1024-slot `audioBuffer`, one iteration of `outputAudio` requests 699 samples, completes,
leaves `audioBuffer[i] = original[i * 699 / 1024]` (floor division, an index inside the batch)
for every `i < 1024`, and submits exactly that buffer to the device. -/
theorem outputAudio_nearest_neighbour (original audioBuffer : List Nat)
    (horig : original.length = 699) (hbuf : audioBuffer.length = 1024) :
    ∃ buffer, outputAudioIteration original audioBuffer =
        some { requested := 699, audioBuffer := buffer, submitted := buffer } ∧
      buffer.length = 1024 ∧
      ∀ i, i < 1024 → i * 699 / 1024 < original.length ∧
        buffer[i]? = original[i * 699 / 1024]? := by
  obtain ⟨out, hout, hl, hnew, _⟩ :=
    stretchLoop_spec original horig 1025 0 audioBuffer (by omega) (by omega) hbuf
  have hout0 : stretchLoop original 1025 0 audioBuffer = some out := hout
  refine ⟨out, ?_, hl, ?_⟩
  · unfold outputAudioIteration stretch
    rw [hout0]
  · intro i hi
    exact ⟨by omega, hnew i (by omega) hi⟩

theorem outputAudio_nearest_neighbour_witness :
    ∃ buffer, outputAudioIteration (List.range 699) (List.replicate 1024 0) =
        some { requested := 699, audioBuffer := buffer, submitted := buffer } ∧
      buffer.length = 1024 ∧
      ∀ i, i < 1024 → i * 699 / 1024 < (List.range 699).length ∧
        buffer[i]? = (List.range 699)[i * 699 / 1024]? :=
  outputAudio_nearest_neighbour (List.range 699) (List.replicate 1024 0)
    (List.length_range 699) (List.length_replicate 1024 0)

/-- C2: for indices `i ≤ j < 1024` of the stretch loop, the 32-bit product `j * 699` does not
overflow, the index sequence `i * 699 / 1024` starts at 0, is non-decreasing, stays within
`0 .. 698`, and the read of a 699-element batch at it is in bounds. -/
theorem sampleIndex_monotone_in_bounds (i j : Nat) (hij : i ≤ j) (hj : j < 1024) :
    sampleIndex 0 = 0 ∧
    sampleIndex (i : Int) ≤ sampleIndex (j : Int) ∧
    0 ≤ sampleIndex (i : Int) ∧ sampleIndex (j : Int) ≤ 698 ∧
    (j : Int) * 699 < 2147483648 ∧ wrapInt32 ((j : Int) * 699) = (j : Int) * 699 ∧
    ∀ original : List Nat, original.length = 699 →
      (readSample original (sampleIndex (j : Int))).isSome = true := by
  have h0 : sampleIndex 0 = 0 := by with_unfolding_all decide
  have hi := sampleIndex_eq_natDiv i (by omega)
  have hjeq := sampleIndex_eq_natDiv j hj
  have hmono : i * 699 / 1024 ≤ j * 699 / 1024 :=
    Nat.div_le_div_right (Nat.mul_le_mul_right 699 hij)
  refine ⟨h0, by omega, by omega, by omega, by omega,
    wrapInt32_of_inRange _ (by omega) (by omega), ?_⟩
  intro original horig
  rw [readSample_sampleIndex original j hj]
  have hidx : j * 699 / 1024 < original.length := by omega
  simp [List.getElem?_eq_getElem hidx]

theorem sampleIndex_monotone_in_bounds_witness :
    sampleIndex 0 = 0 ∧
    sampleIndex ((1022 : Nat) : Int) ≤ sampleIndex ((1023 : Nat) : Int) ∧
    0 ≤ sampleIndex ((1022 : Nat) : Int) ∧ sampleIndex ((1023 : Nat) : Int) ≤ 698 ∧
    ((1023 : Nat) : Int) * 699 < 2147483648 ∧
    wrapInt32 (((1023 : Nat) : Int) * 699) = ((1023 : Nat) : Int) * 699 ∧
    ∀ original : List Nat, original.length = 699 →
      (readSample original (sampleIndex ((1023 : Nat) : Int))).isSome = true :=
  sampleIndex_monotone_in_bounds 1022 1023 (by decide) (by decide)

/-! ## Theorems: display pacing -/

theorem drawTicks_cons (s : NooCanvas) (env : TickEnv) (envs : List TickEnv) :
    drawTicks s (env :: envs) =
      ((drawTicks (draw s env).1 envs).1, (draw s env).2 :: (drawTicks (draw s env).1 envs).2) :=
  rfl

theorem drawTicks_append (envs more : List TickEnv) : ∀ s : NooCanvas,
    drawTicks s (envs ++ more) =
      ((drawTicks (drawTicks s envs).1 more).1,
        (drawTicks s envs).2 ++ (drawTicks (drawTicks s envs).1 more).2) := by
  induction envs with
  | nil => intro s; rfl
  | cons e envs ih =>
    intro s
    rw [List.cons_append, drawTicks_cons, ih, drawTicks_cons]
    rfl

theorem draw_of_core (s : NooCanvas) (env : TickEnv) (c : CoreView) (hcore : env.core = some c) :
    draw s env = (trackRefreshRate (drawCore s env c).1 env,
      [DrawCall.setCurrent, .clearColor, .clear] ++ (drawCore s env c).2 ++
        [.finish, .swapBuffers]) := by
  simp [draw, hcore]

theorem draw_idle_first (s : NooCanvas) (env : TickEnv) (hcore : env.core = none)
    (hdisplay : s.display = true) :
    draw s env = (trackRefreshRate { s with display := false } env,
      [DrawCall.setCurrent, .clearColor, .clear, .finish, .swapBuffers]) := by
  simp [draw, hcore, hdisplay]

theorem draw_idle_later (s : NooCanvas) (env : TickEnv) (hcore : env.core = none)
    (hdisplay : s.display = false) : draw s env = (s, []) := by
  simp [draw, hcore, hdisplay]

theorem trackRefreshRate_frameCount (s : NooCanvas) (env : TickEnv) :
    (trackRefreshRate s env).frameCount = s.frameCount ∧
    (trackRefreshRate s env).display = s.display := by
  unfold trackRefreshRate
  split <;> exact ⟨rfl, rfl⟩

theorem polled_drawScreens (gba : Bool) (r t : Nat) (l : ScreenLayout) :
    polled (drawScreens gba r t l) = false ∧ pollCount (drawScreens gba r t l) = 0 := by
  cases gba <;> simp [polled, pollCount, drawScreens, screenQuad]

theorem polled_drawCore (s : NooCanvas) (env : TickEnv) (c : CoreView) :
    polled (drawCore s env c).2 = decide (wrapInt32 (s.frameCount + 1) ≥ s.swapInterval) ∧
    pollCount (drawCore s env c).2 =
      (if wrapInt32 (s.frameCount + 1) ≥ s.swapInterval then 1 else 0) := by
  have hs := polled_drawScreens (c.isGbaMode && env.gbaCrop) (if env.highRes3D then 1 else 0)
    (texCoordsFor env.screenRotation env.indeterminate)
    (if (s.gbaMode != (c.isGbaMode && env.gbaCrop)) then env.resized else s.layout)
  unfold polled pollCount at hs
  unfold drawCore polled pollCount
  simp only [List.any_append, List.countP_append, hs.1, hs.2]
  by_cases hp : wrapInt32 (s.frameCount + 1) ≥ s.swapInterval <;>
    by_cases hc : (s.gbaMode != (c.isGbaMode && env.gbaCrop)) = true <;>
    simp [hp, hc]

theorem polled_draw_of_core (s : NooCanvas) (env : TickEnv) (c : CoreView)
    (hcore : env.core = some c) :
    polled (draw s env).2 = decide (wrapInt32 (s.frameCount + 1) ≥ s.swapInterval) ∧
    pollCount (draw s env).2 =
      (if wrapInt32 (s.frameCount + 1) ≥ s.swapInterval then 1 else 0) := by
  have h := polled_drawCore s env c
  rw [draw_of_core s env c hcore]
  unfold polled pollCount at h ⊢
  simp only [List.any_append, List.countP_append, h.1, h.2]
  simp

theorem frameCount_draw_of_core (s : NooCanvas) (env : TickEnv) (c : CoreView)
    (hcore : env.core = some c) :
    (draw s env).1.frameCount =
      (if wrapInt32 (s.frameCount + 1) ≥ s.swapInterval ∧ c.frameReady = true then 0
       else wrapInt32 (s.frameCount + 1)) := by
  rw [draw_of_core s env c hcore]
  simp only [(trackRefreshRate_frameCount _ env).1, drawCore]
  by_cases hp : wrapInt32 (s.frameCount + 1) ≥ s.swapInterval <;>
    cases hr : c.frameReady <;> simp [hp, hr]

/-- C3: on a render tick with a core present (and `frameCount` below `INT_MAX`), `draw`
attempts a frame poll exactly when the incremented `frameCount` is at least `swapInterval`,
calls `getFrame` at most once, and leaves `frameCount` at 0 when a poll was attempted and
returned true and at its incremented value `frameCount + 1` otherwise. -/
theorem draw_poll_and_frameCount (s : NooCanvas) (env : TickEnv) (c : CoreView)
    (hcore : env.core = some c)
    (hlo : -2147483648 ≤ s.frameCount) (hhi : s.frameCount < 2147483647) :
    (polled (draw s env).2 = true ↔ s.frameCount + 1 ≥ s.swapInterval) ∧
    pollCount (draw s env).2 = (if s.frameCount + 1 ≥ s.swapInterval then 1 else 0) ∧
    (draw s env).1.frameCount =
      (if polled (draw s env).2 = true ∧ c.frameReady = true then 0 else s.frameCount + 1) := by
  have hw : wrapInt32 (s.frameCount + 1) = s.frameCount + 1 :=
    wrapInt32_of_inRange _ (by omega) (by omega)
  have hp := polled_draw_of_core s env c hcore
  have hf := frameCount_draw_of_core s env c hcore
  rw [hw] at hp hf
  refine ⟨by simp [hp.1], hp.2, ?_⟩
  rw [hf, hp.1]
  simp

theorem draw_poll_and_frameCount_witness :
    (polled (draw (pacingStart stackedLayout 0) (exampleTick (some ⟨false, true⟩) 5)).2 = true ↔
      (pacingStart stackedLayout 0).frameCount + 1 ≥ (pacingStart stackedLayout 0).swapInterval) ∧
    pollCount (draw (pacingStart stackedLayout 0) (exampleTick (some ⟨false, true⟩) 5)).2 =
      (if (pacingStart stackedLayout 0).frameCount + 1 ≥
          (pacingStart stackedLayout 0).swapInterval then 1 else 0) ∧
    (draw (pacingStart stackedLayout 0) (exampleTick (some ⟨false, true⟩) 5)).1.frameCount =
      (if polled (draw (pacingStart stackedLayout 0) (exampleTick (some ⟨false, true⟩) 5)).2 = true ∧
          (⟨false, true⟩ : CoreView).frameReady = true then 0
       else (pacingStart stackedLayout 0).frameCount + 1) :=
  draw_poll_and_frameCount (pacingStart stackedLayout 0) (exampleTick (some ⟨false, true⟩) 5)
    ⟨false, true⟩ rfl (by decide) (by decide)

theorem draw_pacing_fields (s : NooCanvas) (env : TickEnv) (hcounted : counted s env = true) :
    (draw s env).1.swapInterval = (trackRefreshRate s env).swapInterval ∧
    (draw s env).1.refreshRate = (trackRefreshRate s env).refreshRate ∧
    (draw s env).1.lastRateTime = (trackRefreshRate s env).lastRateTime := by
  cases hc : env.core with
  | some c =>
    rw [draw_of_core s env c hc]
    simp [trackRefreshRate, drawCore]
    split <;> simp
  | none =>
    have hd : s.display = true := by simpa [counted, hc] using hcounted
    rw [draw_idle_first s env hc hd]
    simp [trackRefreshRate]
    split <;> simp

theorem draw_not_counted (s : NooCanvas) (env : TickEnv) (hcounted : counted s env = false) :
    draw s env = (s, []) := by
  have h : env.core = none ∧ s.display = false := by
    simpa [counted] using hcounted
  exact draw_idle_later s env h.1 h.2

/-- Within a measuring window (no tick sees a full second elapsed) the refresh-rate counter
grows by the number of counted ticks, while `swapInterval` and `lastRateTime` stay put. -/
theorem drawTicks_window (window : List TickEnv) : ∀ s : NooCanvas,
    (∀ e ∈ window, e.now - s.lastRateTime < oneSecond) →
    0 ≤ s.refreshRate → s.refreshRate + window.length < 2147483648 →
    (drawTicks s window).1.refreshRate = s.refreshRate + countedTicks s window ∧
    (drawTicks s window).1.swapInterval = s.swapInterval ∧
    (drawTicks s window).1.lastRateTime = s.lastRateTime ∧
    countedTicks s window ≤ window.length := by
  induction window with
  | nil => intro s _ _ _; simp [drawTicks, countedTicks]
  | cons e window ih =>
    intro s hwin hlo hhi
    have he : e.now - s.lastRateTime < oneSecond := hwin e (List.mem_cons_self _ _)
    have hlen : (e :: window).length = window.length + 1 := List.length_cons _ _
    rw [hlen] at hhi
    rw [drawTicks_cons]
    simp only [countedTicks]
    cases hc : counted s e with
    | true =>
      obtain ⟨h1, h2, h3⟩ := draw_pacing_fields s e hc
      have ht : (trackRefreshRate s e).swapInterval = s.swapInterval ∧
          (trackRefreshRate s e).refreshRate = s.refreshRate + 1 ∧
          (trackRefreshRate s e).lastRateTime = s.lastRateTime := by
        unfold trackRefreshRate
        rw [if_neg (by omega)]
        exact ⟨rfl, wrapInt32_of_inRange _ (by omega) (by push_cast at hhi; omega), rfl⟩
      rw [ht.1] at h1
      rw [ht.2.1] at h2
      rw [ht.2.2] at h3
      obtain ⟨i1, i2, i3, i4⟩ := ih (draw s e).1
        (by intro x hx; rw [h3]; exact hwin x (List.mem_cons_of_mem _ hx))
        (by omega) (by push_cast at hhi; omega)
      refine ⟨?_, by rw [i2, h1], by rw [i3, h3], by simp; omega⟩
      rw [i1, h2]
      simp
      omega
    | false =>
      rw [draw_not_counted s e hc]
      obtain ⟨i1, i2, i3, i4⟩ := ih s
        (by intro x hx; exact hwin x (List.mem_cons_of_mem _ hx))
        hlo (by push_cast at hhi; omega)
      refine ⟨?_, i2, i3, by simp; omega⟩
      rw [i1]
      simp

theorem countedTicks_of_core (envs : List TickEnv)
    (hcore : ∀ e ∈ envs, e.core.isSome = true) :
    ∀ s : NooCanvas, countedTicks s envs = envs.length := by
  induction envs with
  | nil => intro s; rfl
  | cons e envs ih =>
    intro s
    have he : counted s e = true := by
      unfold counted
      rw [hcore e (List.mem_cons_self _ _)]
      rfl
    show (if counted s e = true then 1 else 0) + countedTicks (draw s e).1 envs = envs.length + 1
    rw [if_pos he, ih (fun x hx => hcore x (List.mem_cons_of_mem _ hx))]
    omega

/-- C4 (amended): let `window` be the ticks since the counter was last reset
(`refreshRate = 0`), none of which saw a full second elapsed, and let `n` be the number of
ticks counted in that window plus the current one. On a current tick that gets past the early
return of `draw` (a core is present, or `display` is true) and sees at least one second
elapsed since `lastRateTime`, `swapInterval` becomes `(n + 5) / 60` by integer
division, `refreshRate` is reset to 0 and `lastRateTime` takes the new clock reading; in
particular `n = 55` gives 1 and `n = 120` gives 2. -/
theorem draw_recomputes_swapInterval (s : NooCanvas) (window : List TickEnv) (env : TickEnv)
    (hstart : s.refreshRate = 0)
    (hwindow : ∀ e ∈ window, e.now - s.lastRateTime < oneSecond)
    (hlen : window.length < 2147483642)
    (hcounted : counted (drawTicks s window).1 env = true)
    (helapsed : env.now - s.lastRateTime ≥ oneSecond) :
    (draw (drawTicks s window).1 env).1.swapInterval =
      Int.tdiv (((countedTicks s window + 1 : Nat) : Int) + 5) 60 ∧
    (draw (drawTicks s window).1 env).1.swapInterval =
      (((countedTicks s window + 1 + 5) / 60 : Nat) : Int) ∧
    (draw (drawTicks s window).1 env).1.refreshRate = 0 ∧
    (draw (drawTicks s window).1 env).1.lastRateTime = env.nowAfter ∧
    (countedTicks s window + 1 = 55 → (draw (drawTicks s window).1 env).1.swapInterval = 1) ∧
    (countedTicks s window + 1 = 120 → (draw (drawTicks s window).1 env).1.swapInterval = 2) := by
  obtain ⟨w1, _, w3, w4⟩ := drawTicks_window window s hwindow (by omega) (by omega)
  obtain ⟨h1, h2, h3⟩ := draw_pacing_fields _ env hcounted
  rw [hstart] at w1
  have ht : (trackRefreshRate (drawTicks s window).1 env).swapInterval =
        Int.tdiv (((countedTicks s window + 1 : Nat) : Int) + 5) 60 ∧
      (trackRefreshRate (drawTicks s window).1 env).refreshRate = 0 ∧
      (trackRefreshRate (drawTicks s window).1 env).lastRateTime = env.nowAfter := by
    unfold trackRefreshRate
    rw [if_pos (by rw [w3]; exact helapsed)]
    refine ⟨?_, rfl, rfl⟩
    show Int.tdiv (wrapInt32 (wrapInt32 ((drawTicks s window).1.refreshRate + 1) + 5)) 60 = _
    have hcast : (countedTicks s window : Int) + 1 + 5 =
        ((countedTicks s window + 1 : Nat) : Int) + 5 := by
      push_cast
      omega
    have hlo1 : -2147483648 ≤ (0 : Int) + (countedTicks s window : Int) + 1 := by omega
    have hhi1 : (0 : Int) + (countedTicks s window : Int) + 1 < 2147483648 := by omega
    have hlo5 : -2147483648 ≤ (0 : Int) + (countedTicks s window : Int) + 1 + 5 := by omega
    have hhi5 : (0 : Int) + (countedTicks s window : Int) + 1 + 5 < 2147483648 := by omega
    have hzero : (0 : Int) + (countedTicks s window : Int) + 1 + 5 =
        (countedTicks s window : Int) + 1 + 5 := by omega
    rw [w1, wrapInt32_of_inRange _ hlo1 hhi1, wrapInt32_of_inRange _ hlo5 hhi5, hzero, hcast]
  have hdiv : Int.tdiv (((countedTicks s window + 1 : Nat) : Int) + 5) 60 =
      (((countedTicks s window + 1 + 5) / 60 : Nat) : Int) := by
    rw [Int.tdiv_eq_ediv (by omega) (by omega)]
    omega
  rw [h1, h2, h3, ht.1, ht.2.1, ht.2.2]
  refine ⟨rfl, hdiv, rfl, rfl, ?_, ?_⟩
  · intro hn
    rw [hdiv, hn]
    rfl
  · intro hn
    rw [hdiv, hn]
    rfl

theorem draw_recomputes_swapInterval_witness :
    countedTicks (pacingStart stackedLayout 0)
        (List.replicate 119 (exampleTick (some ⟨false, true⟩) 5)) + 1 = 120 ∧
    (pacingStart stackedLayout 0).swapInterval = 1 ∧
    (draw (drawTicks (pacingStart stackedLayout 0)
        (List.replicate 119 (exampleTick (some ⟨false, true⟩) 5))).1
      (exampleTick (some ⟨false, true⟩) 1000000000)).1.swapInterval = 2 ∧
    (draw (drawTicks (pacingStart stackedLayout 0)
        (List.replicate 119 (exampleTick (some ⟨false, true⟩) 5))).1
      (exampleTick (some ⟨false, true⟩) 1000000000)).1.refreshRate = 0 ∧
    (draw (drawTicks (pacingStart stackedLayout 0)
        (List.replicate 119 (exampleTick (some ⟨false, true⟩) 5))).1
      (exampleTick (some ⟨false, true⟩) 1000000000)).1.lastRateTime = 1000000000 :=
  have hn : countedTicks (pacingStart stackedLayout 0)
      (List.replicate 119 (exampleTick (some ⟨false, true⟩) 5)) + 1 = 120 := by
    rw [countedTicks_of_core _ (by intro e he; rw [List.eq_of_mem_replicate he]; rfl),
      List.length_replicate]
  have h := draw_recomputes_swapInterval (pacingStart stackedLayout 0)
    (List.replicate 119 (exampleTick (some ⟨false, true⟩) 5))
    (exampleTick (some ⟨false, true⟩) 1000000000) rfl
    (by intro e he; rw [List.eq_of_mem_replicate he]; decide)
    (by rw [List.length_replicate]; decide)
    (by simp [counted, exampleTick])
    (by decide)
  ⟨hn, rfl, h.2.2.2.2.2 hn, h.2.2.1, h.2.2.2.1⟩

/-- C4 (as stated) fails on a tick that `draw` does not render. After one tick with a core
and the tick that presents the cleared frame once the core is gone, both within the first
second, the counter stands at 2. A tick with no core that arrives a full second after
`lastRateTime` returns at the first line of `draw`: `swapInterval` is still 1, where
`(3 + 5) / 60` and `(2 + 5) / 60` are 0, `refreshRate` is still 2 and not 0, `lastRateTime`
is still 0 and not the new clock reading, and nothing is drawn. -/
theorem idle_tick_recomputes_nothing :
    (exampleTick none 1000000000).now -
        (drawTicks (pacingStart stackedLayout 0)
          [exampleTick (some ⟨false, true⟩) 5, exampleTick none 6]).1.lastRateTime ≥
      oneSecond ∧
    draw (drawTicks (pacingStart stackedLayout 0)
        [exampleTick (some ⟨false, true⟩) 5, exampleTick none 6]).1
      (exampleTick none 1000000000) =
      ({ layout := stackedLayout, gbaMode := false, display := false, frameCount := 0
         swapInterval := 1, refreshRate := 2, lastRateTime := 0 }, []) ∧
    Int.tdiv (3 + 5) 60 = 0 ∧ Int.tdiv (2 + 5) 60 = 0 := by
  refine ⟨?_, ?_, by decide, by decide⟩
  · with_unfolding_all decide
  · with_unfolding_all decide

theorem draw_pacing_step (s : NooCanvas) (env : TickEnv)
    (hrate : 0 ≤ s.refreshRate) (hhi : s.refreshRate + 6 < 2147483648)
    (hswap : 0 ≤ s.swapInterval) :
    0 ≤ (draw s env).1.swapInterval ∧ 0 ≤ (draw s env).1.refreshRate ∧
    (draw s env).1.refreshRate ≤ s.refreshRate + 1 ∧
    (counted s env = true → env.now - s.lastRateTime ≥ oneSecond →
      (draw s env).1.swapInterval = (s.refreshRate + 1 + 5) / 60) := by
  cases hc : counted s env with
  | false =>
    rw [draw_not_counted s env hc]
    refine ⟨hswap, hrate, ?_, by intro h; cases h⟩
    show s.refreshRate ≤ s.refreshRate + 1
    omega
  | true =>
    obtain ⟨h1, h2, h3⟩ := draw_pacing_fields s env hc
    rw [h1, h2]
    have h5 : wrapInt32 (wrapInt32 (s.refreshRate + 1) + 5) = s.refreshRate + 1 + 5 := by
      rw [wrapInt32_of_inRange (s.refreshRate + 1) (by omega) (by omega),
        wrapInt32_of_inRange _ (by omega) (by omega)]
    have h6 : Int.tdiv (s.refreshRate + 1 + 5) 60 = (s.refreshRate + 1 + 5) / 60 :=
      Int.tdiv_eq_ediv (by omega) (by omega)
    by_cases he : env.now - s.lastRateTime ≥ oneSecond
    · have ht : (trackRefreshRate s env).swapInterval = (s.refreshRate + 1 + 5) / 60 ∧
          (trackRefreshRate s env).refreshRate = 0 := by
        unfold trackRefreshRate
        rw [if_pos he]
        refine ⟨?_, rfl⟩
        show Int.tdiv (wrapInt32 (wrapInt32 (s.refreshRate + 1) + 5)) 60 = _
        rw [h5, h6]
      rw [ht.1, ht.2]
      exact ⟨by omega, by omega, by omega, fun _ _ => rfl⟩
    · have ht : (trackRefreshRate s env).swapInterval = s.swapInterval ∧
          (trackRefreshRate s env).refreshRate = s.refreshRate + 1 := by
        unfold trackRefreshRate
        rw [if_neg he]
        exact ⟨rfl, wrapInt32_of_inRange _ (by omega) (by omega)⟩
      rw [ht.1, ht.2]
      exact ⟨hswap, by omega, by omega, fun _ h => absurd h he⟩

theorem drawTicks_pacing_invariant (envs : List TickEnv) : ∀ s : NooCanvas,
    0 ≤ s.refreshRate → s.refreshRate + envs.length + 6 < 2147483648 → 0 ≤ s.swapInterval →
    0 ≤ (drawTicks s envs).1.swapInterval ∧ 0 ≤ (drawTicks s envs).1.refreshRate ∧
    (drawTicks s envs).1.refreshRate ≤ s.refreshRate + envs.length := by
  induction envs with
  | nil => intro s h1 _ h3; exact ⟨h3, h1, by simp [drawTicks]⟩
  | cons e envs ih =>
    intro s h1 h2 h3
    have hlen : ((e :: envs).length : Int) = (envs.length : Int) + 1 := by
      rw [List.length_cons]
      push_cast
      rfl
    rw [hlen] at h2 ⊢
    obtain ⟨d1, d2, d3, _⟩ := draw_pacing_step s e h1 (by omega) h3
    obtain ⟨i1, i2, i3⟩ := ih (draw s e).1 d2 (by omega) d1
    rw [drawTicks_cons]
    refine ⟨i1, i2, ?_⟩
    show (drawTicks (draw s e).1 envs).1.refreshRate ≤ s.refreshRate + (↑envs.length + 1)
    omega

/-- C5 (amended): starting from `swapInterval = 1`, after any sequence of render ticks and
once-per-second recomputations `swapInterval` is never negative; a recomputation that has
counted `n` ticks in the measured second (the current one included) sets it to `(n + 5) / 60`,
which is at least 1 exactly when `n ≥ 55` and is 0 for every smaller `n`. -/
theorem swapInterval_never_negative (layout : ScreenLayout) (startTime : Int)
    (envs : List TickEnv) (env : TickEnv) (hlen : envs.length < 2147483641) :
    0 ≤ (drawTicks (pacingStart layout startTime) envs).1.swapInterval ∧
    0 ≤ (draw (drawTicks (pacingStart layout startTime) envs).1 env).1.swapInterval ∧
    (counted (drawTicks (pacingStart layout startTime) envs).1 env = true →
      env.now - (drawTicks (pacingStart layout startTime) envs).1.lastRateTime ≥ oneSecond →
      (1 ≤ (draw (drawTicks (pacingStart layout startTime) envs).1 env).1.swapInterval ↔
        55 ≤ (drawTicks (pacingStart layout startTime) envs).1.refreshRate + 1) ∧
      ((drawTicks (pacingStart layout startTime) envs).1.refreshRate + 1 < 55 →
        (draw (drawTicks (pacingStart layout startTime) envs).1 env).1.swapInterval = 0)) := by
  have h0 : (pacingStart layout startTime).refreshRate = 0 := rfl
  have h1 : (pacingStart layout startTime).swapInterval = 1 := rfl
  obtain ⟨i1, i2, i3⟩ := drawTicks_pacing_invariant envs (pacingStart layout startTime)
    (by omega) (by omega) (by omega)
  obtain ⟨d1, _, _, d4⟩ := draw_pacing_step (drawTicks (pacingStart layout startTime) envs).1 env
    i2 (by omega) i1
  refine ⟨i1, d1, ?_⟩
  intro hc he
  rw [d4 hc he]
  constructor
  · constructor <;> intro h <;> omega
  · intro h; omega

theorem swapInterval_never_negative_witness :
    0 ≤ (drawTicks (pacingStart stackedLayout 0) [exampleTick none 7]).1.swapInterval ∧
    0 ≤ (draw (drawTicks (pacingStart stackedLayout 0) [exampleTick none 7]).1
      (exampleTick none 1000000000)).1.swapInterval :=
  ⟨(swapInterval_never_negative stackedLayout 0 [exampleTick none 7]
      (exampleTick none 1000000000) (by decide)).1,
   (swapInterval_never_negative stackedLayout 0 [exampleTick none 7]
      (exampleTick none 1000000000) (by decide)).2.1⟩

/-- C5 (as stated) fails: from the start state with `swapInterval = 1`, thirty render ticks
in the first measured second (a 30 Hz display) recompute `swapInterval` to
`(30 + 5) / 60 = 0`, which is less than 1; nothing clamps it. -/
theorem swapInterval_drops_below_one :
    (pacingStart stackedLayout 0).swapInterval = 1 ∧
    (drawTicks (pacingStart stackedLayout 0)
      (List.replicate 29 (exampleTick (some ⟨false, true⟩) 5) ++
        [exampleTick (some ⟨false, true⟩) 1000000000])).1.swapInterval = 0 ∧
    ¬ ∀ envs : List TickEnv, 1 ≤ (drawTicks (pacingStart stackedLayout 0) envs).1.swapInterval := by
  have h : (drawTicks (pacingStart stackedLayout 0)
      (List.replicate 29 (exampleTick (some ⟨false, true⟩) 5) ++
        [exampleTick (some ⟨false, true⟩) 1000000000])).1.swapInterval = 0 := by
    set_option maxRecDepth 100000 in with_unfolding_all decide
  refine ⟨rfl, h, ?_⟩
  intro hall
  have := hall (List.replicate 29 (exampleTick (some ⟨false, true⟩) 5) ++
        [exampleTick (some ⟨false, true⟩) 1000000000])
  rw [h] at this
  exact absurd this (by decide)

theorem drawTicks_poll_period (k : Nat) (hk : 1 ≤ k) (hk32 : k < 2147483648)
    (envs : List TickEnv) :
    ∀ (s : NooCanvas) (j : Nat), s.frameCount = (j : Int) → j < k →
      (∀ e ∈ envs, ∃ c, e.core = some c ∧ c.frameReady = true) →
      (∀ m, m < envs.length → (drawTicks s (envs.take m)).1.swapInterval = (k : Int)) →
      ∀ n, 1 ≤ n → n ≤ envs.length →
        (polled ((drawTicks s envs).2.getD (n - 1) []) = true ↔ k ∣ j + n) := by
  induction envs with
  | nil =>
    intro s j _ _ _ _ n hn hle
    simp at hle
    omega
  | cons e envs ih =>
    intro s j hfc hj hcore hconst n hn hle
    obtain ⟨c, hc, hr⟩ := hcore e (List.mem_cons_self _ _)
    have hsw : s.swapInterval = (k : Int) := hconst 0 (by simp)
    have hw : wrapInt32 (s.frameCount + 1) = s.frameCount + 1 :=
      wrapInt32_of_inRange _ (by omega) (by omega)
    have hp := (polled_draw_of_core s e c hc).1
    have hf := frameCount_draw_of_core s e c hc
    rw [hw, hsw, hfc] at hp hf
    rw [drawTicks_cons]
    by_cases hjk : j + 1 = k
    · have hp1 : polled (draw s e).2 = true := by
        rw [hp]; simp; omega
      have hf1 : (draw s e).1.frameCount = ((0 : Nat) : Int) := by
        rw [hf, if_pos ⟨by omega, hr⟩]; rfl
      rcases Nat.lt_or_ge n 2 with hlt | hge
      · have hn1 : n = 1 := by omega
        subst hn1
        simp only [Nat.sub_self, List.getD_cons_zero, hp1, true_iff]
        exact ⟨1, by omega⟩
      · obtain ⟨n2, rfl⟩ : ∃ n2, n = n2 + 2 := ⟨n - 2, by omega⟩
        have hlen : n2 + 1 ≤ envs.length := by
          simp only [List.length_cons] at hle; omega
        have := ih (draw s e).1 0 hf1 (by omega)
          (fun x hx => hcore x (List.mem_cons_of_mem _ hx))
          (fun m hm => hconst (m + 1) (by simp; omega))
          (n2 + 1) (by omega) hlen
        have hidx : n2 + 2 - 1 = (n2 + 1 - 1) + 1 := by omega
        rw [hidx, List.getD_cons_succ, this]
        have hsum : j + (n2 + 2) = k + (0 + (n2 + 1)) := by omega
        rw [hsum]
        exact (Nat.dvd_add_right (dvd_refl k)).symm
    · have hp1 : polled (draw s e).2 = false := by
        rw [hp]; simp; omega
      have hf1 : (draw s e).1.frameCount = ((j + 1 : Nat) : Int) := by
        rw [hf, if_neg (by intro h; omega)]; push_cast; rfl
      rcases Nat.lt_or_ge n 2 with hlt | hge
      · have hn1 : n = 1 := by omega
        subst hn1
        simp only [Nat.sub_self, List.getD_cons_zero, hp1]
        constructor
        · intro h; cases h
        · intro hd
          have := Nat.le_of_dvd (by omega) hd
          omega
      · obtain ⟨n2, rfl⟩ : ∃ n2, n = n2 + 2 := ⟨n - 2, by omega⟩
        have hlen : n2 + 1 ≤ envs.length := by
          simp only [List.length_cons] at hle; omega
        have := ih (draw s e).1 (j + 1) hf1 (by omega)
          (fun x hx => hcore x (List.mem_cons_of_mem _ hx))
          (fun m hm => hconst (m + 1) (by simp; omega))
          (n2 + 1) (by omega) hlen
        have hidx : n2 + 2 - 1 = (n2 + 1 - 1) + 1 := by omega
        rw [hidx, List.getD_cons_succ, this]
        have hsum : j + (n2 + 2) = j + 1 + (n2 + 1) := by omega
        rw [hsum]

/-- C6: with a core present on every tick, every attempted poll yielding a new frame, and
`swapInterval` holding the constant value `k` (`1 ≤ k`, a 32-bit `int`) at each tick, a run
of render ticks started from `frameCount = 0` attempts a frame poll on its `n`-th tick
(`n ≥ 1`) if and only if `k` divides `n`. -/
theorem poll_every_k_ticks (k : Nat) (s : NooCanvas) (envs : List TickEnv)
    (hk : 1 ≤ k) (hk32 : k < 2147483648) (hstart : s.frameCount = 0)
    (hcore : ∀ e ∈ envs, ∃ c, e.core = some c ∧ c.frameReady = true)
    (hconst : ∀ m, m < envs.length → (drawTicks s (envs.take m)).1.swapInterval = (k : Int))
    (n : Nat) (hn : 1 ≤ n) (hle : n ≤ envs.length) :
    polled ((drawTicks s envs).2.getD (n - 1) []) = true ↔ k ∣ n := by
  have h := drawTicks_poll_period k hk hk32 envs s 0 (by rw [hstart]; rfl) (by omega)
    hcore hconst n hn hle
  rw [Nat.zero_add] at h
  exact h

theorem poll_every_k_ticks_witness :
    (polled ((drawTicks { pacingStart stackedLayout 0 with swapInterval := 2 }
        (List.replicate 4 (exampleTick (some ⟨false, true⟩) 5))).2.getD (4 - 1) []) = true ↔
      2 ∣ 4) ∧
    (polled ((drawTicks { pacingStart stackedLayout 0 with swapInterval := 2 }
        (List.replicate 4 (exampleTick (some ⟨false, true⟩) 5))).2.getD (3 - 1) []) = true ↔
      2 ∣ 3) :=
  ⟨poll_every_k_ticks 2 { pacingStart stackedLayout 0 with swapInterval := 2 }
      (List.replicate 4 (exampleTick (some ⟨false, true⟩) 5))
      (by decide) (by decide) rfl
      (by intro e he; rw [List.eq_of_mem_replicate he]; exact ⟨⟨false, true⟩, rfl, rfl⟩)
      (by
        intro m hm
        rw [List.length_replicate] at hm
        interval_cases m <;> with_unfolding_all decide)
      4 (by decide) (by rw [List.length_replicate]),
   poll_every_k_ticks 2 { pacingStart stackedLayout 0 with swapInterval := 2 }
      (List.replicate 4 (exampleTick (some ⟨false, true⟩) 5))
      (by decide) (by decide) rfl
      (by intro e he; rw [List.eq_of_mem_replicate he]; exact ⟨⟨false, true⟩, rfl, rfl⟩)
      (by
        intro m hm
        rw [List.length_replicate] at hm
        interval_cases m <;> with_unfolding_all decide)
      3 (by decide) (by rw [List.length_replicate]; decide)⟩

/-! ## Theorems: idle canvas -/

theorem drawTicks_idle (later : List TickEnv) : ∀ s : NooCanvas,
    s.display = false → (∀ e ∈ later, e.core = none) →
    drawTicks s later = (s, List.replicate later.length []) := by
  induction later with
  | nil => intro s _ _; rfl
  | cons e later ih =>
    intro s hd hnone
    rw [drawTicks_cons, draw_idle_later s e (hnone e (List.mem_cons_self _ _)) hd]
    rw [ih s hd (fun x hx => hnone x (List.mem_cons_of_mem _ hx))]
    rfl

theorem rendersScreen_drawScreens (gba : Bool) (r t : Nat) (l : ScreenLayout) :
    rendersScreen (drawScreens gba r t l) = true := by
  cases gba <;> simp [rendersScreen, drawScreens]

theorem draw_of_core_renders (s : NooCanvas) (env : TickEnv) (c : CoreView)
    (hcore : env.core = some c) :
    rendersScreen (draw s env).2 = true ∧ DrawCall.swapBuffers ∈ (draw s env).2 ∧
    (draw s env).1.display = true := by
  have hs := rendersScreen_drawScreens (c.isGbaMode && env.gbaCrop)
    (if env.highRes3D then 1 else 0) (texCoordsFor env.screenRotation env.indeterminate)
    (if (s.gbaMode != (c.isGbaMode && env.gbaCrop)) then env.resized else s.layout)
  rw [draw_of_core s env c hcore]
  refine ⟨?_, by simp, ?_⟩
  · unfold rendersScreen at hs ⊢
    unfold drawCore
    simp only [List.any_append, hs]
    simp
  · rw [(trackRefreshRate_frameCount _ env).2]
    rfl

/-- C7: starting from a canvas that displayed a frame (`display = true`), in a run of render
ticks with no core the first tick presents one cleared frame (clear, then swap, no screen
drawn) and sets `display = false`; every later tick of the run makes no call at all and
leaves the whole canvas state unchanged; and the first tick at which a core exists again
renders the screens, swaps buffers and sets `display = true`. -/
theorem idle_presents_one_cleared_frame (s : NooCanvas) (first : TickEnv)
    (later : List TickEnv) (resume : TickEnv) (c : CoreView)
    (hdisplay : s.display = true) (hfirst : first.core = none)
    (hlater : ∀ e ∈ later, e.core = none) (hresume : resume.core = some c) :
    (draw s first).2 = [.setCurrent, .clearColor, .clear, .finish, .swapBuffers] ∧
    rendersScreen (draw s first).2 = false ∧
    (draw s first).1.display = false ∧
    drawTicks (draw s first).1 later = ((draw s first).1, List.replicate later.length []) ∧
    (drawTicks s (first :: later ++ [resume])).2 =
      [.setCurrent, .clearColor, .clear, .finish, .swapBuffers] ::
        (List.replicate later.length [] ++ [(draw (draw s first).1 resume).2]) ∧
    rendersScreen (draw (draw s first).1 resume).2 = true ∧
    DrawCall.swapBuffers ∈ (draw (draw s first).1 resume).2 ∧
    (draw (draw s first).1 resume).1.display = true := by
  have h1 := draw_idle_first s first hfirst hdisplay
  have hcalls : (draw s first).2 =
      [.setCurrent, .clearColor, .clear, .finish, .swapBuffers] := by rw [h1]
  have hd : (draw s first).1.display = false := by
    rw [h1]
    exact (trackRefreshRate_frameCount _ first).2
  have hidle := drawTicks_idle later (draw s first).1 hd hlater
  obtain ⟨r1, r2, r3⟩ := draw_of_core_renders (draw s first).1 resume c hresume
  refine ⟨hcalls, by rw [hcalls]; rfl, hd, hidle, ?_, r1, r2, r3⟩
  rw [List.cons_append, drawTicks_cons, drawTicks_append, hidle, hcalls]
  rfl

theorem idle_presents_one_cleared_frame_witness :
    (drawTicks (pacingStart stackedLayout 0)
      (exampleTick none 1 :: [exampleTick none 2, exampleTick none 3] ++
        [exampleTick (some ⟨false, true⟩) 4])).2 =
      [.setCurrent, .clearColor, .clear, .finish, .swapBuffers] ::
        (List.replicate [exampleTick none 2, exampleTick none 3].length [] ++
          [(draw (draw (pacingStart stackedLayout 0) (exampleTick none 1)).1
            (exampleTick (some ⟨false, true⟩) 4)).2]) :=
  (idle_presents_one_cleared_frame (pacingStart stackedLayout 0) (exampleTick none 1)
    [exampleTick none 2, exampleTick none 3] (exampleTick (some ⟨false, true⟩) 4) ⟨false, true⟩
    rfl rfl (by intro e he; simp at he; rcases he with rfl | rfl <;> rfl) rfl).2.2.2.2.1

/-! ## Theorems: Vita worker threads -/

theorem run_nil (s : Vita) : run s [] = some s := rfl

theorem run_cons (s : Vita) (c : Choice) (rest : List Choice) :
    run s (c :: rest) = (step s c).bind fun s1 => run s1 rest := by
  cases h : step s c <;> simp [run, h]

theorem run_append (xs ys : List Choice) : ∀ s : Vita,
    run s (xs ++ ys) = (run s xs).bind fun s1 => run s1 ys := by
  induction xs with
  | nil => intro s; rfl
  | cons c xs ih =>
    intro s
    rw [List.cons_append, run_cons, run_cons]
    cases h : step s c with
    | none => rfl
    | some s1 => simp [ih s1]

theorem initial_consistent : Vita.initial.Consistent := by
  refine ⟨rfl, rfl, rfl, rfl⟩

theorem stepMain_consistent (s s1 : Vita) (h : s.Consistent) (hs : stepMain s = some s1) :
    s1.Consistent := by
  obtain ⟨running, flag, main, core, audio, save, un, ug, trace⟩ := s
  obtain ⟨hw, hst, hq, ho⟩ := h
  cases main <;>
    simp only [stepMain] at hs <;>
    (try split at hs) <;>
    simp only [Option.some.injEq, reduceCtorEq] at hs <;>
    subst hs <;>
    simp_all [Vita.Consistent, workersMatch, stoppedNow, quietWhileStopped, stopOrder,
      stopOrderStep, MainPc.stopPhase, Event.isCoreOp]

theorem stepCore_consistent (s s1 : Vita) (m : Option Slot) (h : s.Consistent)
    (hs : stepCore s m = some s1) : s1.Consistent := by
  obtain ⟨running, flag, main, core, audio, save, un, ug, trace⟩ := s
  obtain ⟨hw, hst, hq, ho⟩ := h
  cases core <;>
    simp only [stepCore, Option.some.injEq, reduceCtorEq] at hs <;>
    subst hs <;>
    cases main <;>
    cases running <;>
    simp_all [Vita.Consistent, workersMatch, stoppedNow, quietWhileStopped, stopOrder,
      stopOrderStep, MainPc.stopPhase, Event.isCoreOp]

theorem stepAudio_consistent (s s1 : Vita) (h : s.Consistent)
    (hs : stepAudio s = some s1) : s1.Consistent := by
  obtain ⟨running, flag, main, core, audio, save, un, ug, trace⟩ := s
  obtain ⟨hw, hst, hq, ho⟩ := h
  cases audio <;>
    simp only [stepAudio, Option.some.injEq, reduceCtorEq] at hs <;>
    subst hs <;>
    cases main <;>
    cases running <;>
    simp_all [Vita.Consistent, workersMatch, stoppedNow, quietWhileStopped, stopOrder,
      stopOrderStep, MainPc.stopPhase, Event.isCoreOp]

theorem stepSave_consistent (s s1 : Vita) (b : Bool) (h : s.Consistent)
    (hs : stepSave s b = some s1) : s1.Consistent := by
  obtain ⟨running, flag, main, core, audio, save, un, ug, trace⟩ := s
  obtain ⟨hw, hst, hq, ho⟩ := h
  cases save <;>
    simp only [stepSave] at hs <;>
    (try split at hs) <;>
    simp only [Option.some.injEq, reduceCtorEq] at hs <;>
    subst hs <;>
    cases main <;>
    cases running <;>
    simp_all [Vita.Consistent, workersMatch, stoppedNow, quietWhileStopped, stopOrder,
      stopOrderStep, MainPc.stopPhase, Event.isCoreOp]

theorem step_consistent (s s1 : Vita) (c : Choice) (h : s.Consistent)
    (hs : step s c = some s1) : s1.Consistent := by
  cases c with
  | main => exact stepMain_consistent s s1 h hs
  | core m => exact stepCore_consistent s s1 m h hs
  | audio => exact stepAudio_consistent s s1 h hs
  | save b => exact stepSave_consistent s s1 b h hs

theorem run_consistent (sched : List Choice) : ∀ s s1 : Vita, s.Consistent →
    run s sched = some s1 → s1.Consistent := by
  induction sched with
  | nil =>
    intro s s1 h hr
    simp only [run, Option.some.injEq] at hr
    exact hr ▸ h
  | cons c rest ih =>
    intro s s1 h hr
    rw [run_cons] at hr
    cases hc : step s c with
    | none => rw [hc] at hr; cases hr
    | some s2 =>
      rw [hc] at hr
      exact ih s2 s1 (step_consistent s s2 c h hc) hr

theorem run_single (s s1 : Vita) (c : Choice) : run s [c] = some s1 ↔ step s c = some s1 := by
  cases h : step s c <;> simp [run, h]

theorem stepSave_spec (s s1 : Vita) (b : Bool) (hs : stepSave s b = some s1) :
    s1.running = s.running ∧
    (s.save = .loopCheck →
      s1.save = (if s.running then SavePc.wait else SavePc.terminated) ∧ s1.trace = s.trace) ∧
    (s.save = .wait →
      b = s.eventFlag ∧ s1.save = .writeNds ∧
      s1.trace = .waitEventFlag saveTimeout b :: s.trace) ∧
    (s.save = .writeNds → s1.save = .writeGba ∧ s1.trace = .writeSave .nds :: s.trace) ∧
    (s.save = .writeGba → s1.save = .loopCheck ∧ s1.trace = .writeSave .gba :: s.trace) := by
  obtain ⟨running, flag, main, core, audio, save, un, ug, trace⟩ := s
  cases save <;>
    simp only [stepSave] at hs <;>
    (try split at hs) <;>
    simp only [Option.some.injEq, reduceCtorEq] at hs <;>
    subst hs <;>
    simp_all

theorem step_other_keeps_save (s s1 : Vita) (c : Choice) (h : s.Consistent)
    (hc : c.isSave = false) (hs : step s c = some s1) (hne : s.save ≠ .terminated) :
    s1.save = s.save ∧ saveEvents s1.trace = saveEvents s.trace ∧
    (s.running = false → s1.running = false) := by
  obtain ⟨running, flag, main, core, audio, save, un, ug, trace⟩ := s
  obtain ⟨hw, -, -, -⟩ := h
  cases c with
  | save b => cases hc
  | main =>
    cases main <;>
      simp only [step, stepMain] at hs <;>
      (try split at hs) <;>
      simp only [Option.some.injEq, reduceCtorEq] at hs <;>
      subst hs <;>
      simp_all [workersMatch, saveEvents, Event.bySave]
  | core m =>
    cases core <;>
      simp only [step, stepCore, Option.some.injEq, reduceCtorEq] at hs <;>
      subst hs <;>
      simp [saveEvents, Event.bySave]
  | audio =>
    cases audio <;>
      simp only [step, stepAudio, Option.some.injEq, reduceCtorEq] at hs <;>
      subst hs <;>
      simp [saveEvents, Event.bySave]

theorem run_others_keep_save (others : List Choice) : ∀ s s1 : Vita, s.Consistent →
    (∀ c ∈ others, c.isSave = false) → run s others = some s1 → s.save ≠ .terminated →
    s1.Consistent ∧ s1.save = s.save ∧ saveEvents s1.trace = saveEvents s.trace ∧
    (s.running = false → s1.running = false) := by
  induction others with
  | nil =>
    intro s s1 h _ hr _
    simp only [run, Option.some.injEq] at hr
    subst hr
    exact ⟨h, rfl, rfl, fun x => x⟩
  | cons c rest ih =>
    intro s s1 h ho hr hne
    rw [run_cons] at hr
    cases hc : step s c with
    | none => rw [hc] at hr; cases hr
    | some s2 =>
      rw [hc] at hr
      obtain ⟨k1, k2, k3⟩ :=
        step_other_keeps_save s s2 c h (ho c (List.mem_cons_self _ _)) hc hne
      obtain ⟨i0, i1, i2, i3⟩ := ih s2 s1 (step_consistent s s2 c h hc)
        (fun x hx => ho x (List.mem_cons_of_mem _ hx)) hr (by rw [k1]; exact hne)
      exact ⟨i0, by rw [i1, k1], by rw [i2, k2], fun hf => i3 (k3 hf)⟩

/-- From the timed wait, the save thread's next three statements, with any statements of the
other threads in between, are the return of the wait and the two flushes, in that order. -/
theorem checkSave_from_wait (s s4 : Vita) (h : s.Consistent) (hpc : s.save = .wait)
    (b y z : Bool) (o2 o3 o4 : List Choice)
    (h2 : ∀ c ∈ o2, c.isSave = false) (h3 : ∀ c ∈ o3, c.isSave = false)
    (h4 : ∀ c ∈ o4, c.isSave = false)
    (hrun : run s ([.save b] ++ o2 ++ [.save y] ++ o3 ++ [.save z] ++ o4) = some s4) :
    b = s.eventFlag ∧ s4.Consistent ∧ s4.save = .loopCheck ∧
    saveEvents s4.trace =
      .writeSave .gba :: .writeSave .nds :: .waitEventFlag 3000000 b :: saveEvents s.trace ∧
    (s.running = false → s4.running = false) := by
  simp only [run_append] at hrun
  obtain ⟨t6, hrun, e6⟩ := Option.bind_eq_some.mp hrun
  obtain ⟨t5, hrun, e5⟩ := Option.bind_eq_some.mp hrun
  obtain ⟨t4, hrun, e4⟩ := Option.bind_eq_some.mp hrun
  obtain ⟨t3, hrun, e3⟩ := Option.bind_eq_some.mp hrun
  obtain ⟨t2, e1, e2⟩ := Option.bind_eq_some.mp hrun
  rw [run_single] at e1 e3 e5
  -- the wait returns
  have c1 := step_consistent s t2 _ h e1
  obtain ⟨r1, -, w1, -, -⟩ := stepSave_spec s t2 b e1
  obtain ⟨wb, wpc, wtr⟩ := w1 hpc
  obtain ⟨c2, p2, v2, f2⟩ := run_others_keep_save o2 t2 t3 c1 h2 e2 (by rw [wpc]; simp)
  -- the NDS flush
  have c3 := step_consistent t3 t4 _ c2 e3
  obtain ⟨r3, -, -, n3, -⟩ := stepSave_spec t3 t4 y e3
  obtain ⟨npc, ntr⟩ := n3 (by rw [p2, wpc])
  obtain ⟨c4, p4, v4, f4⟩ := run_others_keep_save o3 t4 t5 c3 h3 e4 (by rw [npc]; simp)
  -- the GBA flush
  have c5 := step_consistent t5 t6 _ c4 e5
  obtain ⟨r5, -, -, -, g5⟩ := stepSave_spec t5 t6 z e5
  obtain ⟨gpc, gtr⟩ := g5 (by rw [p4, npc])
  obtain ⟨c6, p6, v6, f6⟩ := run_others_keep_save o4 t6 s4 c5 h4 e6 (by rw [gpc]; simp)
  refine ⟨wb, c6, by rw [p6, gpc], ?_, ?_⟩
  · rw [v6, gtr]
    simp only [saveEvents, List.filter, Event.bySave]
    rw [← saveEvents, v4, ntr]
    simp only [saveEvents, List.filter, Event.bySave]
    rw [← saveEvents, v2, wtr]
    simp only [saveEvents, List.filter, Event.bySave, saveTimeout]
  · intro hf
    exact f6 (by rw [r5]; exact f4 (by rw [r3]; exact f2 (by rw [r1]; exact hf)))

/-- C8: take any reachable state and four consecutive statements of the save thread, with
any statements of the other threads in between. If the thread stands at its loop test with
`running` true, it performs one timed wait (timeout 3000000 microseconds, ended by signal or
by timeout alike), then `writeSave` on the NDS cartridge, then `writeSave` on the GBA
cartridge, and only then is back at the loop test, whatever happened to `running` meanwhile.
If it stands in the wait after `stopCore` has cleared `running` and set the event flag, the
wait ends by the signal, both slots are flushed once more in the same order, and the thread
then terminates at the loop test. -/
theorem checkSave_flushes_every_iteration (pre : List Choice) (s s4 : Vita)
    (hreach : run Vita.initial pre = some s)
    (x b y z : Bool) (o1 o2 o3 : List Choice)
    (h1 : ∀ c ∈ o1, c.isSave = false) (h2 : ∀ c ∈ o2, c.isSave = false)
    (h3 : ∀ c ∈ o3, c.isSave = false)
    (hrun : run s ([.save x] ++ o1 ++ [.save b] ++ o2 ++ [.save y] ++ o3 ++ [.save z]) =
      some s4) :
    (s.save = .loopCheck → s.running = true →
      s4.save = .loopCheck ∧
      saveEvents s4.trace =
        .writeSave .gba :: .writeSave .nds :: .waitEventFlag 3000000 b ::
          saveEvents s.trace) ∧
    (s.save = .wait → s.running = false → s.eventFlag = true →
      x = true ∧ s4.save = .terminated ∧
      saveEvents s4.trace =
        .writeSave .gba :: .writeSave .nds :: .waitEventFlag 3000000 true ::
          saveEvents s.trace) := by
  have hcons := run_consistent pre Vita.initial s initial_consistent hreach
  simp only [run_append] at hrun
  obtain ⟨t7, hrun, e7⟩ := Option.bind_eq_some.mp hrun
  obtain ⟨t6, hrun, e6⟩ := Option.bind_eq_some.mp hrun
  obtain ⟨t5, hrun, e5⟩ := Option.bind_eq_some.mp hrun
  obtain ⟨t4, hrun, e4⟩ := Option.bind_eq_some.mp hrun
  obtain ⟨t3, hrun, e3⟩ := Option.bind_eq_some.mp hrun
  obtain ⟨t2, e1, e2⟩ := Option.bind_eq_some.mp hrun
  constructor
  · intro hpc hr
    -- the loop test sends the thread into the wait
    have q1 := (run_single s t2 _).mp e1
    have c1 := step_consistent s t2 _ hcons q1
    obtain ⟨-, l1, -, -, -⟩ := stepSave_spec s t2 x q1
    obtain ⟨lpc, ltr⟩ := l1 hpc
    rw [hr, if_pos rfl] at lpc
    obtain ⟨c2, p2, v2, -⟩ := run_others_keep_save o1 t2 t3 c1 h1 e2 (by rw [lpc]; simp)
    have hw : run t3 ([.save b] ++ o2 ++ [.save y] ++ o3 ++ [.save z] ++ []) = some s4 := by
      simp only [run_append, e3, e4, e5, e6, e7, Option.some_bind, run_nil]
    obtain ⟨-, -, k1, k2, -⟩ := checkSave_from_wait t3 s4 c2 (by rw [p2, lpc]) b y z o2 o3 []
      h2 h3 (by intro c hc; cases hc) hw
    exact ⟨k1, by rw [k2, v2, ltr]⟩
  · intro hpc hr hf
    have hw : run s ([.save x] ++ o1 ++ [.save b] ++ o2 ++ [.save y] ++ o3) = some t7 := by
      simp only [run_append, e1, e2, e3, e4, e5, e6, Option.some_bind]
    obtain ⟨kx, kc, k1, k2, k3⟩ := checkSave_from_wait s t7 hcons hpc x b y o1 o2 o3
      h1 h2 h3 hw
    have q7 := (run_single t7 s4 _).mp e7
    obtain ⟨-, l7, -, -, -⟩ := stepSave_spec t7 s4 z q7
    obtain ⟨lpc, ltr⟩ := l7 k1
    rw [k3 hr] at lpc
    rw [hf] at kx
    subst kx
    exact ⟨rfl, lpc, by rw [ltr, k2]⟩

theorem checkSave_flushes_every_iteration_witness :
    ∃ s s4, run Vita.initial [.main, .main, .main, .main, .main] = some s ∧
      run s ([.save false] ++ [.core none, .audio] ++ [.save false] ++ [.main] ++
        [.save true] ++ [.main, .core none] ++ [.save false]) = some s4 ∧
      s4.save = .loopCheck ∧
      saveEvents s4.trace =
        .writeSave .gba :: .writeSave .nds :: .waitEventFlag 3000000 false ::
          saveEvents s.trace := by
  refine ⟨_, _, rfl, rfl, ?_⟩
  exact (checkSave_flushes_every_iteration [.main, .main, .main, .main, .main] _ _ rfl
    false false true false [.core none, .audio] [.main] [.main, .core none]
    (by decide) (by decide) (by decide) rfl).1 rfl rfl

/-- C10: in every execution of the interleaved program from program start, the events of
`stopCore` occur only in the order `running = false`, set event flag, join core, join audio,
join save, return; no worker calls into the core (`runFrame`, `getSamples`, `writeSave`)
between a return of `stopCore` and the next call of `startCore`; and whenever `stopCore` has
returned, all three workers have terminated and none of them can take a step. -/
theorem stopCore_joins_before_return (sched : List Choice) (s : Vita)
    (hrun : run Vita.initial sched = some s) :
    stopOrder s.trace = some s.main.stopPhase ∧
    quietWhileStopped s.trace = true ∧
    (s.main = .stopped →
      s.running = false ∧ s.core = .terminated ∧ s.audio = .terminated ∧
      s.save = .terminated ∧ ∀ c, c ≠ Choice.main → step s c = none) := by
  obtain ⟨hw, _, hq, ho⟩ := run_consistent sched Vita.initial s initial_consistent hrun
  refine ⟨ho, hq, ?_⟩
  intro hm
  obtain ⟨running, flag, main, core, audio, save, un, ug, trace⟩ := s
  simp only at hm
  subst hm
  simp only [workersMatch, Bool.and_eq_true, Bool.not_eq_true', beq_iff_eq] at hw
  obtain ⟨⟨⟨h1, h2⟩, h3⟩, h4⟩ := hw
  subst h1 h2 h3 h4
  refine ⟨rfl, rfl, rfl, rfl, ?_⟩
  intro c hc
  cases c with
  | main => exact absurd rfl hc
  | core m => rfl
  | audio => rfl
  | save b => rfl

theorem stopCore_joins_before_return_witness :
    ∃ s, run Vita.initial stopWhileWaitingSchedule = some s ∧ s.main = .stopped ∧
      s.trace.reverse =
        [.startCoreEntered, .setArmClock 444, .setRunning true, .spawned .core,
         .spawned .audio, .spawned .save, .runFrame, .getSamples 699, .audioOut,
         .waitEventFlag 3000000 false, .writeSave .nds, .writeSave .gba,
         .setRunning false, .setEventFlag, .waitEventFlag 3000000 true, .writeSave .nds,
         .writeSave .gba, .joined .core, .joined .audio, .joined .save, .setArmClock 333,
         .stopCoreReturned] ∧
      stopOrder s.trace = some s.main.stopPhase ∧ quietWhileStopped s.trace = true :=
  ⟨_, rfl, rfl, rfl,
    (stopCore_joins_before_return stopWhileWaitingSchedule _ rfl).1,
    (stopCore_joins_before_return stopWhileWaitingSchedule _ rfl).2.1⟩

/-- C9: there is an execution of the workers and `stopCore` in which the NDS save memory is
modified by a frame after the save worker's last flush, the worker then sees
`running = false` at its loop test and terminates without another `writeSave`, `stopCore`
returns, the modification is still unsaved, and no worker can move any more. -/
theorem unsaved_data_lost_at_shutdown :
    ∃ s, run Vita.initial lostSaveSchedule = some s ∧
      s.main = .stopped ∧ s.save = .terminated ∧ s.unsavedNds = true ∧
      s.trace.reverse =
        [.startCoreEntered, .setArmClock 444, .setRunning true, .spawned .core,
         .spawned .audio, .spawned .save,
         .waitEventFlag 3000000 false, .writeSave .nds, .writeSave .gba,
         .runFrame,
         .setRunning false, .setEventFlag, .joined .core, .joined .audio, .joined .save,
         .setArmClock 333, .stopCoreReturned] ∧
      ∀ c, c ≠ Choice.main → step s c = none := by
  refine ⟨_, rfl, rfl, rfl, rfl, rfl, ?_⟩
  intro c hc
  cases c with
  | main => exact absurd rfl hc
  | core m => rfl
  | audio => rfl
  | save b => rfl

/-! ## Theorems: audio port, framebuffer, rotation -/

/-- C12: for every 699-sample batch and 1024-slot buffer, the count that one iteration of
`outputAudio` passes to `getSamples` is the host buffer duration at the native rate rounded
to the nearest integer, `round(1024 * 32768 / 48000) = 699` (it differs from the exact
quotient by less than half a sample), and the submitted buffer has the 1024 slots the audio
port was opened with. -/
theorem requested_samples_rounded (original audioBuffer : List Nat)
    (horig : original.length = 699) (hbuf : audioBuffer.length = 1024) :
    ∃ r, outputAudioIteration original audioBuffer = some r ∧
      r.requested = roundDiv (audioPortLength * nativeSampleRate) audioPortRate ∧
      r.requested = 699 ∧
      2 * (r.requested * audioPortRate) ≤ 2 * (audioPortLength * nativeSampleRate) + audioPortRate ∧
      2 * (audioPortLength * nativeSampleRate) < 2 * (r.requested * audioPortRate) + audioPortRate ∧
      r.submitted.length = audioPortLength := by
  obtain ⟨out, hout, hl, -, -⟩ :=
    stretchLoop_spec original horig 1025 0 audioBuffer (by omega) (by omega) hbuf
  have hout0 : stretchLoop original 1025 0 audioBuffer = some out := hout
  refine ⟨{ requested := 699, audioBuffer := out, submitted := out }, ?_, ?_, rfl, ?_, ?_, hl⟩
  · unfold outputAudioIteration stretch
    rw [hout0]
  · show 699 = roundDiv (audioPortLength * nativeSampleRate) audioPortRate
    decide
  · show 2 * (699 * audioPortRate) ≤ 2 * (audioPortLength * nativeSampleRate) + audioPortRate
    decide
  · show 2 * (audioPortLength * nativeSampleRate) < 2 * (699 * audioPortRate) + audioPortRate
    decide

theorem requested_samples_rounded_witness :
    ∃ r, outputAudioIteration (List.range 699) (List.replicate 1024 7) = some r ∧
      r.requested = roundDiv (audioPortLength * nativeSampleRate) audioPortRate ∧
      r.requested = 699 ∧
      2 * (r.requested * audioPortRate) ≤ 2 * (audioPortLength * nativeSampleRate) + audioPortRate ∧
      2 * (audioPortLength * nativeSampleRate) < 2 * (r.requested * audioPortRate) + audioPortRate ∧
      r.submitted.length = audioPortLength :=
  requested_samples_rounded (List.range 699) (List.replicate 1024 7)
    (List.length_range 699) (List.length_replicate 1024 7)

/-- C15: for both values of the high-resolution setting, with shift `r` 0 or 1, the
framebuffer elements read when drawing, on the desktop canvas and on the Vita alike, are: in
DS mode the top screen `[0, (256<<r)*(192<<r))` and the bottom screen of the same length
starting at `(256*192) << (2r)`, which is exactly where the top screen ends, and ending at
most at `256*192*8`; in GBA mode the single screen `[0, (240<<r)*(160<<r))`, inside the
framebuffer too. -/
theorem framebuffer_regions (highRes3D : Bool) (texCoords : Nat) (l : ScreenLayout) :
    imageRegions (drawScreens false (resShiftOf highRes3D) texCoords l) =
      [(0, (256 <<< resShiftOf highRes3D) * (192 <<< resShiftOf highRes3D)),
       ((256 * 192) <<< (resShiftOf highRes3D * 2),
        (256 <<< resShiftOf highRes3D) * (192 <<< resShiftOf highRes3D))] ∧
    (vitaDrawScreens false (resShiftOf highRes3D) l).map VitaScreenDraw.region =
      imageRegions (drawScreens false (resShiftOf highRes3D) texCoords l) ∧
    0 + (256 <<< resShiftOf highRes3D) * (192 <<< resShiftOf highRes3D) =
      (256 * 192) <<< (resShiftOf highRes3D * 2) ∧
    (256 * 192) <<< (resShiftOf highRes3D * 2) +
      (256 <<< resShiftOf highRes3D) * (192 <<< resShiftOf highRes3D) ≤ framebufferSize ∧
    imageRegions (drawScreens true (resShiftOf highRes3D) texCoords l) =
      [(0, (240 <<< resShiftOf highRes3D) * (160 <<< resShiftOf highRes3D))] ∧
    (vitaDrawScreens true (resShiftOf highRes3D) l).map VitaScreenDraw.region =
      imageRegions (drawScreens true (resShiftOf highRes3D) texCoords l) ∧
    (240 <<< resShiftOf highRes3D) * (160 <<< resShiftOf highRes3D) ≤ framebufferSize := by
  cases highRes3D
  · exact ⟨rfl, rfl, by decide, by decide, rfl, rfl, by decide⟩
  · exact ⟨rfl, rfl, by decide, by decide, rfl, rfl, by decide⟩

/-- C16: the texture-coordinate byte chosen for rotation 0, 1, 2 is 0x4B, 0x2D, 0xD2. Decoded
two bits per vertex in the order bottom-right, bottom-left, top-left, top-right, it gives on
the unit quad: for 0 each vertex its own corner of the texture (identity); for 1 each vertex
the texture corner that a quarter turn clockwise of the image brings there; for 2 the one a
quarter turn counter-clockwise brings there. Each assignment uses all four texture corners
once (a bijection), and the clockwise and counter-clockwise assignments undo each other at
every corner. -/
theorem texCoords_rotate_quad (indeterminate : Nat) :
    texCoordsFor 0 indeterminate = 0x4B ∧ texCoordsFor 1 indeterminate = 0x2D ∧
    texCoordsFor 2 indeterminate = 0xD2 ∧
    unitQuad (texCoordsFor 0 indeterminate) =
      [(1, 1, 1, 1), (0, 1, 0, 1), (0, 0, 0, 0), (1, 0, 1, 0)] ∧
    unitQuad (texCoordsFor 1 indeterminate) =
      [(1, 0, 1, 1), (1, 1, 0, 1), (0, 1, 0, 0), (0, 0, 1, 0)] ∧
    unitQuad (texCoordsFor 2 indeterminate) =
      [(0, 1, 1, 1), (0, 0, 0, 1), (1, 0, 0, 0), (1, 1, 1, 0)] ∧
    (∀ v ∈ unitQuad (texCoordsFor 0 indeterminate),
      (((v.1 : Int), (v.2.1 : Int)) : Int × Int) = (v.2.2.1, v.2.2.2)) ∧
    (∀ v ∈ unitQuad (texCoordsFor 1 indeterminate),
      quarterTurnCw ((v.1 : Int), (v.2.1 : Int)) = (v.2.2.1, v.2.2.2)) ∧
    (∀ v ∈ unitQuad (texCoordsFor 2 indeterminate),
      quarterTurnCcw ((v.1 : Int), (v.2.1 : Int)) = (v.2.2.1, v.2.2.2)) ∧
    (∀ rotation ∈ [(0 : Int), 1, 2],
      ((unitQuad (texCoordsFor rotation indeterminate)).map fun v => (v.1, v.2.1)).Nodup ∧
      ∀ corner ∈ [((1 : Nat), (1 : Nat)), (0, 1), (0, 0), (1, 0)],
        corner ∈ (unitQuad (texCoordsFor rotation indeterminate)).map fun v => (v.1, v.2.1)) ∧
    (∀ corner ∈ [((1 : Int), (1 : Int)), (0, 1), (0, 0), (1, 0)],
      (texAt (texCoordsFor 2 indeterminate) corner).bind (texAt (texCoordsFor 1 indeterminate)) =
        some corner ∧
      (texAt (texCoordsFor 1 indeterminate) corner).bind (texAt (texCoordsFor 2 indeterminate)) =
        some corner) := by
  have h0 : texCoordsFor 0 indeterminate = 0x4B := rfl
  have h1 : texCoordsFor 1 indeterminate = 0x2D := rfl
  have h2 : texCoordsFor 2 indeterminate = 0xD2 := rfl
  have q0 : unitQuad 0x4B = [(1, 1, 1, 1), (0, 1, 0, 1), (0, 0, 0, 0), (1, 0, 1, 0)] := by
    with_unfolding_all decide
  have q1 : unitQuad 0x2D = [(1, 0, 1, 1), (1, 1, 0, 1), (0, 1, 0, 0), (0, 0, 1, 0)] := by
    with_unfolding_all decide
  have q2 : unitQuad 0xD2 = [(0, 1, 1, 1), (0, 0, 0, 1), (1, 0, 0, 0), (1, 1, 1, 0)] := by
    with_unfolding_all decide
  have t1 : ∀ corner ∈ [((1 : Int), (1 : Int)), (0, 1), (0, 0), (1, 0)],
      (texAt 0xD2 corner).bind (texAt 0x2D) = some corner ∧
      (texAt 0x2D corner).bind (texAt 0xD2) = some corner := by
    unfold texAt
    rw [q1, q2]
    decide
  rw [h0, h1, h2, q0, q1, q2]
  refine ⟨rfl, rfl, rfl, rfl, rfl, rfl, by decide, by decide, by decide, ?_, t1⟩
  intro rotation hr
  simp only [List.mem_cons, List.mem_singleton, List.not_mem_nil, or_false] at hr
  rcases hr with rfl | rfl | rfl
  · rw [h0, q0]; decide
  · rw [h1, q1]; decide
  · rw [h2, q2]; decide

/-! ## Theorems: refresh-rate counter -/

/-- C17 (amended): on every render tick that gets past the early return of `draw` (a core is
present, or `display` is true), whether or not a poll was attempted or succeeded,
`refreshRate` is incremented by exactly one before the once-per-second check: when less than
one second has elapsed the tick leaves `refreshRate + 1` and leaves `swapInterval` and
`lastRateTime` unchanged, and otherwise the recomputed `swapInterval` is
`(refreshRate + 1 + 5) / 60`. -/
theorem draw_counts_every_rendered_tick (s : NooCanvas) (env : TickEnv)
    (hcounted : counted s env = true)
    (hlo : -2147483648 ≤ s.refreshRate) (hhi : s.refreshRate + 6 < 2147483648) :
    (env.now - s.lastRateTime < oneSecond →
      (draw s env).1.refreshRate = s.refreshRate + 1 ∧
      (draw s env).1.swapInterval = s.swapInterval ∧
      (draw s env).1.lastRateTime = s.lastRateTime) ∧
    (env.now - s.lastRateTime ≥ oneSecond →
      (draw s env).1.swapInterval = Int.tdiv (s.refreshRate + 1 + 5) 60 ∧
      (draw s env).1.refreshRate = 0 ∧
      (draw s env).1.lastRateTime = env.nowAfter) := by
  obtain ⟨h1, h2, h3⟩ := draw_pacing_fields s env hcounted
  have hw1 : wrapInt32 (s.refreshRate + 1) = s.refreshRate + 1 :=
    wrapInt32_of_inRange _ (by omega) (by omega)
  have hw5 : wrapInt32 (s.refreshRate + 1 + 5) = s.refreshRate + 1 + 5 :=
    wrapInt32_of_inRange _ (by omega) (by omega)
  rw [h1, h2, h3]
  constructor
  · intro hlt
    unfold trackRefreshRate
    rw [if_neg (by omega)]
    exact ⟨hw1, rfl, rfl⟩
  · intro hge
    unfold trackRefreshRate
    rw [if_pos hge]
    refine ⟨?_, rfl, rfl⟩
    show Int.tdiv (wrapInt32 (wrapInt32 (s.refreshRate + 1) + 5)) 60 = _
    rw [hw1, hw5]

theorem draw_counts_every_rendered_tick_witness :
    (exampleTick none 5).now - (pacingStart stackedLayout 0).lastRateTime < oneSecond ∧
    (draw (pacingStart stackedLayout 0) (exampleTick none 5)).1.refreshRate =
      (pacingStart stackedLayout 0).refreshRate + 1 ∧
    (draw (pacingStart stackedLayout 0) (exampleTick none 5)).1.swapInterval =
      (pacingStart stackedLayout 0).swapInterval ∧
    (draw (pacingStart stackedLayout 0) (exampleTick none 5)).1.lastRateTime =
      (pacingStart stackedLayout 0).lastRateTime :=
  ⟨by decide,
   (draw_counts_every_rendered_tick (pacingStart stackedLayout 0) (exampleTick none 5) rfl
      (by decide) (by decide)).1 (by decide)⟩

/-- C17 (as stated) fails: on a tick with no core and `display = false`, `draw` returns at
once and `refreshRate` keeps its value 7 instead of becoming 8. -/
theorem idle_tick_not_counted :
    (draw { pacingStart stackedLayout 0 with display := false, refreshRate := 7 }
      (exampleTick none 5)).1.refreshRate = 7 ∧
    (draw { pacingStart stackedLayout 0 with display := false, refreshRate := 7 }
      (exampleTick none 5)).2 = [] := by
  constructor <;> rfl

/-! ## Theorems: no sample is dropped -/

theorem countP_range_interval (lo hi : Nat) (hle : lo ≤ hi) : ∀ n : Nat,
    (List.range n).countP (fun i => decide (lo ≤ i ∧ i < hi)) = min hi n - min lo n := by
  intro n
  induction n with
  | zero => simp
  | succ n ih =>
    rw [List.range_succ, List.countP_append, ih, List.countP_singleton]
    by_cases h : lo ≤ n ∧ n < hi
    · rw [if_pos (by simpa using h)]
      omega
    · rw [if_neg (by simpa using h)]
      omega

theorem sampleIndex_eq_iff (i j : Nat) (hi : i < 1024) :
    sampleIndex (i : Int) = (j : Int) ↔
      (j * 1024 + 698) / 699 ≤ i ∧ i < ((j + 1) * 1024 + 698) / 699 := by
  rw [sampleIndex_eq_natDiv i hi, Int.ofNat_inj]
  omega

theorem sampleIndex_slots (j : Nat) (hj : j < 699) :
    (∃ i : Nat, i < 1024 ∧ sampleIndex (i : Int) = (j : Int)) ∧
    ((List.range 1024).countP (fun i : Nat => decide (sampleIndex (i : Int) = (j : Int))) = 1 ∨
     (List.range 1024).countP (fun i : Nat => decide (sampleIndex (i : Int) = (j : Int))) = 2) := by
  have hcount :
      (List.range 1024).countP (fun i : Nat => decide (sampleIndex (i : Int) = (j : Int))) =
      (List.range 1024).countP (fun i : Nat =>
        decide ((j * 1024 + 698) / 699 ≤ i ∧ i < ((j + 1) * 1024 + 698) / 699)) := by
    apply List.countP_congr
    intro i hi
    rw [List.mem_range] at hi
    simp only [decide_eq_true_eq]
    exact sampleIndex_eq_iff i j hi
  rw [hcount, countP_range_interval _ _ (by omega)]
  constructor
  · refine ⟨(j * 1024 + 698) / 699, by omega, ?_⟩
    rw [sampleIndex_eq_iff ((j * 1024 + 698) / 699) j (by omega)]
    omega
  · omega

theorem stretched_count (original out : List Nat) (j v : Nat)
    (horig : original.length = 699) (hl : out.length = 1024)
    (hnew : ∀ k, k < 1024 → out[k]? = original[k * 699 / 1024]?)
    (hnodup : original.Nodup) (hv : original[j]? = some v) :
    out.count v =
      (List.range 1024).countP (fun i : Nat => decide (sampleIndex (i : Int) = (j : Int))) := by
  obtain ⟨hjlt, hjv⟩ := List.getElem?_eq_some_iff.mp hv
  have hmap : out = (List.range 1024).map (fun i => (original[i * 699 / 1024]?).getD 0) := by
    apply List.ext_getElem?
    intro k
    by_cases hk : k < 1024
    · have hidx : k * 699 / 1024 < original.length := by omega
      rw [hnew k hk, List.getElem?_map, List.getElem?_range hk, Option.map_some',
        List.getElem?_eq_getElem hidx, Option.getD_some]
    · rw [List.getElem?_eq_none (by omega), List.getElem?_eq_none]
      rw [List.length_map, List.length_range]
      omega
  rw [hmap, List.count_eq_countP, List.countP_map]
  apply List.countP_congr
  intro i hi
  rw [List.mem_range] at hi
  have hidx : i * 699 / 1024 < original.length := by omega
  have hiff : (i * 699 / 1024 = j) ↔ sampleIndex (i : Int) = (j : Int) := by
    rw [sampleIndex_eq_natDiv i hi, Int.ofNat_inj]
  rw [decide_eq_true_eq, ← hiff]
  show ((original[i * 699 / 1024]?).getD 0 == v) = true ↔ _
  rw [List.getElem?_eq_getElem hidx, Option.getD_some, beq_iff_eq, ← hjv]
  exact hnodup.getElem_inj_iff

/-- C18: no input sample is dropped by the stretch. For every batch of 699 samples, every
previous content of the 1024-slot buffer and every index `j` of the batch, the iteration of
`outputAudio` completes and in the buffer it submits: some slot `i < 1024` has
`i * 699 / 1024 = j` and holds `original[j]`; every slot with that source index holds
`original[j]`; the number of such slots is one or two; and when the samples of the batch are
pairwise different, the value `original[j]` occurs in the buffer once or twice. -/
theorem every_sample_copied (original audioBuffer : List Nat) (j : Nat)
    (horig : original.length = 699) (hbuf : audioBuffer.length = 1024) (hj : j < 699) :
    ∃ buffer, outputAudioIteration original audioBuffer =
        some { requested := 699, audioBuffer := buffer, submitted := buffer } ∧
      (∃ i : Nat, i < 1024 ∧ sampleIndex (i : Int) = (j : Int) ∧ buffer[i]? = original[j]?) ∧
      (∀ i : Nat, i < 1024 → sampleIndex (i : Int) = (j : Int) → buffer[i]? = original[j]?) ∧
      ((List.range 1024).countP (fun i : Nat => decide (sampleIndex (i : Int) = (j : Int))) = 1 ∨
       (List.range 1024).countP
        (fun i : Nat => decide (sampleIndex (i : Int) = (j : Int))) = 2) ∧
      (original.Nodup → ∀ v, original[j]? = some v →
        buffer.count v = 1 ∨ buffer.count v = 2) := by
  obtain ⟨out, hout, hl, hnew, _⟩ :=
    stretchLoop_spec original horig 1025 0 audioBuffer (by omega) (by omega) hbuf
  have hout0 : stretchLoop original 1025 0 audioBuffer = some out := hout
  have hnew0 : ∀ k, k < 1024 → out[k]? = original[k * 699 / 1024]? :=
    fun k hk => hnew k (Nat.zero_le k) hk
  have hslot : ∀ i : Nat, i < 1024 → sampleIndex (i : Int) = (j : Int) →
      out[i]? = original[j]? := by
    intro i hi hs
    rw [sampleIndex_eq_natDiv i hi, Int.ofNat_inj] at hs
    rw [hnew0 i hi, hs]
  obtain ⟨⟨i0, hi0, hs0⟩, hcount⟩ := sampleIndex_slots j hj
  refine ⟨out, ?_, ⟨i0, hi0, hs0, hslot i0 hi0 hs0⟩, hslot, hcount, ?_⟩
  · unfold outputAudioIteration stretch
    rw [hout0]
  · intro hnodup v hv
    rw [stretched_count original out j v horig hl hnew0 hnodup hv]
    exact hcount

theorem every_sample_copied_witness :
    ∃ buffer, outputAudioIteration (List.range 699) (List.replicate 1024 7) =
        some { requested := 699, audioBuffer := buffer, submitted := buffer } ∧
      (∃ i : Nat, i < 1024 ∧ sampleIndex (i : Int) = ((698 : Nat) : Int) ∧
        buffer[i]? = (List.range 699)[698]?) ∧
      (buffer.count 698 = 1 ∨ buffer.count 698 = 2) :=
  match every_sample_copied (List.range 699) (List.replicate 1024 7) 698
      (List.length_range 699) (List.length_replicate 1024 7) (by decide) with
  | ⟨buffer, hrun, hsome, _, _, hcount⟩ =>
    ⟨buffer, hrun, hsome,
      hcount (List.nodup_range 699) 698 (List.getElem?_range (by decide))⟩

/-! ## Theorems: layout dialog -/

/-- C13 fails on the code for the screen position: for every state of the settings at
construction and every sequence of dialog events, cancel restores rotation, arrangement,
sizing, gap, integer scale, GBA crop and filter to their values at construction, but leaves
the screen position at whatever the events made it; after construction at the default
settings, the event `posTop` and cancel, the position is 1 and not the 0 it was. -/
theorem cancel_restores_all_but_position (g : LayoutSettings) (events : List LayoutEvent) :
    (LayoutDialog.cancelled g events).screenRotation = g.screenRotation ∧
    (LayoutDialog.cancelled g events).screenArrangement = g.screenArrangement ∧
    (LayoutDialog.cancelled g events).screenSizing = g.screenSizing ∧
    (LayoutDialog.cancelled g events).screenGap = g.screenGap ∧
    (LayoutDialog.cancelled g events).integerScale = g.integerScale ∧
    (LayoutDialog.cancelled g events).gbaCrop = g.gbaCrop ∧
    (LayoutDialog.cancelled g events).screenFilter = g.screenFilter ∧
    (LayoutDialog.cancelled g events).screenPosition =
      (events.foldl LayoutDialog.handle g).screenPosition ∧
    (LayoutDialog.cancelled defaultLayoutSettings [.posTop]).screenPosition = 1 ∧
    defaultLayoutSettings.screenPosition = 0 :=
  ⟨rfl, rfl, rfl, rfl, rfl, rfl, rfl, rfl, rfl, rfl⟩

/-! ## Theorems: menu scrolling -/

theorem subUInt32_of_le (a b : Nat) (hba : b ≤ a) (ha : a < 4294967296) :
    subUInt32 a b = a - b := by
  unfold subUInt32
  omega

theorem addUInt32_of_lt (a b : Nat) (h : a + b < 4294967296) : addUInt32 a b = a + b := by
  unfold addUInt32
  omega

theorem menuOffset_eq (size selection : Nat) (hsize : size < 4294967296)
    (hsel : selection < size) :
    menuOffset size selection =
      if size > 24 then
        if selection ≥ size - 13 then size - 24
        else if selection > 11 then selection - 11
        else 0
      else 0 := by
  unfold menuOffset
  by_cases h : size > 24
  · rw [if_pos h, if_pos h, subUInt32_of_le size 13 (by omega) hsize,
      subUInt32_of_le size 24 (by omega) hsize]
    by_cases h2 : selection ≥ size - 13
    · rw [if_pos h2, if_pos h2]
    · rw [if_neg h2, if_neg h2]
      by_cases h3 : selection > 11
      · rw [if_pos h3, if_pos h3, subUInt32_of_le selection 11 (by omega) (by omega)]
      · rw [if_neg h3, if_neg h3]
  · rw [if_neg h, if_neg h]

theorem menuOffset_bounds (size selection : Nat) (hsize : size < 4294967296)
    (hsel : selection < size) :
    menuOffset size selection + menuVisible size ≤ size ∧
    menuOffset size selection ≤ selection ∧
    selection < menuOffset size selection + menuVisible size ∧
    (size > 24 → 11 < selection → selection < size - 13 →
      menuOffset size selection = selection - 11) := by
  rw [menuOffset_eq size selection hsize hsel]
  unfold menuVisible
  by_cases h : size > 24
  · rw [if_pos h]
    by_cases h2 : selection ≥ size - 13
    · rw [if_pos h2]; omega
    · rw [if_neg h2]
      by_cases h3 : selection > 11
      · rw [if_pos h3]; omega
      · rw [if_neg h3]; omega
  · rw [if_neg h]; omega

theorem menuItemRows_getElem? (items : List String) (selection y i : Nat)
    (hi : i < menuVisible items.length) :
    (menuItemRows items selection y)[i]? =
      some { x := some 5,
             y := addUInt32 y (i * 20 % 4294967296),
             color := rowColor selection (menuOffset items.length selection) i,
             text := items[addUInt32 i (menuOffset items.length selection)]? } := by
  unfold menuItemRows
  rw [List.getElem?_map, List.getElem?_range hi]
  rfl

/-- C20: for a list of `n` items (`n` a 32-bit size) and a selection `s < n`, the scroll
offset and `visible = min(n, 24)` of `menu` satisfy `offset + visible ≤ n` and
`offset ≤ s < offset + visible`; every one of the `visible` rows drawn shows the item at the
valid index `i + offset`; the row `s - offset` shows the selected item highlighted; and when
`n > 24` and `11 < s < n - 13` the offset is `s - 11`, so that row is row 11. -/
theorem menu_scroll_keeps_selection_visible (items : List String) (selection y : Nat)
    (hsize : items.length < 4294967296) (hsel : selection < items.length) :
    menuOffset items.length selection + menuVisible items.length ≤ items.length ∧
    menuOffset items.length selection ≤ selection ∧
    selection < menuOffset items.length selection + menuVisible items.length ∧
    (menuItemRows items selection y).length = menuVisible items.length ∧
    (∀ i, i < menuVisible items.length →
      i + menuOffset items.length selection < items.length ∧
      ((menuItemRows items selection y)[i]?).map DrawText.text =
        some (items[i + menuOffset items.length selection]?)) ∧
    ((menuItemRows items selection y)[selection - menuOffset items.length selection]?).map
        (fun row => (row.color, row.text)) =
      some (TextColor.text3, items[selection]?) ∧
    (items.length > 24 → 11 < selection → selection < items.length - 13 →
      menuOffset items.length selection = selection - 11 ∧
      ((menuItemRows items selection y)[11]?).map (fun row => (row.color, row.text)) =
        some (TextColor.text3, items[selection]?)) := by
  obtain ⟨b1, b2, b3, b4⟩ := menuOffset_bounds items.length selection hsize hsel
  have hrow : ∀ i, i < menuVisible items.length →
      addUInt32 i (menuOffset items.length selection) =
        i + menuOffset items.length selection := by
    intro i hi
    exact addUInt32_of_lt _ _ (by omega)
  have hsel_row : ((menuItemRows items selection y)[selection -
        menuOffset items.length selection]?).map (fun row => (row.color, row.text)) =
      some (TextColor.text3, items[selection]?) := by
    have hi : selection - menuOffset items.length selection < menuVisible items.length := by
      omega
    rw [menuItemRows_getElem? items selection y _ hi]
    have hidx : selection - menuOffset items.length selection +
        menuOffset items.length selection = selection := by omega
    simp only [Option.map_some', rowColor, hrow _ hi, hidx, if_true]
  refine ⟨b1, b2, b3, by simp [menuItemRows], ?_, hsel_row, ?_⟩
  · intro i hi
    refine ⟨by omega, ?_⟩
    rw [menuItemRows_getElem? items selection y i hi]
    simp only [Option.map_some', hrow i hi]
  · intro h1 h2 h3
    have ho := b4 h1 h2 h3
    refine ⟨ho, ?_⟩
    have h11 : selection - menuOffset items.length selection = 11 := by omega
    rw [← h11]
    exact hsel_row

theorem menu_scroll_keeps_selection_visible_witness :
    menuOffset (List.replicate 40 "rom").length 20 + menuVisible (List.replicate 40 "rom").length ≤
      (List.replicate 40 "rom").length ∧
    menuOffset (List.replicate 40 "rom").length 20 = 9 :=
  ⟨(menu_scroll_keeps_selection_visible (List.replicate 40 "rom") 20 60
      (by rw [List.length_replicate]; decide) (by rw [List.length_replicate]; decide)).1,
   by rw [List.length_replicate]; with_unfolding_all decide⟩

/-! ## Theorems: newly pressed buttons -/

theorem testBit_allOnes (i : Nat) : (4294967295 : Nat).testBit i = decide (i < 32) := by
  have h : (4294967295 : Nat) = 2 ^ 32 - 1 := by norm_num
  rw [h, Nat.testBit_two_pow_sub_one]

theorem testBit_of_lt_uint32 (x i : Nat) (hx : x < 4294967296) (hi : ¬ i < 32) :
    x.testBit i = false := by
  apply Nat.testBit_lt_two_pow
  have h : (4294967296 : Nat) = 2 ^ 32 := by norm_num
  have hle : 2 ^ 32 ≤ 2 ^ i := Nat.pow_le_pow_right (by decide) (by omega)
  omega

theorem newlyPressed_initial (held : Nat) : newlyPressed held 0xFFFFFFFF = 0 := by
  unfold newlyPressed notUInt32
  rw [Nat.xor_self, Nat.and_zero]

theorem newlyPressed_and_previous (held previous : Nat) (hheld : held < 4294967296) :
    newlyPressed held previous &&& previous = 0 := by
  apply Nat.eq_of_testBit_eq
  intro i
  simp only [newlyPressed, notUInt32, Nat.testBit_and, Nat.testBit_xor, testBit_allOnes,
    Nat.zero_testBit]
  by_cases hi : i < 32
  · cases previous.testBit i <;> simp [hi]
  · rw [testBit_of_lt_uint32 held i hheld hi]
    simp

theorem newlyPressed_and_held (held previous b : Nat) (hb : b < 4294967296)
    (hprev : previous &&& b = b) : newlyPressed held previous &&& b = 0 := by
  apply Nat.eq_of_testBit_eq
  intro i
  have hbit : (previous.testBit i && b.testBit i) = b.testBit i := by
    rw [← Nat.testBit_and, hprev]
  simp only [newlyPressed, notUInt32, Nat.testBit_and, Nat.testBit_xor, testBit_allOnes,
    Nat.zero_testBit]
  by_cases hi : i < 32
  · cases hp : previous.testBit i <;> cases hb2 : b.testBit i <;> simp_all
  · rw [testBit_of_lt_uint32 b i hb hi]
    simp

theorem newlyPressed_and_unheld (held previous b : Nat) (h : held &&& b = 0) :
    newlyPressed held previous &&& b = 0 := by
  unfold newlyPressed
  rw [Nat.and_assoc, Nat.and_comm (notUInt32 previous) b, ← Nat.and_assoc, h, Nat.zero_and]

theorem menuLoop_continue (size mask held buttons selection : Nat) (rest : List Nat)
    (h : newlyPressed held buttons &&& mask = 0) :
    ∃ next, menuLoop size mask (held :: rest) buttons selection =
      menuLoop size mask rest held next := by
  rw [menuLoop, if_neg (by rw [h]; simp)]
  split
  · exact ⟨_, rfl⟩
  · split
    · exact ⟨_, rfl⟩
    · exact ⟨_, rfl⟩

theorem menuLoop_waits (size mask : Nat) (polls : List Nat) : ∀ buttons selection : Nat,
    List.Chain (fun previous held => newlyPressed held previous &&& mask = 0) buttons polls →
    ∃ w next, menuLoop size mask polls buttons selection = .waiting w next := by
  induction polls with
  | nil => intro buttons selection _; exact ⟨_, _, rfl⟩
  | cons held rest ih =>
    intro buttons selection hc
    rw [List.chain_cons] at hc
    obtain ⟨next, hn⟩ := menuLoop_continue size mask held buttons selection rest hc.1
    rw [hn]
    exact ih held next hc.2

theorem menuLoop_returns (size mask previous held : Nat) (rest before : List Nat) :
    ∀ buttons selection : Nat,
    List.Chain (fun previous held => newlyPressed held previous &&& mask = 0) buttons
      (before ++ [previous]) →
    newlyPressed held previous &&& mask ≠ 0 →
    ∃ next, menuLoop size mask (before ++ previous :: held :: rest) buttons selection =
      .returned (newlyPressed held previous) next rest := by
  induction before with
  | nil =>
    intro buttons selection hc hp
    rw [List.nil_append, List.chain_cons] at hc
    obtain ⟨next, hn⟩ :=
      menuLoop_continue size mask previous buttons selection (held :: rest) hc.1
    rw [List.nil_append, hn, menuLoop, if_pos hp]
    exact ⟨_, rfl⟩
  | cons b before ih =>
    intro buttons selection hc hp
    rw [List.cons_append, List.chain_cons] at hc
    obtain ⟨next, hn⟩ := menuLoop_continue size mask b buttons selection
      (before ++ previous :: held :: rest) hc.1
    rw [List.cons_append, hn]
    exact ih b next hc.2 hp

theorem messageLoop_waits (mask : Nat) (polls : List Nat) : ∀ buttons : Nat,
    List.Chain (fun previous held => newlyPressed held previous &&& mask = 0) buttons polls →
    ∃ w, messageLoop mask polls buttons = .waiting w := by
  induction polls with
  | nil => intro buttons _; exact ⟨_, rfl⟩
  | cons held rest ih =>
    intro buttons hc
    rw [List.chain_cons] at hc
    rw [messageLoop, if_neg (by rw [hc.1]; simp)]
    exact ih held hc.2

theorem messageLoop_returns (mask previous held : Nat) (rest before : List Nat) :
    ∀ buttons : Nat,
    List.Chain (fun previous held => newlyPressed held previous &&& mask = 0) buttons
      (before ++ [previous]) →
    newlyPressed held previous &&& mask ≠ 0 →
    messageLoop mask (before ++ previous :: held :: rest) buttons =
      .returned (newlyPressed held previous) rest := by
  induction before with
  | nil =>
    intro buttons hc hp
    rw [List.nil_append, List.chain_cons] at hc
    rw [List.nil_append, messageLoop, if_neg (by rw [hc.1]; simp), messageLoop, if_pos hp]
  | cons b before ih =>
    intro buttons hc hp
    rw [List.cons_append, List.chain_cons] at hc
    rw [List.cons_append, messageLoop, if_neg (by rw [hc.1]; simp)]
    exact ih b hc.2 hp

theorem chain_initial (mask : Nat) (polls : List Nat) (h : NoNewPress mask polls) :
    List.Chain (fun previous held => newlyPressed held previous &&& mask = 0)
      0xFFFFFFFF polls := by
  cases polls with
  | nil => exact List.Chain.nil
  | cons p rest =>
    refine List.Chain.cons ?_ h
    rw [newlyPressed_initial, Nat.zero_and]

theorem chain_of_held (b : Nat) (hb : b < 4294967296) (polls : List Nat) :
    ∀ buttons : Nat, buttons &&& b = b → (∀ p ∈ polls, p &&& b = b) →
    List.Chain (fun previous held => newlyPressed held previous &&& b = 0) buttons polls := by
  induction polls with
  | nil => intro _ _ _; exact List.Chain.nil
  | cons p rest ih =>
    intro buttons hbut hall
    exact List.Chain.cons (newlyPressed_and_held p buttons b hb hbut)
      (ih p (hall p (List.mem_cons_self _ _)) fun q hq => hall q (List.mem_cons_of_mem _ hq))

theorem chain_of_unheld (d : Nat) (polls : List Nat) :
    ∀ buttons : Nat, (∀ p ∈ polls, p &&& d = 0) →
    List.Chain (fun previous held => newlyPressed held previous &&& d = 0) buttons polls := by
  induction polls with
  | nil => intro _ _; exact List.Chain.nil
  | cons p rest ih =>
    intro buttons hall
    exact List.Chain.cons
      (newlyPressed_and_unheld p buttons d (hall p (List.mem_cons_self _ _)))
      (ih p fun q hq => hall q (List.mem_cons_of_mem _ hq))

theorem menuLoop_selection_fixed (size mask : Nat) (polls : List Nat) :
    ∀ buttons selection : Nat,
    List.Chain (fun previous held => newlyPressed held previous &&& SCE_CTRL_UP = 0)
      buttons polls →
    List.Chain (fun previous held => newlyPressed held previous &&& SCE_CTRL_DOWN = 0)
      buttons polls →
    (menuLoop size mask polls buttons selection).selection = selection := by
  induction polls with
  | nil => intro _ _ _ _; rfl
  | cons held rest ih =>
    intro buttons selection hu hd
    rw [List.chain_cons] at hu hd
    rw [menuLoop]
    split
    · rfl
    · rw [if_neg (by rw [hu.1]; simp), if_neg (by rw [hd.1]; simp)]
      exact ih held selection hu.2 hd.2

theorem allOnes_and (b : Nat) (hb : b < 4294967296) : 0xFFFFFFFF &&& b = b := by
  apply Nat.eq_of_testBit_eq
  intro i
  have h : (0xFFFFFFFF : Nat) = 4294967295 := rfl
  rw [h, Nat.testBit_and, testBit_allOnes]
  by_cases hi : i < 32
  · simp [hi]
  · rw [testBit_of_lt_uint32 b i hb hi]
    simp

/-- C19: `menu` and `message` ignore buttons that were already pressed. For every sequence
of polled button states: (1) if up to some poll `previous` no poll had a button of
`buttonMask` held that was not held at the poll before, and the next poll `held` has one,
both functions return at that poll the value `held & ~previous`, leaving the later polls
unread; (2) as long as no poll has such a newly held button, and so in particular after the
first poll alone, they are still in their loop; (3) the returned value `held & ~previous`
contains no button held at the previous poll; (4) a button held at every poll since entry
never appears as newly pressed, so with that button as mask neither function returns, and
(5) with UP (or DOWN) held at every poll and the other direction never held the selection
does not move. (6) A worked run: with cross held on entry, released and pressed again,
`menu` returns cross at the second press. -/
theorem menu_message_ignore_held_buttons (a : MenuArgs) (selection : Nat) :
    (∀ before rest previous held,
      NoNewPress a.buttonMask (before ++ [previous]) →
      newlyPressed held previous &&& a.buttonMask ≠ 0 →
      (∃ next, menu a (before ++ previous :: held :: rest) selection =
        .returned (newlyPressed held previous) next rest) ∧
      message a.buttonMask (before ++ previous :: held :: rest) =
        .returned (newlyPressed held previous) rest) ∧
    (∀ polls, NoNewPress a.buttonMask polls →
      (∃ w next, menu a polls selection = .waiting w next) ∧
      ∃ w, message a.buttonMask polls = .waiting w) ∧
    (∀ first, (∃ w next, menu a [first] selection = .waiting w next) ∧
      ∃ w, message a.buttonMask [first] = .waiting w) ∧
    (∀ previous held, held < 4294967296 → newlyPressed held previous &&& previous = 0) ∧
    (∀ polls b, b < 4294967296 → (∀ p ∈ polls, p &&& b = b) →
      NoNewPress b polls ∧
      (a.buttonMask = b →
        (∃ w next, menu a polls selection = .waiting w next) ∧
        ∃ w, message a.buttonMask polls = .waiting w)) ∧
    (∀ polls, (∀ p ∈ polls, p &&& SCE_CTRL_UP = SCE_CTRL_UP ∧ p &&& SCE_CTRL_DOWN = 0) →
      (menu a polls selection).selection = selection) ∧
    (∀ polls, (∀ p ∈ polls, p &&& SCE_CTRL_DOWN = SCE_CTRL_DOWN ∧ p &&& SCE_CTRL_UP = 0) →
      (menu a polls selection).selection = selection) ∧
    menuLoop 3 0x4000 [0x4000, 0x4000, 0, 0x4000, 0x10] 0xFFFFFFFF 1 =
      .returned 0x4000 1 [0x10] := by
  have hwait : ∀ polls, NoNewPress a.buttonMask polls →
      (∃ w next, menu a polls selection = .waiting w next) ∧
      ∃ w, message a.buttonMask polls = .waiting w := by
    intro polls h
    exact ⟨menuLoop_waits _ _ polls _ selection (chain_initial _ polls h),
      messageLoop_waits _ polls _ (chain_initial _ polls h)⟩
  have hUp : SCE_CTRL_UP < 4294967296 := by decide
  have hDown : SCE_CTRL_DOWN < 4294967296 := by decide
  refine ⟨?_, hwait, ?_, ?_, ?_, ?_, ?_, ?_⟩
  · intro before rest previous held hno hp
    exact ⟨menuLoop_returns _ _ previous held rest before _ selection
        (chain_initial _ _ hno) hp,
      messageLoop_returns _ previous held rest before _ (chain_initial _ _ hno) hp⟩
  · intro first
    exact hwait [first] (List.chain'_singleton first)
  · intro previous held hheld
    exact newlyPressed_and_previous held previous hheld
  · intro polls b hb hall
    have hno : NoNewPress b polls := by
      cases polls with
      | nil => exact List.chain'_nil
      | cons p rest =>
        exact chain_of_held b hb rest p (hall p (List.mem_cons_self _ _))
          fun q hq => hall q (List.mem_cons_of_mem _ hq)
    refine ⟨hno, ?_⟩
    intro hmask
    rw [← hmask] at hno
    exact hwait polls hno
  · intro polls hall
    exact menuLoop_selection_fixed _ _ polls _ selection
      (chain_of_held _ hUp polls _ (allOnes_and _ hUp) fun p hp => (hall p hp).1)
      (chain_of_unheld _ polls _ fun p hp => (hall p hp).2)
  · intro polls hall
    exact menuLoop_selection_fixed _ _ polls _ selection
      (chain_of_unheld _ polls _ fun p hp => (hall p hp).2)
      (chain_of_held _ hDown polls _ (allOnes_and _ hDown) fun p hp => (hall p hp).1)
  · rfl

/-! ## Theorems: touch transform -/

theorem scaled_in_bounds (d size native : Int) (hd : 0 ≤ d) (hlt : d < size)
    (hn : 0 < native) : 0 ≤ d * native / size ∧ d * native / size < native := by
  have hsize : 0 < size := by omega
  constructor
  · exact Int.ediv_nonneg (Int.mul_nonneg hd (by omega)) (by omega)
  · apply Int.ediv_lt_of_lt_mul hsize
    rw [Int.mul_comm native size]
    exact Int.mul_lt_mul_of_pos_right hlt hn

theorem clampToSide_bounds (p origin size : Int) (hsize : 0 < size) :
    0 ≤ clampToSide p origin size - origin ∧ clampToSide p origin size - origin < size ∧
    (origin ≤ p → p < origin + size → clampToSide p origin size = p) := by
  unfold clampToSide
  omega

theorem rescale_in_bounds (p origin size native : Int) (hn : 0 < native) :
    0 ≤ rescale (clampToSide p origin size - origin) size native ∧
    rescale (clampToSide p origin size - origin) size native < native := by
  unfold rescale
  by_cases hsize : size ≤ 0
  · rw [if_pos hsize]
    exact ⟨le_refl _, hn⟩
  · rw [if_neg hsize]
    obtain ⟨h0, h1, -⟩ := clampToSide_bounds p origin size (by omega)
    exact scaled_in_bounds _ size native h0 h1 hn

theorem rescale_inside (p origin size native : Int) (hlo : origin ≤ p)
    (hhi : p < origin + size) :
    rescale (clampToSide p origin size - origin) size native = (p - origin) * native / size := by
  unfold rescale
  rw [if_neg (by omega), (clampToSide_bounds p origin size (by omega)).2.2 hlo hhi]

/-- C14: for every layout (any values of the rectangle fields, so every layout that
`layout.update` computes, the cropped mode with its unused rectangle included), every
rotation setting and every pointer coordinate, the touch coordinates returned lie in the
native bounds `0 ≤ x < 256`, `0 ≤ y < 192`. A pointer inside the touch rectangle is used as
it is and, without rotation, maps to `(x - botX) * 256 / botWidth` and
`(y - botY) * 192 / botHeight`; a pointer outside is first clamped to the nearest edge, so
the result is in bounds in both cases and nothing fails. -/
theorem getTouch_in_bounds (l : ScreenLayout) (screenRotation x y : Int) :
    0 ≤ (getTouch l screenRotation x y).1 ∧ (getTouch l screenRotation x y).1 < 256 ∧
    0 ≤ (getTouch l screenRotation x y).2 ∧ (getTouch l screenRotation x y).2 < 192 ∧
    (l.botX ≤ x → x < l.botX + l.botWidth → clampToSide x l.botX l.botWidth = x) ∧
    (l.botY ≤ y → y < l.botY + l.botHeight → clampToSide y l.botY l.botHeight = y) ∧
    (l.botX ≤ x → x < l.botX + l.botWidth → l.botY ≤ y → y < l.botY + l.botHeight →
      getTouch l 0 x y =
        ((x - l.botX) * 256 / l.botWidth, (y - l.botY) * 192 / l.botHeight)) := by
  have ax := rescale_in_bounds x l.botX l.botWidth 256 (by decide)
  have bx := rescale_in_bounds x l.botX l.botWidth 192 (by decide)
  have ay := rescale_in_bounds y l.botY l.botHeight 256 (by decide)
  have by1 := rescale_in_bounds y l.botY l.botHeight 192 (by decide)
  have hx : l.botX ≤ x → x < l.botX + l.botWidth → clampToSide x l.botX l.botWidth = x :=
    fun h1 h2 => (clampToSide_bounds x l.botX l.botWidth (by omega)).2.2 h1 h2
  have hy : l.botY ≤ y → y < l.botY + l.botHeight → clampToSide y l.botY l.botHeight = y :=
    fun h1 h2 => (clampToSide_bounds y l.botY l.botHeight (by omega)).2.2 h1 h2
  have hin : l.botX ≤ x → x < l.botX + l.botWidth → l.botY ≤ y → y < l.botY + l.botHeight →
      getTouch l 0 x y =
        ((x - l.botX) * 256 / l.botWidth, (y - l.botY) * 192 / l.botHeight) := by
    intro h1 h2 h3 h4
    unfold getTouch
    simp only
    rw [if_true, rescale_inside x l.botX l.botWidth 256 h1 h2,
      rescale_inside y l.botY l.botHeight 192 h3 h4]
  refine ⟨?_, ?_, ?_, ?_, hx, hy, hin⟩ <;>
    unfold getTouch <;>
    simp only <;>
    split_ifs <;>
    simp only <;>
    omega

theorem getTouch_in_bounds_witness :
    getTouch stackedLayout 1 (-40) 9000 = (254, 191) ∧
    getTouch stackedLayout 0 100 292 = (100, 100) ∧
    getTouch croppedLayout 0 100 100 = (0, 0) ∧
    0 ≤ (getTouch croppedLayout 2 100 100).1 ∧ (getTouch croppedLayout 2 100 100).1 < 256 ∧
    0 ≤ (getTouch croppedLayout 2 100 100).2 ∧ (getTouch croppedLayout 2 100 100).2 < 192 :=
  ⟨by decide, by decide, by decide,
   (getTouch_in_bounds croppedLayout 2 100 100).1,
   (getTouch_in_bounds croppedLayout 2 100 100).2.1,
   (getTouch_in_bounds croppedLayout 2 100 100).2.2.1,
   (getTouch_in_bounds croppedLayout 2 100 100).2.2.2.1⟩

/-! ## Theorems: what the menus and messages of the front-end leave as it was -/

theorem Front.Unchanged.unchanged_refl (s : Front) : s.Unchanged s := ⟨rfl, rfl, rfl, rfl, rfl⟩

theorem Front.Unchanged.unchanged_trans {s t u : Front} (h1 : s.Unchanged t) (h2 : t.Unchanged u) :
    s.Unchanged u :=
  ⟨h2.1.trans h1.1, h2.2.1.trans h1.2.1, h2.2.2.1.trans h1.2.2.1, h2.2.2.2.1.trans h1.2.2.2.1,
   h2.2.2.2.2.trans h1.2.2.2.2⟩

theorem Front.Unchanged.checked {s t : Front} (h : s.Unchanged t)
    (hs : startsChecked s.trace = true) : startsChecked t.trace = true :=
  h.2.2.1.trans hs

theorem Front.Unchanged.ready {s t : Front} (h : s.Unchanged t) (hr : s.Ready) : t.Ready :=
  ⟨h.1.trans hr.1, h.2.1.trans hr.2⟩

theorem Outcome.holds_done {α : Type} {post : α → Front → Prop} {value : α} {s : Front}
    (hs : startsChecked s.trace = true) (hp : post value s) :
    (Outcome.done value s).Holds post :=
  ⟨hs, fun _ _ h => by cases h; exact hp⟩

theorem Outcome.holds_pending {α : Type} {post : α → Front → Prop} {s : Front}
    (hs : startsChecked s.trace = true) : (Outcome.pending s : Outcome α).Holds post :=
  ⟨hs, fun _ _ h => by cases h⟩

theorem Outcome.holds_undefined {α : Type} {post : α → Front → Prop} {s : Front}
    (hs : startsChecked s.trace = true) : (Outcome.undefined s : Outcome α).Holds post :=
  ⟨hs, fun _ _ h => by cases h⟩

theorem Outcome.Holds.of_done {α : Type} {post : α → Front → Prop} {o : Outcome α} {value : α}
    {s : Front} (h : o.Holds post) (ho : o = .done value s) :
    startsChecked s.trace = true ∧ post value s := by
  subst ho
  exact ⟨h.1, h.2 _ _ rfl⟩

theorem Outcome.Holds.of_pending {α : Type} {post : α → Front → Prop} {o : Outcome α}
    {s : Front} (h : o.Holds post) (ho : o = .pending s) : startsChecked s.trace = true := by
  subst ho
  exact h.1

theorem Outcome.Holds.of_undefined {α : Type} {post : α → Front → Prop} {o : Outcome α}
    {s : Front} (h : o.Holds post) (ho : o = .undefined s) : startsChecked s.trace = true := by
  subst ho
  exact h.1

theorem message_unchanged (s : Front) (text : String) (buttonMask : Nat) :
    s.Unchanged (s.message text buttonMask).state := by
  unfold Front.message
  split <;> exact ⟨rfl, rfl, rfl, rfl, rfl⟩

theorem menu_unchanged (s : Front) (a : MenuArgs) (selection : Nat) :
    s.Unchanged (s.menu a selection).state := by
  unfold Front.menu
  split <;> exact ⟨rfl, rfl, rfl, rfl, rfl⟩

theorem unchanged_of_eq {α : Type} {s t : Front} {o p : Outcome α} (h : s.Unchanged o.state)
    (ho : o = p) (hp : p.state = t) : s.Unchanged t := by
  subst ho
  subst hp
  exact h

theorem settingsMenuLoop_unchanged (fuel selection : Nat) (s : Front) :
    s.Unchanged (settingsMenuLoop fuel selection s).state := by
  induction fuel generalizing selection s with
  | zero => exact Front.Unchanged.unchanged_refl s
  | succ fuel ih =>
    unfold settingsMenuLoop
    split
    · exact Front.Unchanged.unchanged_refl s
    · split
      · rename_i pressed selection1 s1 heq
        have h1 : s.Unchanged s1 := unchanged_of_eq (menu_unchanged s _ _) heq rfl
        split_ifs
        · exact h1.unchanged_trans
            ((show s1.Unchanged { s1 with settings := nextSetting s1.settings selection1 } from
              ⟨rfl, rfl, rfl, rfl, rfl⟩).unchanged_trans (ih _ _))
        · exact h1.unchanged_trans ⟨rfl, rfl, rfl, rfl, rfl⟩
        · exact h1.unchanged_trans (ih _ _)
      · rename_i s1 heq
        exact unchanged_of_eq (menu_unchanged s _ _) heq rfl
      · rename_i s1 heq
        exact unchanged_of_eq (menu_unchanged s _ _) heq rfl

theorem settingsMenu_unchanged (s : Front) : s.Unchanged (settingsMenu s).state :=
  settingsMenuLoop_unchanged _ _ s

theorem isGbaMode_unchanged (s : Front) : s.Unchanged (isGbaMode s).state := by
  unfold isGbaMode
  split_ifs
  · exact Front.Unchanged.unchanged_refl s
  · split <;> exact ⟨rfl, rfl, rfl, rfl, rfl⟩

theorem saveTypeMenuLoop_unchanged (fuel : Nat) (items : List String) (selection : Nat)
    (s : Front) : s.Unchanged (saveTypeMenuLoop fuel items selection s).state := by
  induction fuel generalizing selection s with
  | zero => exact Front.Unchanged.unchanged_refl s
  | succ fuel ih =>
    unfold saveTypeMenuLoop
    split
    · rename_i pressed selection1 s1 heq
      have h1 : s.Unchanged s1 := unchanged_of_eq (menu_unchanged s _ _) heq rfl
      split_ifs
      · split
        · rename_i sure s2 heq2
          have h2 : s1.Unchanged s2 := unchanged_of_eq (message_unchanged s1 _ _) heq2 rfl
          split_ifs
          · exact h1.unchanged_trans (h2.unchanged_trans (ih _ _))
          · split
            · rename_i gba s3 heq3
              have h3 : s2.Unchanged s3 := unchanged_of_eq (isGbaMode_unchanged s2) heq3 rfl
              split
              · exact h1.unchanged_trans (h2.unchanged_trans (h3.unchanged_trans ⟨rfl, rfl, rfl, rfl, rfl⟩))
              · exact h1.unchanged_trans (h2.unchanged_trans h3)
            · rename_i s3 heq3
              exact h1.unchanged_trans (h2.unchanged_trans (unchanged_of_eq (isGbaMode_unchanged s2) heq3 rfl))
            · rename_i s3 heq3
              exact h1.unchanged_trans (h2.unchanged_trans (unchanged_of_eq (isGbaMode_unchanged s2) heq3 rfl))
        · rename_i s2 heq2
          exact h1.unchanged_trans (unchanged_of_eq (message_unchanged s1 _ _) heq2 rfl)
        · rename_i s2 heq2
          exact h1.unchanged_trans (unchanged_of_eq (message_unchanged s1 _ _) heq2 rfl)
      · exact h1
      · exact h1.unchanged_trans (ih _ _)
    · rename_i s1 heq
      exact unchanged_of_eq (menu_unchanged s _ _) heq rfl
    · rename_i s1 heq
      exact unchanged_of_eq (menu_unchanged s _ _) heq rfl

theorem saveTypeMenu_unchanged (s : Front) : s.Unchanged (saveTypeMenu s).state := by
  unfold saveTypeMenu
  split
  · rename_i gba s1 heq
    exact (unchanged_of_eq (isGbaMode_unchanged s) heq rfl).unchanged_trans
      (saveTypeMenuLoop_unchanged _ _ _ s1)
  · rename_i s1 heq
    exact unchanged_of_eq (isGbaMode_unchanged s) heq rfl
  · rename_i s1 heq
    exact unchanged_of_eq (isGbaMode_unchanged s) heq rfl

/-! ## Theorems: every start of the workers follows a core creation that succeeded -/

theorem createCore_holds (s : Front) (hs : startsChecked s.trace = true) :
    (createCore s).Holds fun result t =>
      (result = true → t.Ready) ∧
      (result = false → t.core = .null ∧ lastCreateOk t.trace = false) := by
  unfold createCore
  by_cases hd : s.core = .deleted
  · rw [if_pos hd]
    exact Outcome.holds_undefined hs
  · rw [if_neg hd]
    split
    · exact Outcome.holds_pending hs
    · rename_i result later hc
      dsimp only
      split
      · exact Outcome.holds_done hs ⟨fun _ => ⟨rfl, rfl⟩, fun h => by cases h⟩
      · rename_i e
        split
        · rename_i pressed s2 heq
          have h2 := unchanged_of_eq (message_unchanged _ _ _) heq rfl
          exact Outcome.holds_done (h2.checked hs) ⟨fun h => (by cases h), fun _ => ⟨rfl, rfl⟩⟩
        · rename_i s2 heq
          exact Outcome.holds_pending
            ((unchanged_of_eq (message_unchanged _ _ _) heq rfl).checked hs)
        · rename_i s2 heq
          exact Outcome.holds_undefined
            ((unchanged_of_eq (message_unchanged _ _ _) heq rfl).checked hs)

theorem setPath_holds (path : String) (s : Front) (hs : startsChecked s.trace = true) :
    (setPath path s).Holds fun result t => result ≤ 2 ∧ (result = 2 → t.Ready) := by
  have hcreate : ∀ (asked : Outcome Unit) (set clear : Front → Front),
      startsChecked asked.state.trace = true → (∀ t, (set t).trace = t.trace) →
      (∀ t, (clear t).trace = t.trace) →
      (match asked with
        | .done _ s1 =>
          match createCore (set s1) with
          | .done true s2 => Outcome.done 2 s2
          | .done false s2 => Outcome.done 1 (clear s2)
          | .pending s2 => Outcome.pending s2
          | .undefined s2 => Outcome.undefined s2
        | .pending s1 => .pending s1
        | .undefined s1 => .undefined s1).Holds
        fun result t => result ≤ 2 ∧ (result = 2 → t.Ready) := by
    intro asked set clear h1 hset hclear
    cases asked with
    | done u s1 =>
      have hc := createCore_holds (set s1) ((hset s1).symm ▸ h1)
      dsimp only
      split
      · rename_i s2 heq
        obtain ⟨h2, hr, _⟩ := hc.of_done heq
        exact Outcome.holds_done h2 ⟨le_refl _, fun _ => hr rfl⟩
      · rename_i s2 heq
        obtain ⟨h2, _, _⟩ := hc.of_done heq
        exact Outcome.holds_done ((hclear s2).symm ▸ h2) ⟨by decide, fun h => by cases h⟩
      · rename_i s2 heq
        exact Outcome.holds_pending (hc.of_pending heq)
      · rename_i s2 heq
        exact Outcome.holds_undefined (hc.of_undefined heq)
    | pending s1 => exact Outcome.holds_pending h1
    | undefined s1 => exact Outcome.holds_undefined h1
  have hasked : ∀ (ask : Prop) [Decidable ask] (text : String) (clear : Front → Front),
      (∀ t, (clear t).trace = t.trace) →
      startsChecked
        (if ask then
          match s.message text (s.confirmButton ||| s.cancelButton) with
          | .done pressed s1 =>
            Outcome.done () (if pressed &&& s1.confirmButton = 0 then clear s1 else s1)
          | .pending s1 => .pending s1
          | .undefined s1 => .undefined s1
        else Outcome.done () s).state.trace = true := by
    intro ask _ text clear hclear
    have hm := message_unchanged s text (s.confirmButton ||| s.cancelButton)
    by_cases hask : ask
    · rw [if_pos hask]
      split
      · rename_i pressed s1 heq
        have h1 := (unchanged_of_eq hm heq rfl).checked hs
        show startsChecked (if _ then _ else _ : Front).trace = true
        split_ifs
        · rw [hclear]
          exact h1
        · exact h1
      · rename_i s1 heq
        exact (unchanged_of_eq hm heq rfl).checked hs
      · rename_i s1 heq
        exact (unchanged_of_eq hm heq rfl).checked hs
    · rw [if_neg hask]
      exact hs
  unfold setPath
  by_cases hnds : findsExtension path ".nds" = true
  · rw [if_pos hnds]
    exact hcreate _ (fun t => { t with ndsPath := path }) (fun t => { t with ndsPath := "" })
      (hasked (s.gbaPath ≠ "") "Load the previous GBA ROM alongside this ROM?"
        (fun t => { t with gbaPath := "" }) (fun _ => rfl)) (fun _ => rfl) (fun _ => rfl)
  · rw [if_neg hnds]
    by_cases hgba : findsExtension path ".gba" = true
    · rw [if_pos hgba]
      exact hcreate _ (fun t => { t with gbaPath := path }) (fun t => { t with gbaPath := "" })
        (hasked (s.ndsPath ≠ "") "Load the previous NDS ROM alongside this ROM?"
          (fun t => { t with ndsPath := "" }) (fun _ => rfl)) (fun _ => rfl) (fun _ => rfl)
    · rw [if_neg hgba]
      exact Outcome.holds_done hs ⟨by decide, fun h => by cases h⟩

theorem fileBrowserLoop_holds (fuel : Nat) (path : String) (selection : Nat) (s : Front)
    (hs : startsChecked s.trace = true) :
    (fileBrowserLoop fuel path selection s).Holds fun _ t => t.Ready := by
  induction fuel generalizing path selection s with
  | zero => exact Outcome.holds_pending hs
  | succ fuel ih =>
    unfold fileBrowserLoop
    split
    · exact Outcome.holds_pending hs
    · rename_i entries later hdirs
      split
      · rename_i pressed selection1 s1 heq
        have h1 : startsChecked s1.trace = true :=
          (unchanged_of_eq (menu_unchanged _ _ _) heq rfl).checked hs
        split_ifs
        · split
          · exact Outcome.holds_undefined h1
          · rename_i name hname
            have hp := setPath_holds (path ++ "/" ++ name) s1 h1
            split
            · rename_i s2 heq2
              obtain ⟨h2, _, hr⟩ := hp.of_done heq2
              exact Outcome.holds_done h2 (hr rfl)
            · rename_i s2 heq2
              exact ih _ _ _ (hp.of_done heq2).1
            · rename_i result s2 _ _ heq2
              exact ih _ _ _ (hp.of_done heq2).1
            · rename_i s2 heq2
              exact Outcome.holds_pending (hp.of_pending heq2)
            · rename_i s2 heq2
              exact Outcome.holds_undefined (hp.of_undefined heq2)
        · exact ih _ _ _ h1
        · have hm := settingsMenu_unchanged s1
          split
          · rename_i u s2 heq2
            exact ih _ _ _ ((unchanged_of_eq hm heq2 rfl).checked h1)
          · rename_i s2 heq2
            exact Outcome.holds_pending ((unchanged_of_eq hm heq2 rfl).checked h1)
          · rename_i s2 heq2
            exact Outcome.holds_undefined ((unchanged_of_eq hm heq2 rfl).checked h1)
        · exact ih _ _ _ h1
      · rename_i s1 heq
        exact Outcome.holds_pending ((unchanged_of_eq (menu_unchanged _ _ _) heq rfl).checked hs)
      · rename_i s1 heq
        exact Outcome.holds_undefined
          ((unchanged_of_eq (menu_unchanged _ _ _) heq rfl).checked hs)

theorem fileBrowser_holds (s : Front) (hs : startsChecked s.trace = true) :
    (fileBrowser s).Holds fun _ t => t.Ready :=
  fileBrowserLoop_holds _ _ _ s hs

theorem startCore_ready (s : Front) (hs : startsChecked s.trace = true) (hr : s.Ready) :
    startsChecked (startCore s).trace = true ∧ (startCore s).Ready := by
  refine ⟨?_, hr.1, hr.2⟩
  show (decide (s.core = .valid) && lastCreateOk s.trace && startsChecked s.trace) = true
  rw [hr.1, hr.2, hs]
  rfl

theorem restart_holds (s : Front) (hs : startsChecked s.trace = true) :
    (restart s).Holds fun _ t => t.Ready := by
  have hc := createCore_holds s hs
  unfold restart
  split
  · rename_i s1 heq
    obtain ⟨h1, hr, _⟩ := hc.of_done heq
    exact Outcome.holds_done (startCore_ready s1 h1 (hr rfl)).1 (startCore_ready s1 h1 (hr rfl)).2
  · rename_i s1 heq
    have hb := fileBrowser_holds s1 (hc.of_done heq).1
    split
    · rename_i u s2 heq2
      obtain ⟨h2, hr2⟩ := hb.of_done heq2
      exact Outcome.holds_done (startCore_ready s2 h2 hr2).1 (startCore_ready s2 h2 hr2).2
    · rename_i s2 heq2
      exact Outcome.holds_pending (hb.of_pending heq2)
    · rename_i s2 heq2
      exact Outcome.holds_undefined (hb.of_undefined heq2)
  · rename_i s1 heq
    exact Outcome.holds_pending (hc.of_pending heq)
  · rename_i s1 heq
    exact Outcome.holds_undefined (hc.of_undefined heq)

theorem pauseMenuLoop_holds (fuel selection : Nat) (s : Front)
    (hs : startsChecked s.trace = true) (hr : s.Ready) :
    (pauseMenuLoop fuel selection s).Holds fun _ t => t.Ready := by
  induction fuel generalizing selection s with
  | zero => exact Outcome.holds_pending hs
  | succ fuel ih =>
    unfold pauseMenuLoop
    split
    · rename_i pressed selection1 s1 heq
      have hu := unchanged_of_eq (menu_unchanged _ _ _) heq rfl
      have h1 : startsChecked s1.trace = true := hu.checked hs
      have hr1 : s1.Ready := hu.ready hr
      split_ifs
      · split
        · exact Outcome.holds_done (startCore_ready s1 h1 hr1).1 (startCore_ready s1 h1 hr1).2
        · exact restart_holds s1 h1
        · have hm := saveTypeMenu_unchanged s1
          split
          · rename_i s2 heq2
            exact restart_holds s2 ((unchanged_of_eq hm heq2 rfl).checked h1)
          · rename_i s2 heq2
            exact ih _ _ ((unchanged_of_eq hm heq2 rfl).checked h1)
              ((unchanged_of_eq hm heq2 rfl).ready hr1)
          · rename_i s2 heq2
            exact Outcome.holds_pending ((unchanged_of_eq hm heq2 rfl).checked h1)
          · rename_i s2 heq2
            exact Outcome.holds_undefined ((unchanged_of_eq hm heq2 rfl).checked h1)
        · have hm := settingsMenu_unchanged s1
          split
          · rename_i u s2 heq2
            exact ih _ _ ((unchanged_of_eq hm heq2 rfl).checked h1)
              ((unchanged_of_eq hm heq2 rfl).ready hr1)
          · rename_i s2 heq2
            exact Outcome.holds_pending ((unchanged_of_eq hm heq2 rfl).checked h1)
          · rename_i s2 heq2
            exact Outcome.holds_undefined ((unchanged_of_eq hm heq2 rfl).checked h1)
        · have hb := fileBrowser_holds s1 h1
          split
          · rename_i u s2 heq2
            obtain ⟨h2, hr2⟩ := hb.of_done heq2
            exact Outcome.holds_done (startCore_ready s2 h2 hr2).1 (startCore_ready s2 h2 hr2).2
          · rename_i s2 heq2
            exact Outcome.holds_pending (hb.of_pending heq2)
          · rename_i s2 heq2
            exact Outcome.holds_undefined (hb.of_undefined heq2)
        · exact ih _ _ h1 hr1
      · exact Outcome.holds_done (startCore_ready s1 h1 hr1).1 (startCore_ready s1 h1 hr1).2
      · exact ih _ _ h1 hr1
    · rename_i s1 heq
      exact Outcome.holds_pending ((unchanged_of_eq (menu_unchanged _ _ _) heq rfl).checked hs)
    · rename_i s1 heq
      exact Outcome.holds_undefined ((unchanged_of_eq (menu_unchanged _ _ _) heq rfl).checked hs)

theorem pauseMenu_holds (s : Front) (hs : startsChecked s.trace = true) (hr : s.Ready) :
    (pauseMenu s).Holds fun _ t => t.Ready :=
  pauseMenuLoop_holds _ _ (stopCore s) hs hr

theorem mainLoop_checked (fuel : Nat) (s : Front) (hs : startsChecked s.trace = true)
    (hr : s.Ready) : startsChecked (mainLoop fuel s).state.trace = true := by
  induction fuel generalizing s with
  | zero => exact hs
  | succ fuel ih =>
    unfold mainLoop
    split
    · exact hs
    · rename_i down later hsticks
      split_ifs
      · have hp := pauseMenu_holds { s with sticks := later } hs hr
        split
        · rename_i u s1 heq
          exact ih s1 (hp.of_done heq).1 (hp.of_done heq).2
        · rename_i s1 heq
          exact hp.of_pending heq
        · rename_i s1 heq
          exact hp.of_undefined heq
      · exact ih _ hs hr

theorem loadRom_holds (args : Option String) (s : Front)
    (hs : startsChecked s.trace = true) : (loadRom args s).Holds fun _ t => t.Ready := by
  unfold loadRom
  split
  · rename_i line
    have hp := setPath_holds (argsPath line) s hs
    split
    · rename_i result s1 heq
      obtain ⟨h1, hle, hr⟩ := hp.of_done heq
      by_cases hlt : result < 2
      · rw [if_pos hlt]
        exact fileBrowser_holds s1 h1
      · rw [if_neg hlt]
        exact Outcome.holds_done h1 (hr (Nat.le_antisymm hle (Nat.le_of_not_lt hlt)))
    · rename_i s1 heq
      exact Outcome.holds_pending (hp.of_pending heq)
    · rename_i s1 heq
      exact Outcome.holds_undefined (hp.of_undefined heq)
  · exact fileBrowser_holds s hs

theorem main_checked (assign : Int) (args : Option String) (s : Front)
    (hs : startsChecked s.trace = true) :
    startsChecked (main assign args s).state.trace = true := by
  have hl := loadRom_holds args
    { s with
      confirmButton := if assign ≠ 0 then SCE_CTRL_CROSS else SCE_CTRL_CIRCLE
      cancelButton := if assign ≠ 0 then SCE_CTRL_CIRCLE else SCE_CTRL_CROSS } hs
  unfold main
  split
  · rename_i u s1 heq
    obtain ⟨h1, hr1⟩ := hl.of_done heq
    have h2 := startCore_ready { s1 with trace := .layoutUpdate :: s1.trace } h1 hr1
    exact mainLoop_checked _ _ h2.1 h2.2
  · rename_i s1 heq
    exact hl.of_pending heq
  · rename_i s1 heq
    exact hl.of_undefined heq

/-! ## Theorems: the loops of the front-end run as long as there is input -/

theorem Front.Later.later_refl (s : Front) : s.Later s := ⟨le_refl _, rfl⟩

theorem Front.Later.later_trans {s t u : Front} (h1 : s.Later t) (h2 : t.Later u) : s.Later u :=
  ⟨le_trans h2.1 h1.1, h2.2.trans h1.2⟩

theorem Outcome.returns_done {α : Type} {post : α → Front → Prop} {value : α} {s : Front}
    (hp : post value s) : (Outcome.done value s).Returns post :=
  fun _ _ h => by cases h; exact hp

theorem Outcome.returns_pending {α : Type} {post : α → Front → Prop} {s : Front} :
    (Outcome.pending s : Outcome α).Returns post :=
  fun _ _ h => by cases h

theorem Outcome.returns_undefined {α : Type} {post : α → Front → Prop} {s : Front} :
    (Outcome.undefined s : Outcome α).Returns post :=
  fun _ _ h => by cases h

theorem menuLoop_reads (size buttonMask : Nat) (polls : List Nat) (buttons selection : Nat)
    (pressed chosen : Nat) (rest : List Nat)
    (h : menuLoop size buttonMask polls buttons selection = .returned pressed chosen rest) :
    rest.length < polls.length := by
  induction polls generalizing buttons selection with
  | nil => cases h
  | cons held later ih =>
    unfold menuLoop at h
    split_ifs at h
    · cases h
      exact Nat.lt_succ_self _
    · exact Nat.lt_succ_of_lt (ih _ _ h)
    · exact Nat.lt_succ_of_lt (ih _ _ h)
    · exact Nat.lt_succ_of_lt (ih _ _ h)

theorem messageLoop_reads (buttonMask : Nat) (polls : List Nat) (buttons pressed : Nat)
    (rest : List Nat) (h : messageLoop buttonMask polls buttons = .returned pressed rest) :
    rest.length < polls.length := by
  induction polls generalizing buttons with
  | nil => cases h
  | cons held later ih =>
    unfold messageLoop at h
    split_ifs at h
    · cases h
      exact Nat.lt_succ_self _
    · exact Nat.lt_succ_of_lt (ih _ h)

theorem menu_reads (s : Front) (a : MenuArgs) (selection : Nat) :
    (s.menu a selection).Returns fun _ t =>
      t.polls.length < s.polls.length ∧ t.sticks = s.sticks := by
  unfold Front.menu
  split
  · rename_i pressed chosen rest heq
    exact Outcome.returns_done ⟨menuLoop_reads _ _ _ _ _ _ _ _ heq, rfl⟩
  · exact Outcome.returns_pending

theorem message_reads (s : Front) (text : String) (buttonMask : Nat) :
    (s.message text buttonMask).Returns fun _ t => s.Later t := by
  unfold Front.message
  split
  · rename_i pressed rest heq
    exact Outcome.returns_done ⟨Nat.le_of_lt (messageLoop_reads _ _ _ _ _ heq), rfl⟩
  · exact Outcome.returns_pending

theorem createCore_reads (s : Front) : (createCore s).Returns fun _ t => s.Later t := by
  unfold createCore
  by_cases hd : s.core = .deleted
  · rw [if_pos hd]
    exact Outcome.returns_undefined
  · rw [if_neg hd]
    split
    · exact Outcome.returns_pending
    · dsimp only
      split
      · exact Outcome.returns_done ⟨le_refl _, rfl⟩
      · split
        · rename_i pressed s2 heq
          have h2 := message_reads _ _ _ _ _ heq
          exact Outcome.returns_done ⟨h2.1, h2.2⟩
        · exact Outcome.returns_pending
        · exact Outcome.returns_undefined

theorem setPath_reads (path : String) (s : Front) :
    (setPath path s).Returns fun _ t => s.Later t := by
  have hcreate : ∀ (asked : Outcome Unit) (set clear : Front → Front),
      (asked.Returns fun _ t => s.Later t) → (∀ t : Front, t.Later (set t)) →
      (∀ t : Front, t.Later (clear t)) →
      (match asked with
        | .done _ s1 =>
          match createCore (set s1) with
          | .done true s2 => Outcome.done 2 s2
          | .done false s2 => Outcome.done 1 (clear s2)
          | .pending s2 => Outcome.pending s2
          | .undefined s2 => Outcome.undefined s2
        | .pending s1 => .pending s1
        | .undefined s1 => .undefined s1).Returns fun _ t => s.Later t := by
    intro asked set clear h1 hset hclear
    cases asked with
    | done u s1 =>
      have hs1 : s.Later (set s1) := (h1 _ _ rfl).later_trans (hset s1)
      have hc := createCore_reads (set s1)
      dsimp only
      split
      · rename_i s2 heq
        exact Outcome.returns_done (hs1.later_trans (hc _ _ heq))
      · rename_i s2 heq
        exact Outcome.returns_done ((hs1.later_trans (hc _ _ heq)).later_trans (hclear s2))
      · exact Outcome.returns_pending
      · exact Outcome.returns_undefined
    | pending s1 => exact Outcome.returns_pending
    | undefined s1 => exact Outcome.returns_undefined
  have hasked : ∀ (ask : Prop) [Decidable ask] (text : String) (clear : Front → Front),
      (∀ t : Front, t.Later (clear t)) →
      (if ask then
          match s.message text (s.confirmButton ||| s.cancelButton) with
          | .done pressed s1 =>
            Outcome.done () (if pressed &&& s1.confirmButton = 0 then clear s1 else s1)
          | .pending s1 => .pending s1
          | .undefined s1 => .undefined s1
        else Outcome.done () s).Returns fun _ t => s.Later t := by
    intro ask _ text clear hclear
    have hm := message_reads s text (s.confirmButton ||| s.cancelButton)
    by_cases hask : ask
    · rw [if_pos hask]
      split
      · rename_i pressed s1 heq
        have h1 := hm _ _ heq
        by_cases hp : pressed &&& s1.confirmButton = 0
        · rw [if_pos hp]
          exact Outcome.returns_done (h1.later_trans (hclear s1))
        · rw [if_neg hp]
          exact Outcome.returns_done h1
      · exact Outcome.returns_pending
      · exact Outcome.returns_undefined
    · rw [if_neg hask]
      exact Outcome.returns_done (Front.Later.later_refl s)
  unfold setPath
  by_cases hnds : findsExtension path ".nds" = true
  · rw [if_pos hnds]
    exact hcreate _ (fun t => { t with ndsPath := path }) (fun t => { t with ndsPath := "" })
      (hasked (s.gbaPath ≠ "") "Load the previous GBA ROM alongside this ROM?"
        (fun t => { t with gbaPath := "" }) (fun t => Front.Later.later_refl t))
      (fun t => Front.Later.later_refl t) (fun t => Front.Later.later_refl t)
  · rw [if_neg hnds]
    by_cases hgba : findsExtension path ".gba" = true
    · rw [if_pos hgba]
      exact hcreate _ (fun t => { t with gbaPath := path }) (fun t => { t with gbaPath := "" })
        (hasked (s.ndsPath ≠ "") "Load the previous NDS ROM alongside this ROM?"
          (fun t => { t with ndsPath := "" }) (fun t => Front.Later.later_refl t))
        (fun t => Front.Later.later_refl t) (fun t => Front.Later.later_refl t)
    · rw [if_neg hgba]
      exact Outcome.returns_done (Front.Later.later_refl s)

theorem settingsMenuLoop_reads (fuel selection : Nat) (s : Front) :
    (settingsMenuLoop fuel selection s).Returns fun _ t => s.Later t := by
  induction fuel generalizing selection s with
  | zero => exact Outcome.returns_pending
  | succ fuel ih =>
    unfold settingsMenuLoop
    split
    · exact Outcome.returns_undefined
    · split
      · rename_i pressed selection1 s1 heq
        have h1 : s.Later s1 :=
          ⟨Nat.le_of_lt (menu_reads _ _ _ _ _ heq).1, (menu_reads _ _ _ _ _ heq).2⟩
        have h2 : s.Later { s1 with settings := nextSetting s1.settings selection1 } := h1
        split_ifs
        · exact fun value t h => h2.later_trans (ih _ _ value t h)
        · exact Outcome.returns_done ⟨h1.1, h1.2⟩
        · exact fun value t h => h1.later_trans (ih _ _ value t h)
      · exact Outcome.returns_pending
      · exact Outcome.returns_undefined

theorem settingsMenu_reads (s : Front) : (settingsMenu s).Returns fun _ t => s.Later t :=
  settingsMenuLoop_reads _ _ s

theorem isGbaMode_reads (s : Front) : (isGbaMode s).Returns fun _ t => s.Later t := by
  unfold isGbaMode
  split_ifs
  · exact Outcome.returns_undefined
  · split
    · exact Outcome.returns_pending
    · exact Outcome.returns_done (Front.Later.later_refl s)

theorem saveTypeMenuLoop_reads (fuel : Nat) (items : List String) (selection : Nat)
    (s : Front) :
    (saveTypeMenuLoop fuel items selection s).Returns fun _ t => s.Later t := by
  induction fuel generalizing selection s with
  | zero => exact Outcome.returns_pending
  | succ fuel ih =>
    unfold saveTypeMenuLoop
    split
    · rename_i pressed selection1 s1 heq
      have h1 : s.Later s1 :=
        ⟨Nat.le_of_lt (menu_reads _ _ _ _ _ heq).1, (menu_reads _ _ _ _ _ heq).2⟩
      split_ifs
      · split
        · rename_i sure s2 heq2
          have h2 : s.Later s2 := h1.later_trans (message_reads _ _ _ _ _ heq2)
          split_ifs
          · exact fun value t h => h2.later_trans (ih _ _ value t h)
          · split
            · rename_i gba s3 heq3
              have h3 : s.Later s3 := h2.later_trans (isGbaMode_reads _ _ _ heq3)
              split
              · exact Outcome.returns_done h3
              · exact Outcome.returns_done h3
            · exact Outcome.returns_pending
            · exact Outcome.returns_undefined
        · exact Outcome.returns_pending
        · exact Outcome.returns_undefined
      · exact Outcome.returns_done h1
      · exact fun value t h => h1.later_trans (ih _ _ value t h)
    · exact Outcome.returns_pending
    · exact Outcome.returns_undefined

theorem saveTypeMenu_reads (s : Front) : (saveTypeMenu s).Returns fun _ t => s.Later t := by
  unfold saveTypeMenu
  split
  · rename_i gba s1 heq
    exact fun value t h =>
      (isGbaMode_reads _ _ _ heq).later_trans (saveTypeMenuLoop_reads _ _ _ s1 value t h)
  · exact Outcome.returns_pending
  · exact Outcome.returns_undefined

theorem fileBrowserLoop_reads (fuel : Nat) (path : String) (selection : Nat) (s : Front) :
    (fileBrowserLoop fuel path selection s).Returns fun _ t => s.Later t := by
  induction fuel generalizing path selection s with
  | zero => exact Outcome.returns_pending
  | succ fuel ih =>
    unfold fileBrowserLoop
    split
    · exact Outcome.returns_pending
    · split
      · rename_i pressed selection1 s1 heq
        have h1 : s.Later s1 :=
          ⟨Nat.le_of_lt (menu_reads _ _ _ _ _ heq).1, (menu_reads _ _ _ _ _ heq).2⟩
        split_ifs
        · split
          · exact Outcome.returns_undefined
          · rename_i name hname
            have hp := setPath_reads (path ++ "/" ++ name) s1
            split
            · rename_i s2 heq2
              exact Outcome.returns_done (h1.later_trans (hp _ _ heq2))
            · rename_i s2 heq2
              exact fun value t h => (h1.later_trans (hp _ _ heq2)).later_trans (ih _ _ _ value t h)
            · rename_i result s2 _ _ heq2
              exact fun value t h => (h1.later_trans (hp _ _ heq2)).later_trans (ih _ _ _ value t h)
            · exact Outcome.returns_pending
            · exact Outcome.returns_undefined
        · exact fun value t h => h1.later_trans (ih _ _ _ value t h)
        · split
          · rename_i u s2 heq2
            exact fun value t h =>
              (h1.later_trans (settingsMenu_reads _ _ _ heq2)).later_trans (ih _ _ _ value t h)
          · exact Outcome.returns_pending
          · exact Outcome.returns_undefined
        · exact fun value t h => h1.later_trans (ih _ _ _ value t h)
      · exact Outcome.returns_pending
      · exact Outcome.returns_undefined

theorem fileBrowser_reads (s : Front) : (fileBrowser s).Returns fun _ t => s.Later t :=
  fileBrowserLoop_reads _ _ _ s

theorem restart_reads (s : Front) : (restart s).Returns fun _ t => s.Later t := by
  have hc := createCore_reads s
  unfold restart
  split
  · rename_i s1 heq
    have h1 : s.Later s1 := hc _ _ heq
    exact Outcome.returns_done ⟨h1.1, h1.2⟩
  · rename_i s1 heq
    have hb := fileBrowser_reads s1
    split
    · rename_i u s2 heq2
      have h2 : s.Later s2 := (hc _ _ heq).later_trans (hb _ _ heq2)
      exact Outcome.returns_done ⟨h2.1, h2.2⟩
    · exact Outcome.returns_pending
    · exact Outcome.returns_undefined
  · exact Outcome.returns_pending
  · exact Outcome.returns_undefined

theorem pauseMenuLoop_reads (fuel selection : Nat) (s : Front) :
    (pauseMenuLoop fuel selection s).Returns fun _ t => s.Later t := by
  induction fuel generalizing selection s with
  | zero => exact Outcome.returns_pending
  | succ fuel ih =>
    unfold pauseMenuLoop
    split
    · rename_i pressed selection1 s1 heq
      have h1 : s.Later s1 :=
        ⟨Nat.le_of_lt (menu_reads _ _ _ _ _ heq).1, (menu_reads _ _ _ _ _ heq).2⟩
      split_ifs
      · split
        · exact Outcome.returns_done ⟨h1.1, h1.2⟩
        · exact fun value t h => h1.later_trans (restart_reads s1 value t h)
        · split
          · rename_i s2 heq2
            exact fun value t h =>
              (h1.later_trans (saveTypeMenu_reads _ _ _ heq2)).later_trans (restart_reads s2 value t h)
          · rename_i s2 heq2
            exact fun value t h =>
              (h1.later_trans (saveTypeMenu_reads _ _ _ heq2)).later_trans (ih _ _ value t h)
          · exact Outcome.returns_pending
          · exact Outcome.returns_undefined
        · split
          · rename_i u s2 heq2
            exact fun value t h =>
              (h1.later_trans (settingsMenu_reads _ _ _ heq2)).later_trans (ih _ _ value t h)
          · exact Outcome.returns_pending
          · exact Outcome.returns_undefined
        · have hb := fileBrowser_reads s1
          split
          · rename_i u s2 heq2
            have h2 : s.Later s2 := h1.later_trans (hb _ _ heq2)
            exact Outcome.returns_done ⟨h2.1, h2.2⟩
          · exact Outcome.returns_pending
          · exact Outcome.returns_undefined
        · exact fun value t h => h1.later_trans (ih _ _ value t h)
      · exact Outcome.returns_done ⟨h1.1, h1.2⟩
      · exact fun value t h => h1.later_trans (ih _ _ value t h)
    · exact Outcome.returns_pending
    · exact Outcome.returns_undefined

theorem pauseMenu_reads (s : Front) : (pauseMenu s).Returns fun _ t => s.Later t :=
  pauseMenuLoop_reads _ _ (stopCore s)

theorem fuel_left {s t : Front} {fuel : Nat} (ht : t.polls.length < s.polls.length)
    (hs : s.polls.length < fuel + 1) : t.polls.length < fuel := by
  omega

theorem fuel_left_later {s t u : Front} {fuel : Nat} (ht : t.polls.length < s.polls.length)
    (hu : t.Later u) (hs : s.polls.length < fuel + 1) : u.polls.length < fuel := by
  have := hu.1
  omega

theorem settingsMenuLoop_fuel (fuel fuel2 selection : Nat) (s : Front)
    (h1 : s.polls.length < fuel) (h2 : s.polls.length < fuel2) :
    settingsMenuLoop fuel selection s = settingsMenuLoop fuel2 selection s := by
  induction fuel generalizing fuel2 selection s with
  | zero => exact absurd h1 (Nat.not_lt_zero _)
  | succ fuel ih =>
    cases fuel2 with
    | zero => exact absurd h2 (Nat.not_lt_zero _)
    | succ fuel2 =>
      unfold settingsMenuLoop
      split
      · rfl
      · split
        · rename_i pressed selection1 s1 heq
          have hlt := (menu_reads _ _ _ _ _ heq).1
          split_ifs
          · exact ih _ _ _ (fuel_left hlt h1) (fuel_left hlt h2)
          · rfl
          · exact ih _ _ _ (fuel_left hlt h1) (fuel_left hlt h2)
        · rfl
        · rfl

theorem saveTypeMenuLoop_fuel (fuel fuel2 : Nat) (items : List String) (selection : Nat)
    (s : Front) (h1 : s.polls.length < fuel) (h2 : s.polls.length < fuel2) :
    saveTypeMenuLoop fuel items selection s = saveTypeMenuLoop fuel2 items selection s := by
  induction fuel generalizing fuel2 selection s with
  | zero => exact absurd h1 (Nat.not_lt_zero _)
  | succ fuel ih =>
    cases fuel2 with
    | zero => exact absurd h2 (Nat.not_lt_zero _)
    | succ fuel2 =>
      unfold saveTypeMenuLoop
      split
      · rename_i pressed selection1 s1 heq
        have hlt := (menu_reads _ _ _ _ _ heq).1
        split_ifs
        · split
          · rename_i sure s2 heq2
            have hm := message_reads _ _ _ _ _ heq2
            split_ifs
            · exact ih _ _ _ (fuel_left_later hlt hm h1) (fuel_left_later hlt hm h2)
            · rfl
          · rfl
          · rfl
        · rfl
        · exact ih _ _ _ (fuel_left hlt h1) (fuel_left hlt h2)
      · rfl
      · rfl

theorem fileBrowserLoop_fuel (fuel fuel2 : Nat) (path : String) (selection : Nat) (s : Front)
    (h1 : s.polls.length < fuel) (h2 : s.polls.length < fuel2) :
    fileBrowserLoop fuel path selection s = fileBrowserLoop fuel2 path selection s := by
  induction fuel generalizing fuel2 path selection s with
  | zero => exact absurd h1 (Nat.not_lt_zero _)
  | succ fuel ih =>
    cases fuel2 with
    | zero => exact absurd h2 (Nat.not_lt_zero _)
    | succ fuel2 =>
      unfold fileBrowserLoop
      split
      · rfl
      · split
        · rename_i pressed selection1 s1 heq
          have hlt : s1.polls.length < s.polls.length := (menu_reads _ _ _ _ _ heq).1
          split_ifs
          · split
            · rfl
            · rename_i name hname
              split
              · rfl
              · rename_i s2 heq2
                have hp := setPath_reads _ _ _ _ heq2
                exact ih _ _ _ _ (fuel_left_later hlt hp h1) (fuel_left_later hlt hp h2)
              · rename_i result s2 _ _ heq2
                have hp := setPath_reads _ _ _ _ heq2
                exact ih _ _ _ _ (fuel_left_later hlt hp h1) (fuel_left_later hlt hp h2)
              · rfl
              · rfl
          · exact ih _ _ _ _ (fuel_left hlt h1) (fuel_left hlt h2)
          · split
            · rename_i u s2 heq2
              have hp := settingsMenu_reads _ _ _ heq2
              exact ih _ _ _ _ (fuel_left_later hlt hp h1) (fuel_left_later hlt hp h2)
            · rfl
            · rfl
          · exact ih _ _ _ _ (fuel_left hlt h1) (fuel_left hlt h2)
        · rfl
        · rfl

theorem pauseMenuLoop_fuel (fuel fuel2 selection : Nat) (s : Front)
    (h1 : s.polls.length < fuel) (h2 : s.polls.length < fuel2) :
    pauseMenuLoop fuel selection s = pauseMenuLoop fuel2 selection s := by
  induction fuel generalizing fuel2 selection s with
  | zero => exact absurd h1 (Nat.not_lt_zero _)
  | succ fuel ih =>
    cases fuel2 with
    | zero => exact absurd h2 (Nat.not_lt_zero _)
    | succ fuel2 =>
      unfold pauseMenuLoop
      split
      · rename_i pressed selection1 s1 heq
        have hlt : s1.polls.length < s.polls.length := (menu_reads _ _ _ _ _ heq).1
        split_ifs
        · split
          · rfl
          · rfl
          · split
            · rfl
            · rename_i s2 heq2
              have hp := saveTypeMenu_reads _ _ _ heq2
              exact ih _ _ _ (fuel_left_later hlt hp h1) (fuel_left_later hlt hp h2)
            · rfl
            · rfl
          · split
            · rename_i u s2 heq2
              have hp := settingsMenu_reads _ _ _ heq2
              exact ih _ _ _ (fuel_left_later hlt hp h1) (fuel_left_later hlt hp h2)
            · rfl
            · rfl
          · rfl
          · exact ih _ _ _ (fuel_left hlt h1) (fuel_left hlt h2)
        · rfl
        · exact ih _ _ _ (fuel_left hlt h1) (fuel_left hlt h2)
      · rfl
      · rfl

theorem mainLoop_fuel (fuel fuel2 : Nat) (s : Front) (h1 : s.sticks.length < fuel)
    (h2 : s.sticks.length < fuel2) : mainLoop fuel s = mainLoop fuel2 s := by
  induction fuel generalizing fuel2 s with
  | zero => exact absurd h1 (Nat.not_lt_zero _)
  | succ fuel ih =>
    cases fuel2 with
    | zero => exact absurd h2 (Nat.not_lt_zero _)
    | succ fuel2 =>
      unfold mainLoop
      split
      · rfl
      · rename_i down later hsticks
        rw [hsticks, List.length_cons] at h1 h2
        split_ifs
        · split
          · rename_i u s1 heq
            have hp : s1.sticks = later := (pauseMenu_reads _ _ _ heq).2
            exact ih _ _ (by rw [hp]; exact Nat.lt_of_succ_lt_succ h1)
              (by rw [hp]; exact Nat.lt_of_succ_lt_succ h2)
          · rfl
          · rfl
        · exact ih _ _ (Nat.lt_of_succ_lt_succ h1) (Nat.lt_of_succ_lt_succ h2)

/-! ## Theorems: the contract of `createCore` and the start of the workers -/

theorem createCore_result (s : Front) (result : Bool) (t : Front)
    (h : createCore s = .done result t) :
    (result = true ↔ s.constructs.head? = some none) ∧
    (result = false ↔ ∃ e, s.constructs.head? = some (some e)) ∧
    (result = true → t.core = .valid) ∧ (result = false → t.core = .null) := by
  unfold createCore at h
  by_cases hd : s.core = .deleted
  · rw [if_pos hd] at h
    cases h
  · rw [if_neg hd] at h
    split at h
    · cases h
    · rename_i r later hc
      dsimp only at h
      split at h
      · cases h
        rw [hc]
        exact ⟨⟨fun _ => rfl, fun _ => rfl⟩, ⟨fun h => (by cases h), fun ⟨e, he⟩ => (by cases he)⟩,
          fun _ => rfl, fun h => (by cases h)⟩
      · rename_i e
        split at h
        · cases h
          rw [hc]
          exact ⟨⟨fun h => (by cases h), fun h => (by cases h)⟩, ⟨fun _ => ⟨e, rfl⟩, fun _ => rfl⟩,
            fun h => (by cases h), fun _ => rfl⟩
        · cases h
        · cases h

theorem createCore_constructed (s : Front) (later : List (Option CoreError))
    (hd : s.core ≠ .deleted) (hc : s.constructs = none :: later) :
    createCore s = .done true
      { s with
        core := .valid
        constructs := later
        trace := .createCore true :: .newCore s.ndsPath s.gbaPath :: s.trace } := by
  unfold createCore
  rw [if_neg hd, hc]

theorem createCore_failed (s : Front) (e : CoreError) (later : List (Option CoreError))
    (pressed : Nat) (rest : List Nat) (hd : s.core ≠ .deleted)
    (hc : s.constructs = some e :: later)
    (hm : message s.confirmButton s.polls = .returned pressed rest) :
    createCore s = .done false
      { s with
        core := .null
        constructs := later
        polls := rest
        trace := .createCore false :: .message (errorText e) ::
          .newCore s.ndsPath s.gbaPath :: s.trace } := by
  unfold createCore
  rw [if_neg hd, hc]
  dsimp only
  unfold Front.message
  dsimp only
  rw [hm]

/-- C11: `createCore` returns true exactly when the construction of the core succeeds, and
then `core` points to the new core; it returns false exactly when the construction throws
one of `ERROR_BIOS`, `ERROR_FIRM`, `ERROR_ROM`, and then `core` is null; given a core that is
constructed it does return true, and given an error it returns false once the message is
confirmed. Along every run of `main`, for every button assignment, argument line, sequence
of polls, construction results, directory listings and stick positions, every `startCore`
is called with `core` pointing to a core and after a `createCore` of which the most recent
one returned true; `setPath` returns 2 only in such a state, `fileBrowser` returns only in
such a state, and `pauseMenu`, entered in such a state, returns only in such a state. The
last part is a run in which two loads fail and each `startCore` follows a load that
succeeded. -/
theorem startCore_only_after_createCore_succeeded :
    (∀ (s : Front) (result : Bool) (t : Front), createCore s = .done result t →
      (result = true ↔ s.constructs.head? = some none) ∧
      (result = false ↔ ∃ e, s.constructs.head? = some (some e)) ∧
      (result = true → t.core = .valid) ∧ (result = false → t.core = .null)) ∧
    (∀ (s : Front) (later : List (Option CoreError)), s.core ≠ .deleted →
      s.constructs = none :: later → ∃ t, createCore s = .done true t ∧ t.core = .valid) ∧
    (∀ (s : Front) (e : CoreError) (later : List (Option CoreError)) (pressed : Nat)
      (rest : List Nat), s.core ≠ .deleted → s.constructs = some e :: later →
      message s.confirmButton s.polls = .returned pressed rest →
      ∃ t, createCore s = .done false t ∧ t.core = .null ∧
        t.trace = .createCore false :: .message (errorText e) ::
          .newCore s.ndsPath s.gbaPath :: s.trace) ∧
    (∀ (assign : Int) (args : Option String) (s : Front), startsChecked s.trace = true →
      startsChecked (main assign args s).state.trace = true) ∧
    (∀ (path : String) (s : Front), startsChecked s.trace = true →
      (setPath path s).Holds fun result t => result ≤ 2 ∧ (result = 2 → t.Ready)) ∧
    (∀ s : Front, startsChecked s.trace = true → (fileBrowser s).Holds fun _ t => t.Ready) ∧
    (∀ s : Front, startsChecked s.trace = true → s.Ready →
      (pauseMenu s).Holds fun _ t => t.Ready) ∧
    (main 1 (some "ux0:/game.nds\n") exampleFront).state.trace.reverse =
      [.newCore "ux0:/game.nds" "", .message (errorText .ERROR_ROM), .createCore false,
       .menu "NooDS" "ux0:", .newCore "ux0:/game.nds" "", .createCore true, .layoutUpdate,
       .startCore .valid, .stopCore, .menu "NooDS" "", .newCore "ux0:/game.nds" "",
       .message (errorText .ERROR_BIOS), .createCore false, .menu "NooDS" "ux0:",
       .message "Load the previous NDS ROM alongside this ROM?", .newCore "" "ux0:/a.gba",
       .createCore true, .startCore .valid] := by
  refine ⟨createCore_result, ?_, ?_, main_checked, setPath_holds, fileBrowser_holds,
    pauseMenu_holds, ?_⟩
  · intro s later hd hc
    exact ⟨_, createCore_constructed s later hd hc, rfl⟩
  · intro s e later pressed rest hd hc hm
    exact ⟨_, createCore_failed s e later pressed rest hd hc hm, rfl, rfl⟩
  · with_unfolding_all rfl

/-! ## Theorems: sub-item rows -/

theorem menuSubitemRows_getElem? (textWidth : String → Int) (items subitems : List String)
    (selection y i : Nat) (hi : i < menuVisible items.length) :
    (menuSubitemRows textWidth items subitems selection y)[i]? =
      some { x := (subitems[i]?).map fun sub => wrapInt32 (955 - textWidth sub),
             y := addUInt32 y (i * 20 % 4294967296),
             color := rowColor selection (menuOffset items.length selection) i,
             text := subitems[addUInt32 i (menuOffset items.length selection)]? } := by
  unfold menuSubitemRows
  rw [List.getElem?_map, List.getElem?_range hi]
  rfl

theorem menuOffset_of_short (size selection : Nat) (hsize : size ≤ 24) :
    menuOffset size selection = 0 := by
  unfold menuOffset
  rw [if_neg (by omega)]

/-- What `menu` does with sub-items for any list: on every visible row `i` the text drawn is
`subitems[i + offset]` and the width subtracted from 955 is that of `subitems[i]`. With
offset 0, which is the case for every list of at most 24 items, the two are the same string
and the right edge `x + width` is 955. For a list of more than 24 rows, which no caller of
`menu` passes together with sub-items, they differ: with 25 items and selection 12 the offset
is 1 and row 0 shows `subitems[1]`, 170 pixels wide in the example, at `x = 955 - 20`. -/
theorem subitem_rows_of_menu :
    (∀ (textWidth : String → Int) (items subitems : List String) (selection y i : Nat),
      i < menuVisible items.length →
      (menuSubitemRows textWidth items subitems selection y)[i]? =
        some { x := (subitems[i]?).map fun sub => wrapInt32 (955 - textWidth sub),
               y := addUInt32 y (i * 20 % 4294967296),
               color := rowColor selection (menuOffset items.length selection) i,
               text := subitems[addUInt32 i (menuOffset items.length selection)]? }) ∧
    (∀ (textWidth : String → Int) (items subitems : List String) (selection y i : Nat)
      (sub : String), i < menuVisible items.length →
      menuOffset items.length selection = 0 → subitems[i]? = some sub →
      0 ≤ textWidth sub → textWidth sub < 2147483648 →
      ∃ row, (menuSubitemRows textWidth items subitems selection y)[i]? = some row ∧
        row.text = some sub ∧ row.x = some (955 - textWidth sub) ∧
        (955 - textWidth sub) + textWidth sub = 955) ∧
    (∀ size selection : Nat, size ≤ 24 → menuOffset size selection = 0) ∧
    (∀ selection : Nat, menuOffset settingsItems.length selection = 0) ∧
    menuOffset exampleItems.length 12 = 1 ∧
    ((menuSubitemRows exampleTextWidth exampleItems exampleSubitems 12 60)[0]?).map
        (fun row => (row.x, row.text)) = some (some 935, some "Counter-Clockwise") ∧
    exampleTextWidth "On" = 20 ∧
    exampleTextWidth "Counter-Clockwise" = 170 ∧
    (935 : Int) + exampleTextWidth "Counter-Clockwise" = 1105 := by
  refine ⟨menuSubitemRows_getElem?, ?_, menuOffset_of_short, ?_, ?_, ?_, ?_, ?_, ?_⟩
  · intro textWidth items subitems selection y i sub hi hoff hsub hlo hhi
    have hvis : menuVisible items.length ≤ 24 := by
      unfold menuVisible
      omega
    have hidx : addUInt32 i 0 = i := addUInt32_of_lt i 0 (by omega)
    have hw : wrapInt32 (955 - textWidth sub) = 955 - textWidth sub :=
      wrapInt32_of_inRange _ (by omega) (by omega)
    refine ⟨_, menuSubitemRows_getElem? textWidth items subitems selection y i hi, ?_, ?_, ?_⟩
    · show subitems[addUInt32 i (menuOffset items.length selection)]? = some sub
      rw [hoff, hidx, hsub]
    · show (subitems[i]?).map (fun sub => wrapInt32 (955 - textWidth sub)) = _
      rw [hsub, Option.map_some', hw]
    · omega
  · intro selection
    exact menuOffset_of_short _ _ (by decide)
  · with_unfolding_all decide
  · with_unfolding_all rfl
  · with_unfolding_all decide
  · with_unfolding_all decide
  · with_unfolding_all decide

theorem findsExtension_iff (path extension : String) (hlen : path.length < 4294967296)
    (hext : extension.length = 4) :
    findsExtension path extension = true ↔ pathEndsIn path extension := by
  have hn : path.data.length < 4294967296 := hlen
  have h4 : extension.data.length = 4 := hext
  have hpos : 4 ≤ path.data.length → subUInt32 path.length 4 = path.data.length - 4 :=
    fun h => subUInt32_of_le _ _ h hlen
  have hwrap : path.data.length < 4 → path.data.length < subUInt32 path.length 4 := by
    intro h
    show path.data.length < subUInt32 path.data.length 4
    unfold subUInt32
    omega
  unfold findsExtension stringFind pathEndsIn
  rw [List.find?_isSome]
  constructor
  · rintro ⟨i, hi, hp⟩
    rw [List.mem_range] at hi
    rw [Bool.and_eq_true, decide_eq_true_eq, List.isPrefixOf_iff_prefix] at hp
    obtain ⟨hle, hpre⟩ := hp
    have hlen2 := hpre.length_le
    rw [List.length_drop, h4] at hlen2
    by_cases hshort : path.data.length < 4
    · exact absurd hlen2 (by omega)
    · have hsub := hpos (by omega)
      rw [hsub] at hle
      have hi4 : i = path.data.length - 4 := by omega
      obtain ⟨rest, hrest⟩ := hpre
      have hrl : rest.length = 0 := by
        have := congrArg List.length hrest
        rw [List.length_append, List.length_drop, h4] at this
        omega
      have hnil : rest = [] := List.length_eq_zero.mp hrl
      rw [hnil, List.append_nil] at hrest
      refine ⟨path.data.take i, ?_⟩
      rw [hrest, List.take_append_drop]
  · rintro ⟨front, hfront⟩
    have hl : path.data.length = front.length + 4 := by
      rw [← hfront, List.length_append, h4]
    refine ⟨front.length, ?_, ?_⟩
    · rw [List.mem_range]
      show front.length < path.data.length + 1
      omega
    · rw [Bool.and_eq_true, decide_eq_true_eq, List.isPrefixOf_iff_prefix]
      constructor
      · rw [hpos (by omega)]
        omega
      · rw [← hfront, List.drop_left]

theorem message_createCoreCalls (s : Front) (text : String) (buttonMask : Nat) :
    (s.message text buttonMask).Returns fun _ t =>
      createCoreCalls t.trace = createCoreCalls s.trace := by
  unfold Front.message
  split
  · exact Outcome.returns_done rfl
  · exact Outcome.returns_pending

theorem createCore_createCoreCalls (s : Front) :
    (createCore s).Returns fun _ t =>
      createCoreCalls t.trace = createCoreCalls s.trace + 1 := by
  unfold createCore
  by_cases hd : s.core = .deleted
  · rw [if_pos hd]
    exact Outcome.returns_undefined
  · rw [if_neg hd]
    split
    · exact Outcome.returns_pending
    · dsimp only
      split
      · exact Outcome.returns_done rfl
      · split
        · rename_i pressed s2 heq
          have h2 := message_createCoreCalls _ _ _ _ _ heq
          exact Outcome.returns_done (congrArg (· + 1) h2)
        · exact Outcome.returns_pending
        · exact Outcome.returns_undefined

theorem setPath_calls_createCore (path : String) (s : Front)
    (hext : findsExtension path ".nds" = true ∨ findsExtension path ".gba" = true) :
    (setPath path s).Returns fun result t =>
      ∃ s1 b s2, createCore s1 = Outcome.done b s2 ∧
        (findsExtension path ".nds" = true → s1.ndsPath = path) ∧
        (¬findsExtension path ".nds" = true → s1.gbaPath = path) ∧
        createCoreCalls t.trace = createCoreCalls s.trace + 1 ∧
        (b = true → result = 2 ∧ t = s2) ∧
        (b = false → result = 1 ∧
          (findsExtension path ".nds" = true → t = { s2 with ndsPath := "" }) ∧
          (¬findsExtension path ".nds" = true → t = { s2 with gbaPath := "" })) := by
  have hcreate : ∀ (asked : Outcome Unit) (set clear : Front → Front),
      (asked.Returns fun _ t => createCoreCalls t.trace = createCoreCalls s.trace) →
      (∀ t : Front, createCoreCalls (set t).trace = createCoreCalls t.trace) →
      (∀ t : Front, createCoreCalls (clear t).trace = createCoreCalls t.trace) →
      (match asked with
        | .done _ s1 =>
          match createCore (set s1) with
          | .done true s2 => Outcome.done 2 s2
          | .done false s2 => Outcome.done 1 (clear s2)
          | .pending s2 => Outcome.pending s2
          | .undefined s2 => Outcome.undefined s2
        | .pending s1 => .pending s1
        | .undefined s1 => .undefined s1).Returns fun result t =>
          ∃ s0 b s2, createCore (set s0) = Outcome.done b s2 ∧
            createCoreCalls t.trace = createCoreCalls s.trace + 1 ∧
            (b = true → result = 2 ∧ t = s2) ∧ (b = false → result = 1 ∧ t = clear s2) := by
    intro asked set clear h1 hset hclear
    cases asked with
    | done u s1 =>
      have hs1 : createCoreCalls (set s1).trace = createCoreCalls s.trace :=
        (hset s1).trans (h1 _ _ rfl)
      have hc := createCore_createCoreCalls (set s1)
      dsimp only
      split
      · rename_i s2 heq
        exact Outcome.returns_done ⟨s1, true, s2, heq, (hc _ _ heq).trans (by rw [hs1]),
          fun _ => ⟨rfl, rfl⟩, fun h => (by cases h)⟩
      · rename_i s2 heq
        exact Outcome.returns_done ⟨s1, false, s2, heq,
          (hclear s2).trans ((hc _ _ heq).trans (by rw [hs1])),
          fun h => (by cases h), fun _ => ⟨rfl, rfl⟩⟩
      · exact Outcome.returns_pending
      · exact Outcome.returns_undefined
    | pending s1 => exact Outcome.returns_pending
    | undefined s1 => exact Outcome.returns_undefined
  have hasked : ∀ (ask : Prop) [Decidable ask] (text : String) (clear : Front → Front),
      (∀ t : Front, createCoreCalls (clear t).trace = createCoreCalls t.trace) →
      (if ask then
          match s.message text (s.confirmButton ||| s.cancelButton) with
          | .done pressed s1 =>
            Outcome.done () (if pressed &&& s1.confirmButton = 0 then clear s1 else s1)
          | .pending s1 => .pending s1
          | .undefined s1 => .undefined s1
        else Outcome.done () s).Returns fun _ t =>
          createCoreCalls t.trace = createCoreCalls s.trace := by
    intro ask _ text clear hclear
    have hm := message_createCoreCalls s text (s.confirmButton ||| s.cancelButton)
    by_cases hask : ask
    · rw [if_pos hask]
      split
      · rename_i pressed s1 heq
        have h1 := hm _ _ heq
        by_cases hp : pressed &&& s1.confirmButton = 0
        · rw [if_pos hp]
          exact Outcome.returns_done ((hclear s1).trans h1)
        · rw [if_neg hp]
          exact Outcome.returns_done h1
      · exact Outcome.returns_pending
      · exact Outcome.returns_undefined
    · rw [if_neg hask]
      exact Outcome.returns_done rfl
  unfold setPath
  by_cases hnds : findsExtension path ".nds" = true
  · rw [if_pos hnds]
    have key := hcreate _ (fun t => { t with ndsPath := path })
      (fun t => { t with ndsPath := "" })
      (hasked (s.gbaPath ≠ "") "Load the previous GBA ROM alongside this ROM?"
        (fun t => { t with gbaPath := "" }) (fun _ => rfl)) (fun _ => rfl) (fun _ => rfl)
    intro result t h
    obtain ⟨s0, b, s2, hc, hcount, hb, hf⟩ := key result t h
    exact ⟨_, b, s2, hc, fun _ => rfl, fun hn => absurd hnds hn, hcount, hb,
      fun hb2 => ⟨(hf hb2).1, fun _ => (hf hb2).2, fun hn => absurd hnds hn⟩⟩
  · rw [if_neg hnds]
    have hgba : findsExtension path ".gba" = true := hext.resolve_left hnds
    rw [if_pos hgba]
    have key := hcreate _ (fun t => { t with gbaPath := path })
      (fun t => { t with gbaPath := "" })
      (hasked (s.ndsPath ≠ "") "Load the previous NDS ROM alongside this ROM?"
        (fun t => { t with ndsPath := "" }) (fun _ => rfl)) (fun _ => rfl) (fun _ => rfl)
    intro result t h
    obtain ⟨s0, b, s2, hc, hcount, hb, hf⟩ := key result t h
    exact ⟨_, b, s2, hc, fun hy => absurd hy hnds, fun _ => rfl, hcount, hb,
      fun hb2 => ⟨(hf hb2).1, fun hy => absurd hy hnds, fun _ => (hf hb2).2⟩⟩

theorem setPath_other (path : String) (s : Front) (hnds : ¬findsExtension path ".nds" = true)
    (hgba : ¬findsExtension path ".gba" = true) : setPath path s = .done 0 s := by
  unfold setPath
  rw [if_neg hnds, if_neg hgba]

theorem pathEndsIn_exclusive (path : String) (hnds : pathEndsIn path ".nds")
    (hgba : pathEndsIn path ".gba") : False := by
  unfold pathEndsIn at hnds hgba
  rw [List.suffix_iff_eq_drop] at hnds hgba
  have h : ".nds".data = ".gba".data := hnds.trans hgba.symm
  exact absurd h (by decide)

theorem setPath_loads (path : String) (s : Front) (later : List (Option CoreError))
    (hnds : findsExtension path ".nds" = true) (hgba : s.gbaPath = "")
    (hd : s.core ≠ .deleted) (hc : s.constructs = none :: later) :
    setPath path s = .done 2
      { s with
        ndsPath := path
        core := .valid
        constructs := later
        trace := .createCore true :: .newCore path s.gbaPath :: s.trace } := by
  unfold setPath
  rw [if_pos hnds, if_neg (fun h => h hgba)]
  dsimp only
  rw [createCore_constructed { s with ndsPath := path } later hd hc]

theorem setPath_fails (path : String) (s : Front) (e : CoreError)
    (later : List (Option CoreError)) (pressed : Nat) (rest : List Nat)
    (hnds : findsExtension path ".nds" = true) (hgba : s.gbaPath = "")
    (hd : s.core ≠ .deleted) (hc : s.constructs = some e :: later)
    (hm : message s.confirmButton s.polls = .returned pressed rest) :
    setPath path s = .done 1
      { s with
        ndsPath := ""
        core := .null
        constructs := later
        polls := rest
        trace := .createCore false :: .message (errorText e) ::
          .newCore path s.gbaPath :: s.trace } := by
  unfold setPath
  rw [if_pos hnds, if_neg (fun h => h hgba)]
  dsimp only
  rw [createCore_failed { s with ndsPath := path } e later pressed rest hd hc hm]

theorem afterQuestion_keeps (other text : String) (clear : Front → Front) (s s1 : Front)
    (hclear : ∀ t : Front, (clear t).core = t.core ∧ (clear t).constructs = t.constructs)
    (h : afterQuestion other text clear s s1) :
    s1.core = s.core ∧ s1.constructs = s.constructs := by
  rcases h with ⟨-, h1⟩ | ⟨-, pressed, rest, -, h1⟩
  · subst h1
    exact ⟨rfl, rfl⟩
  · by_cases hp : pressed &&& s.confirmButton = 0
    · rw [if_pos hp] at h1
      subst h1
      exact hclear _
    · rw [if_neg hp] at h1
      subst h1
      exact ⟨rfl, rfl⟩

theorem setPath_returns_nds (path : String) (s s1 : Front) (b : Bool) (s2 : Front)
    (hnds : findsExtension path ".nds" = true)
    (hasked : afterQuestion s.gbaPath "Load the previous GBA ROM alongside this ROM?"
      (fun t => { t with gbaPath := "" }) s s1)
    (hc : createCore { s1 with ndsPath := path } = .done b s2) :
    setPath path s =
      .done (if b = true then 2 else 1) (if b = true then s2 else { s2 with ndsPath := "" }) := by
  unfold setPath
  rw [if_pos hnds]
  rcases hasked with ⟨hempty, h1⟩ | ⟨hne, pressed, rest, hm, h1⟩
  · subst h1
    rw [if_neg (fun h => h hempty)]
    dsimp only
    rw [hc]
    cases b <;> rfl
  · rw [if_pos hne]
    unfold Front.message
    rw [hm]
    dsimp only
    by_cases hp : pressed &&& s.confirmButton = 0
    · rw [if_pos hp] at h1
      subst h1
      rw [if_pos hp]
      dsimp only at hc
      rw [hc]
      cases b <;> rfl
    · rw [if_neg hp] at h1
      subst h1
      rw [if_neg hp, hc]
      cases b <;> rfl

theorem setPath_returns_gba (path : String) (s s1 : Front) (b : Bool) (s2 : Front)
    (hnds : ¬findsExtension path ".nds" = true) (hgba : findsExtension path ".gba" = true)
    (hasked : afterQuestion s.ndsPath "Load the previous NDS ROM alongside this ROM?"
      (fun t => { t with ndsPath := "" }) s s1)
    (hc : createCore { s1 with gbaPath := path } = .done b s2) :
    setPath path s =
      .done (if b = true then 2 else 1) (if b = true then s2 else { s2 with gbaPath := "" }) := by
  unfold setPath
  rw [if_neg hnds, if_pos hgba]
  rcases hasked with ⟨hempty, h1⟩ | ⟨hne, pressed, rest, hm, h1⟩
  · subst h1
    rw [if_neg (fun h => h hempty)]
    dsimp only
    rw [hc]
    cases b <;> rfl
  · rw [if_pos hne]
    unfold Front.message
    rw [hm]
    dsimp only
    by_cases hp : pressed &&& s.confirmButton = 0
    · rw [if_pos hp] at h1
      subst h1
      rw [if_pos hp]
      dsimp only at hc
      rw [hc]
      cases b <;> rfl
    · rw [if_neg hp] at h1
      subst h1
      rw [if_neg hp, hc]
      cases b <;> rfl

/-- C22: `setPath` classifies a path (of a length that fits `size_t`) by its extension. The
tests `path.find(".nds", path.length() - 4) != npos` and the one for `.gba` hold exactly when
the path ends in these four characters, so never for a path shorter than four characters.
If the path ends in neither, `setPath` returns 0 at once with the state as it was, and it
returns 0 in no other case. If it ends in one of them, a call that returns has called
`createCore` exactly once, with the path stored in `ndsPath` (for `.nds`) or `gbaPath` (for
`.gba`); it returns 2 if `createCore` returned true and 1 if it returned false, and in the
second case the path just stored is the empty string again. With no GBA path set, an
`.nds` path does return: 2 when the core is constructed, 1 when the construction throws and
the message is confirmed. In general the call returns for an `.nds` path and for a `.gba`
path alike, whether or not the other ROM is set: from the state `s1` that follows the
question about the other ROM (`afterQuestion`: `s` itself when nothing is asked, else the
state after the answer), once `createCore` has returned `b` the call returns 2 or 1 as `b` is
true or false; and it does so whenever the core is not deleted: 2 with a valid core and the
path stored when the construction succeeds, 1 with a null core and the path empty again when
it throws and the error message is confirmed. -/
theorem setPath_classifies_by_extension (path : String) (s : Front)
    (hlen : path.length < 4294967296) :
    (findsExtension path ".nds" = true ↔ pathEndsIn path ".nds") ∧
    (findsExtension path ".gba" = true ↔ pathEndsIn path ".gba") ∧
    (path.length < 4 → ¬pathEndsIn path ".nds" ∧ ¬pathEndsIn path ".gba") ∧
    (¬pathEndsIn path ".nds" → ¬pathEndsIn path ".gba" → setPath path s = .done 0 s) ∧
    (∀ t, setPath path s = .done 0 t →
      ¬pathEndsIn path ".nds" ∧ ¬pathEndsIn path ".gba" ∧ t = s) ∧
    (pathEndsIn path ".nds" ∨ pathEndsIn path ".gba" →
      ∀ result t, setPath path s = .done result t →
        ∃ s1 b s2, createCore s1 = Outcome.done b s2 ∧
          (pathEndsIn path ".nds" → s1.ndsPath = path) ∧
          (pathEndsIn path ".gba" → s1.gbaPath = path) ∧
          createCoreCalls t.trace = createCoreCalls s.trace + 1 ∧
          (b = true → result = 2 ∧ t = s2) ∧
          (b = false → result = 1 ∧
            (pathEndsIn path ".nds" → t = { s2 with ndsPath := "" }) ∧
            (pathEndsIn path ".gba" → t = { s2 with gbaPath := "" }))) ∧
    (pathEndsIn path ".nds" → s.gbaPath = "" → s.core ≠ .deleted →
      (∀ later, s.constructs = none :: later →
        ∃ t, setPath path s = .done 2 t ∧ t.ndsPath = path ∧ t.core = .valid) ∧
      (∀ e later pressed rest, s.constructs = some e :: later →
        message s.confirmButton s.polls = .returned pressed rest →
        ∃ t, setPath path s = .done 1 t ∧ t.ndsPath = "" ∧ t.core = .null)) ∧
    (pathEndsIn path ".nds" → ∀ s1,
      afterQuestion s.gbaPath "Load the previous GBA ROM alongside this ROM?"
        (fun t => { t with gbaPath := "" }) s s1 →
      (∀ b s2, createCore { s1 with ndsPath := path } = Outcome.done b s2 →
        setPath path s = .done (if b = true then 2 else 1)
          (if b = true then s2 else { s2 with ndsPath := "" })) ∧
      (s.core ≠ .deleted →
        (∀ later, s.constructs = none :: later →
          ∃ t, setPath path s = .done 2 t ∧ t.ndsPath = path ∧ t.gbaPath = s1.gbaPath ∧
            t.core = .valid) ∧
        (∀ e later pressed rest, s.constructs = some e :: later →
          message s1.confirmButton s1.polls = .returned pressed rest →
          ∃ t, setPath path s = .done 1 t ∧ t.ndsPath = "" ∧ t.gbaPath = s1.gbaPath ∧
            t.core = .null))) ∧
    (pathEndsIn path ".gba" → ∀ s1,
      afterQuestion s.ndsPath "Load the previous NDS ROM alongside this ROM?"
        (fun t => { t with ndsPath := "" }) s s1 →
      (∀ b s2, createCore { s1 with gbaPath := path } = Outcome.done b s2 →
        setPath path s = .done (if b = true then 2 else 1)
          (if b = true then s2 else { s2 with gbaPath := "" })) ∧
      (s.core ≠ .deleted →
        (∀ later, s.constructs = none :: later →
          ∃ t, setPath path s = .done 2 t ∧ t.gbaPath = path ∧ t.ndsPath = s1.ndsPath ∧
            t.core = .valid) ∧
        (∀ e later pressed rest, s.constructs = some e :: later →
          message s1.confirmButton s1.polls = .returned pressed rest →
          ∃ t, setPath path s = .done 1 t ∧ t.gbaPath = "" ∧ t.ndsPath = s1.ndsPath ∧
            t.core = .null))) := by
  have hn := findsExtension_iff path ".nds" hlen rfl
  have hg := findsExtension_iff path ".gba" hlen rfl
  have hcalls : pathEndsIn path ".nds" ∨ pathEndsIn path ".gba" →
      ∀ result t, setPath path s = .done result t →
        ∃ s1 b s2, createCore s1 = Outcome.done b s2 ∧
          (pathEndsIn path ".nds" → s1.ndsPath = path) ∧
          (pathEndsIn path ".gba" → s1.gbaPath = path) ∧
          createCoreCalls t.trace = createCoreCalls s.trace + 1 ∧
          (b = true → result = 2 ∧ t = s2) ∧
          (b = false → result = 1 ∧
            (pathEndsIn path ".nds" → t = { s2 with ndsPath := "" }) ∧
            (pathEndsIn path ".gba" → t = { s2 with gbaPath := "" })) := by
    intro hext result t h
    have hext2 : findsExtension path ".nds" = true ∨ findsExtension path ".gba" = true :=
      hext.imp hn.mpr hg.mpr
    obtain ⟨s1, b, s2, hc, h1, h2, hcount, hb, hf⟩ :=
      setPath_calls_createCore path s hext2 result t h
    have hnot : pathEndsIn path ".gba" → ¬findsExtension path ".nds" = true :=
      fun hy hx => pathEndsIn_exclusive path (hn.mp hx) hy
    exact ⟨s1, b, s2, hc, fun hx => h1 (hn.mpr hx), fun hy => h2 (hnot hy), hcount, hb,
      fun hb2 => ⟨(hf hb2).1, fun hx => (hf hb2).2.1 (hn.mpr hx),
        fun hy => (hf hb2).2.2 (hnot hy)⟩⟩
  refine ⟨hn, hg, ?_, ?_, ?_, hcalls, ?_, ?_, ?_⟩
  · intro hshort
    have hl : path.data.length < 4 := hshort
    constructor
    · intro h
      have := h.length_le
      have h4 : ".nds".data.length = 4 := rfl
      omega
    · intro h
      have := h.length_le
      have h4 : ".gba".data.length = 4 := rfl
      omega
  · intro h1 h2
    exact setPath_other path s (fun h => h1 (hn.mp h)) (fun h => h2 (hg.mp h))
  · intro t h
    by_cases hext : pathEndsIn path ".nds" ∨ pathEndsIn path ".gba"
    · obtain ⟨s1, b, s2, -, -, -, -, hb, hf⟩ := hcalls hext 0 t h
      cases b with
      | true => exact absurd (hb rfl).1 (by decide)
      | false => exact absurd (hf rfl).1 (by decide)
    · have h1 : ¬pathEndsIn path ".nds" := fun hx => hext (Or.inl hx)
      have h2 : ¬pathEndsIn path ".gba" := fun hy => hext (Or.inr hy)
      have h0 := setPath_other path s (fun hx => h1 (hn.mp hx)) (fun hy => h2 (hg.mp hy))
      rw [h0] at h
      cases h
      exact ⟨h1, h2, rfl⟩
  · intro hx hgba hd
    constructor
    · intro later hc
      exact ⟨_, setPath_loads path s later (hn.mpr hx) hgba hd hc, rfl, rfl⟩
    · intro e later pressed rest hc hm
      exact ⟨_, setPath_fails path s e later pressed rest (hn.mpr hx) hgba hd hc hm, rfl, rfl⟩
  · intro hx s1 hasked
    have hk := afterQuestion_keeps s.gbaPath _ (fun t => { t with gbaPath := "" }) s s1
      (fun _ => ⟨rfl, rfl⟩) hasked
    refine ⟨fun b s2 hc => setPath_returns_nds path s s1 b s2 (hn.mpr hx) hasked hc,
      fun hd => ⟨?_, ?_⟩⟩
    · intro later hc
      have hd1 : ({ s1 with ndsPath := path } : Front).core ≠ .deleted := by
        show s1.core ≠ .deleted
        rw [hk.1]
        exact hd
      have hc1 : ({ s1 with ndsPath := path } : Front).constructs = none :: later := by
        show s1.constructs = none :: later
        rw [hk.2]
        exact hc
      have h := setPath_returns_nds path s s1 true _ (hn.mpr hx) hasked
        (createCore_constructed _ later hd1 hc1)
      rw [if_pos rfl, if_pos rfl] at h
      exact ⟨_, h, rfl, rfl, rfl⟩
    · intro e later pressed rest hc hm
      have hd1 : ({ s1 with ndsPath := path } : Front).core ≠ .deleted := by
        show s1.core ≠ .deleted
        rw [hk.1]
        exact hd
      have hc1 : ({ s1 with ndsPath := path } : Front).constructs = some e :: later := by
        show s1.constructs = some e :: later
        rw [hk.2]
        exact hc
      have h := setPath_returns_nds path s s1 false _ (hn.mpr hx) hasked
        (createCore_failed _ e later pressed rest hd1 hc1 hm)
      rw [if_neg Bool.false_ne_true, if_neg Bool.false_ne_true] at h
      exact ⟨_, h, rfl, rfl, rfl⟩
  · intro hy s1 hasked
    have hx : ¬findsExtension path ".nds" = true :=
      fun h => pathEndsIn_exclusive path (hn.mp h) hy
    have hk := afterQuestion_keeps s.ndsPath _ (fun t => { t with ndsPath := "" }) s s1
      (fun _ => ⟨rfl, rfl⟩) hasked
    refine ⟨fun b s2 hc => setPath_returns_gba path s s1 b s2 hx (hg.mpr hy) hasked hc,
      fun hd => ⟨?_, ?_⟩⟩
    · intro later hc
      have hd1 : ({ s1 with gbaPath := path } : Front).core ≠ .deleted := by
        show s1.core ≠ .deleted
        rw [hk.1]
        exact hd
      have hc1 : ({ s1 with gbaPath := path } : Front).constructs = none :: later := by
        show s1.constructs = none :: later
        rw [hk.2]
        exact hc
      have h := setPath_returns_gba path s s1 true _ hx (hg.mpr hy) hasked
        (createCore_constructed _ later hd1 hc1)
      rw [if_pos rfl, if_pos rfl] at h
      exact ⟨_, h, rfl, rfl, rfl⟩
    · intro e later pressed rest hc hm
      have hd1 : ({ s1 with gbaPath := path } : Front).core ≠ .deleted := by
        show s1.core ≠ .deleted
        rw [hk.1]
        exact hd
      have hc1 : ({ s1 with gbaPath := path } : Front).constructs = some e :: later := by
        show s1.constructs = some e :: later
        rw [hk.2]
        exact hc
      have h := setPath_returns_gba path s s1 false _ hx (hg.mpr hy) hasked
        (createCore_failed _ e later pressed rest hd1 hc1 hm)
      rw [if_neg Bool.false_ne_true, if_neg Bool.false_ne_true] at h
      exact ⟨_, h, rfl, rfl, rfl⟩

theorem setPath_classifies_by_extension_witness :
    setPath "ux0:/GAME.NDS" exampleFront = .done 0 exampleFront ∧
    setPath "nds" exampleFront = .done 0 exampleFront ∧
    (∃ t, setPath "ux0:/game.nds" { exampleFront with constructs := [none] } = .done 2 t ∧
      t.ndsPath = "ux0:/game.nds" ∧ t.core = .valid) ∧
    (∃ t, setPath "ux0:/a.gba"
        { exampleBrowse with ndsPath := "ux0:/game.nds", constructs := [none] } = .done 2 t ∧
      t.gbaPath = "ux0:/a.gba" ∧ t.ndsPath = "" ∧ t.core = .valid) ∧
    (∃ t, setPath "ux0:/a.gba"
        { exampleBrowse with ndsPath := "ux0:/game.nds" } = .done 1 t ∧
      t.gbaPath = "" ∧ t.ndsPath = "" ∧ t.core = .null) :=
  ⟨(setPath_classifies_by_extension "ux0:/GAME.NDS" exampleFront (by decide)).2.2.2.1
      (by decide) (by decide),
   (setPath_classifies_by_extension "nds" exampleFront (by decide)).2.2.2.1
      (by decide) (by decide),
   ((setPath_classifies_by_extension "ux0:/game.nds" { exampleFront with constructs := [none] }
      (by decide)).2.2.2.2.2.2.1 (by decide) rfl (by decide)).1 [] rfl,
   (((setPath_classifies_by_extension "ux0:/a.gba"
      { exampleBrowse with ndsPath := "ux0:/game.nds", constructs := [none] }
      (by decide)).2.2.2.2.2.2.2.2 (by decide)
      { exampleBrowse with
        ndsPath := ""
        constructs := [none]
        polls := [0, 0x40, 0, 0x4000, 0, 0x2000, 0, 0x40, 0, 0x4000, 0, 0x4000, 0, 0x4000,
          0, 0x4000]
        trace := [.message "Load the previous NDS ROM alongside this ROM?"] }
      (Or.inr ⟨by decide, 0x2000, _, by with_unfolding_all rfl, by with_unfolding_all rfl⟩)).2
      (by decide)).1 [] rfl,
   (((setPath_classifies_by_extension "ux0:/a.gba"
      { exampleBrowse with ndsPath := "ux0:/game.nds" }
      (by decide)).2.2.2.2.2.2.2.2 (by decide)
      { exampleBrowse with
        ndsPath := ""
        polls := [0, 0x40, 0, 0x4000, 0, 0x2000, 0, 0x40, 0, 0x4000, 0, 0x4000, 0, 0x4000,
          0, 0x4000]
        trace := [.message "Load the previous NDS ROM alongside this ROM?"] }
      (Or.inr ⟨by decide, 0x2000, _, by with_unfolding_all rfl, by with_unfolding_all rfl⟩)).2
      (by decide)).2 .ERROR_ROM [none] 0x4000 [0, 0x2000, 0, 0x40, 0, 0x4000, 0, 0x4000, 0,
        0x4000, 0, 0x4000] rfl (by with_unfolding_all rfl)⟩

/-! ## Theorems: the path taken from the arguments file -/

theorem argsPath_eq_dropLast (line : String) : argsPath line = ⟨line.data.dropLast⟩ := by
  unfold argsPath
  by_cases h : line.length = 0
  · have hnil : line.data = [] := List.length_eq_zero.mp h
    rw [if_pos h, hnil]
    rfl
  · rw [if_neg h, List.dropLast_eq_take]
    rfl

theorem argsPath_count (line : String) (hlen : line.length < 4294967296) :
    (if line.length = 0 then 0xFFFFFFFF else line.length - 1) = subUInt32 line.length 1 := by
  unfold subUInt32
  split_ifs with h
  · rw [h]
  · omega

theorem argsPath_push (path : String) (c : Char) : argsPath (path.push c) = path := by
  rw [argsPath_eq_dropLast]
  show (⟨(path.data ++ [c]).dropLast⟩ : String) = path
  rw [List.dropLast_concat]

/-- C23 fails on the code for a line without trailing whitespace. The path that `main` takes
from the line of `args.txt` is `path.substr(0, path.length() - 1)`: the line without its last
character, whatever that character is. For a line ending in a newline this drops the
newline and nothing else. For a line with no newline at its end, as `ux0:/game.nds` from a
file without a final newline, the last character of the name is dropped: the path is
`ux0:/game.nd`, `setPath` returns 0 for it, and `main` opens the file browser instead of
loading the ROM, while the same line with a newline loads it. A blank before the newline is
kept, and of `\r\n` only the `\n` is dropped. -/
theorem argsPath_drops_last_character :
    (∀ line : String, argsPath line = ⟨line.data.dropLast⟩) ∧
    (∀ line : String, line.length < 4294967296 →
      (if line.length = 0 then 0xFFFFFFFF else line.length - 1) = subUInt32 line.length 1) ∧
    (∀ path : String, argsPath (path ++ "\n") = path) ∧
    (∀ (path : String) (c : Char), argsPath (path.push c) = path) ∧
    argsPath "ux0:/game.nds\n" = "ux0:/game.nds" ∧
    argsPath "ux0:/game.nds" = "ux0:/game.nd" ∧
    argsPath "ux0:/game.nds \n" = "ux0:/game.nds " ∧
    argsPath "ux0:/game.nds\r\n" = "ux0:/game.nds\r" ∧
    setPath (argsPath "ux0:/game.nds") exampleFront = .done 0 exampleFront ∧
    loadRom (some "ux0:/game.nds") exampleFront = fileBrowser exampleFront ∧
    loadRom (some "ux0:/game.nds\n") { exampleFront with constructs := [none] } =
      .done ()
        { exampleFront with
          ndsPath := "ux0:/game.nds"
          core := .valid
          constructs := []
          trace := [.createCore true, .newCore "ux0:/game.nds" ""] } := by
  refine ⟨argsPath_eq_dropLast, argsPath_count, ?_, argsPath_push, ?_, ?_, ?_, ?_, ?_, ?_, ?_⟩
  · intro path
    rw [argsPath_eq_dropLast]
    show (⟨(path ++ "\n").data.dropLast⟩ : String) = path
    rw [String.data_append]
    show (⟨(path.data ++ ['\n']).dropLast⟩ : String) = path
    rw [List.dropLast_concat]
  · with_unfolding_all decide
  · with_unfolding_all decide
  · with_unfolding_all decide
  · with_unfolding_all decide
  · with_unfolding_all rfl
  · with_unfolding_all rfl
  · with_unfolding_all rfl

/-! ## Theorems: the paths of the file browser -/

theorem find?_reverse_range (p : Nat → Bool) (k n : Nat) (hk : k ≤ n) (hp : p k = true)
    (hlast : ∀ j, k < j → j ≤ n → p j = false) :
    (List.range (n + 1)).reverse.find? p = some k := by
  induction n with
  | zero =>
    have h0 : k = 0 := Nat.le_zero.mp hk
    subst h0
    rw [List.range_succ, List.range_zero, List.nil_append, List.reverse_singleton,
      List.find?_cons, hp]
  | succ n ih =>
    rw [List.range_succ, List.reverse_append, List.reverse_singleton, List.singleton_append,
      List.find?_cons]
    by_cases hkn : k = n + 1
    · subst hkn
      rw [hp]
    · have hle : k ≤ n := by omega
      rw [hlast (n + 1) (by omega) (le_refl _)]
      exact ih hle (fun j hj hjn => hlast j hj (by omega))

theorem stringRfind_append (path name : String) (hname : '/' ∉ name.data) :
    stringRfind (path ++ "/" ++ name) "/" = some path.length := by
  have hdata : (path ++ "/" ++ name).data = path.data ++ '/' :: name.data := by
    rw [String.data_append, String.data_append, List.append_assoc]
    rfl
  have hlen : (path ++ "/" ++ name).length = path.data.length + (name.data.length + 1) := by
    show (path ++ "/" ++ name).data.length = _
    rw [hdata, List.length_append, List.length_cons]
  unfold stringRfind
  rw [hdata, hlen]
  apply find?_reverse_range
  · show path.data.length ≤ _
    omega
  · show List.isPrefixOf ['/'] (List.drop path.data.length (path.data ++ '/' :: name.data)) = true
    rw [List.drop_left, List.isPrefixOf_iff_prefix]
    exact ⟨name.data, rfl⟩
  · intro j hj hjn
    have hj2 : path.data.length < j := hj
    obtain ⟨d, hd⟩ : ∃ d, j = path.data.length + (d + 1) := ⟨j - path.data.length - 1, by omega⟩
    show List.isPrefixOf ['/'] (List.drop j (path.data ++ '/' :: name.data)) = false
    rw [hd, List.drop_append, List.drop_succ_cons, Bool.eq_false_iff, Ne,
      List.isPrefixOf_iff_prefix]
    rintro ⟨tail, htail⟩
    have hmem : '/' ∈ List.drop d name.data := htail ▸ List.mem_cons_self '/' tail
    exact hname (List.mem_of_mem_drop hmem)

theorem parentPath_append (path name : String) (hname : '/' ∉ name.data) :
    parentPath (path ++ "/" ++ name) = path := by
  unfold parentPath
  rw [stringRfind_append path name hname]
  show (⟨List.take path.data.length (path ++ "/" ++ name).data⟩ : String) = path
  rw [String.data_append, String.data_append, List.append_assoc, List.take_left]

theorem append_ne_root (path name : String) : path ++ "/" ++ name ≠ "ux0:" := by
  intro h
  have hmem : '/' ∈ (path ++ "/" ++ name).data := by
    rw [String.data_append, String.data_append]
    exact List.mem_append_left _ (List.mem_append_right _ (List.mem_singleton.mpr rfl))
  rw [h] at hmem
  exact absurd hmem (by decide)

theorem underRoot_root : UnderRoot "ux0:" := ⟨[], rfl, Or.inl rfl⟩

theorem UnderRoot.begins {path : String} (h : UnderRoot path) : beginsWithRoot path := by
  obtain ⟨rest, hrest, -⟩ := h
  exact ⟨rest, hrest.symm⟩

theorem UnderRoot.append {path : String} (h : UnderRoot path) (name : String) :
    UnderRoot (path ++ "/" ++ name) := by
  obtain ⟨rest, hrest, hform⟩ := h
  refine ⟨rest ++ '/' :: name.data, ?_, Or.inr ?_⟩
  · rw [String.data_append, String.data_append, hrest, List.append_assoc, List.append_assoc]
    rfl
  · rcases hform with hnil | hhead
    · rw [hnil]
      rfl
    · cases rest with
      | nil => cases hhead
      | cons c tail => exact hhead

theorem UnderRoot.parent {path : String} (h : UnderRoot path) : UnderRoot (parentPath path) := by
  obtain ⟨rest, hrest, hform⟩ := h
  unfold parentPath
  cases hfind : stringRfind path "/" with
  | none => exact ⟨rest, hrest, hform⟩
  | some k =>
    have hp : List.isPrefixOf "/".data (List.drop k path.data) = true := by
      unfold stringRfind at hfind
      exact List.find?_some (p := fun i => List.isPrefixOf "/".data (List.drop i path.data))
        hfind
    rw [List.isPrefixOf_iff_prefix, hrest] at hp
    obtain ⟨tail, htail⟩ := hp
    have hroot : "ux0:".data = ['u', 'x', '0', ':'] := rfl
    have hslash : "/".data = ['/'] := rfl
    rw [hroot, hslash] at htail
    have hk : 4 ≤ k := by
      by_contra hlt
      have hcases : k = 0 ∨ k = 1 ∨ k = 2 ∨ k = 3 := by omega
      rcases hcases with h0 | h0 | h0 | h0 <;> subst h0 <;>
        simp only [List.cons_append, List.nil_append, List.drop_zero, List.drop_succ_cons,
          List.cons.injEq] at htail <;>
        exact absurd htail.1 (by decide)
    obtain ⟨d, hd⟩ : ∃ d, k = 4 + d := ⟨k - 4, by omega⟩
    have htake : List.take k path.data = "ux0:".data ++ List.take d rest := by
      rw [hrest, hd]
      exact @List.take_append Char "ux0:".data rest d
    refine ⟨List.take d rest, htake, ?_⟩
    rcases hform with hnil | hhead
    · left
      rw [hnil, List.take_nil]
    · cases rest with
      | nil => cases hhead
      | cons c others =>
        cases d with
        | zero => exact Or.inl rfl
        | succ d => exact Or.inr hhead

/-! ## Theorems: the menus that the file browser shows -/

theorem message_menusShown (s : Front) (text : String) (buttonMask : Nat) :
    menusShown (s.message text buttonMask).state.trace = menusShown s.trace := by
  unfold Front.message
  split <;> rfl

theorem menusShown_of_eq {α : Type} {o p : Outcome α} {t : Front} {shown : List (String × String)}
    (h : menusShown o.state.trace = shown) (ho : o = p) (hp : p.state = t) :
    menusShown t.trace = shown := by
  subst ho
  subst hp
  exact h

theorem createCore_menusShown (s : Front) :
    menusShown (createCore s).state.trace = menusShown s.trace := by
  unfold createCore
  by_cases hd : s.core = .deleted
  · rw [if_pos hd]
    rfl
  · rw [if_neg hd]
    split
    · rfl
    · dsimp only
      split
      · rfl
      · split
        · rename_i pressed s2 heq
          have h2 := menusShown_of_eq (message_menusShown _ _ _) heq rfl
          exact h2
        · rename_i s2 heq
          have h2 := menusShown_of_eq (message_menusShown _ _ _) heq rfl
          exact h2
        · rename_i s2 heq
          have h2 := menusShown_of_eq (message_menusShown _ _ _) heq rfl
          exact h2

theorem setPath_menusShown (path : String) (s : Front) :
    menusShown (setPath path s).state.trace = menusShown s.trace := by
  have hcreate : ∀ (asked : Outcome Unit) (set clear : Front → Front),
      menusShown asked.state.trace = menusShown s.trace →
      (∀ t : Front, (set t).trace = t.trace) → (∀ t : Front, (clear t).trace = t.trace) →
      menusShown
        (match asked with
          | .done _ s1 =>
            match createCore (set s1) with
            | .done true s2 => Outcome.done 2 s2
            | .done false s2 => Outcome.done 1 (clear s2)
            | .pending s2 => Outcome.pending s2
            | .undefined s2 => Outcome.undefined s2
          | .pending s1 => .pending s1
          | .undefined s1 => .undefined s1).state.trace = menusShown s.trace := by
    intro asked set clear h1 hset hclear
    cases asked with
    | done u s1 =>
      have hc : menusShown (createCore (set s1)).state.trace = menusShown s.trace := by
        rw [createCore_menusShown, hset]
        exact h1
      dsimp only
      split
      · rename_i s2 heq
        exact menusShown_of_eq hc heq rfl
      · rename_i s2 heq
        show menusShown (clear s2).trace = _
        rw [hclear]
        exact menusShown_of_eq hc heq rfl
      · rename_i s2 heq
        exact menusShown_of_eq hc heq rfl
      · rename_i s2 heq
        exact menusShown_of_eq hc heq rfl
    | pending s1 => exact h1
    | undefined s1 => exact h1
  have hasked : ∀ (ask : Prop) [Decidable ask] (text : String) (clear : Front → Front),
      (∀ t : Front, (clear t).trace = t.trace) →
      menusShown
        (if ask then
          match s.message text (s.confirmButton ||| s.cancelButton) with
          | .done pressed s1 =>
            Outcome.done () (if pressed &&& s1.confirmButton = 0 then clear s1 else s1)
          | .pending s1 => .pending s1
          | .undefined s1 => .undefined s1
        else Outcome.done () s).state.trace = menusShown s.trace := by
    intro ask _ text clear hclear
    have hm := message_menusShown s text (s.confirmButton ||| s.cancelButton)
    by_cases hask : ask
    · rw [if_pos hask]
      split
      · rename_i pressed s1 heq
        have h1 := menusShown_of_eq hm heq rfl
        show menusShown (if _ then _ else _ : Front).trace = _
        split_ifs
        · rw [hclear]
          exact h1
        · exact h1
      · rename_i s1 heq
        exact menusShown_of_eq hm heq rfl
      · rename_i s1 heq
        exact menusShown_of_eq hm heq rfl
    · rw [if_neg hask]
      rfl
  unfold setPath
  by_cases hnds : findsExtension path ".nds" = true
  · rw [if_pos hnds]
    exact hcreate _ (fun t => { t with ndsPath := path }) (fun t => { t with ndsPath := "" })
      (hasked (s.gbaPath ≠ "") "Load the previous GBA ROM alongside this ROM?"
        (fun t => { t with gbaPath := "" }) (fun _ => rfl)) (fun _ => rfl) (fun _ => rfl)
  · rw [if_neg hnds]
    by_cases hgba : findsExtension path ".gba" = true
    · rw [if_pos hgba]
      exact hcreate _ (fun t => { t with gbaPath := path }) (fun t => { t with gbaPath := "" })
        (hasked (s.ndsPath ≠ "") "Load the previous NDS ROM alongside this ROM?"
          (fun t => { t with ndsPath := "" }) (fun _ => rfl)) (fun _ => rfl) (fun _ => rfl)
    · rw [if_neg hgba]
      rfl

theorem menu_menusShown (s : Front) (a : MenuArgs) (selection : Nat) :
    (s.menu a selection).Returns fun _ t =>
      menusShown t.trace = (a.title, a.subtitle) :: menusShown s.trace := by
  unfold Front.menu
  split
  · exact Outcome.returns_done rfl
  · exact Outcome.returns_pending

theorem menu_pending_menusShown (s : Front) (a : MenuArgs) (selection : Nat) (t : Front)
    (h : s.menu a selection = .pending t ∨ s.menu a selection = .undefined t) :
    menusShown t.trace = menusShown s.trace := by
  unfold Front.menu at h
  split at h
  · rcases h with h | h <;> cases h
  · rcases h with h | h
    · cases h
      rfl
    · cases h

theorem Front.Shows.shows_refl (allowed : String × String → Prop) (s : Front) :
    Front.Shows allowed s s :=
  fun _ hm => Or.inl hm

theorem Front.Shows.shows_trans {allowed : String × String → Prop} {s t u : Front}
    (h1 : Front.Shows allowed s t) (h2 : Front.Shows allowed t u) : Front.Shows allowed s u :=
  fun m hm => (h2 m hm).elim (h1 m) Or.inr

theorem shows_of_same {allowed : String × String → Prop} {s t : Front}
    (h : menusShown t.trace = menusShown s.trace) : Front.Shows allowed s t :=
  fun _ hm => Or.inl (h ▸ hm)

theorem shows_of_cons {allowed : String × String → Prop} {s t : Front} {m : String × String}
    (h : menusShown t.trace = m :: menusShown s.trace) (hm : allowed m) :
    Front.Shows allowed s t := by
  intro x hx
  rw [h, List.mem_cons] at hx
  rcases hx with hx | hx
  · exact Or.inr (hx ▸ hm)
  · exact Or.inl hx

theorem settingsMenuLoop_shows (allowed : String × String → Prop)
    (hallowed : allowed ("Settings", "")) (fuel selection : Nat) (s : Front) :
    Front.Shows allowed s (settingsMenuLoop fuel selection s).state := by
  induction fuel generalizing selection s with
  | zero => exact Front.Shows.shows_refl allowed s
  | succ fuel ih =>
    unfold settingsMenuLoop
    split
    · exact Front.Shows.shows_refl allowed s
    · split
      · rename_i pressed selection1 s1 heq
        have h1 : Front.Shows allowed s s1 :=
          shows_of_cons (menu_menusShown _ _ _ _ _ heq) hallowed
        have h2 : Front.Shows allowed s { s1 with settings := nextSetting s1.settings selection1 } :=
          h1
        split_ifs
        · exact h2.shows_trans (ih _ _)
        · exact h1
        · exact h1.shows_trans (ih _ _)
      · rename_i s1 heq
        exact shows_of_same (menu_pending_menusShown _ _ _ _ (Or.inl heq))
      · rename_i s1 heq
        exact shows_of_same (menu_pending_menusShown _ _ _ _ (Or.inr heq))

theorem fileBrowserLoop_shows (fuel : Nat) (path : String) (selection : Nat) (s : Front)
    (hpath : UnderRoot path) :
    Front.Shows browserMenu s (fileBrowserLoop fuel path selection s).state := by
  induction fuel generalizing path selection s with
  | zero => exact Front.Shows.shows_refl _ s
  | succ fuel ih =>
    unfold fileBrowserLoop
    split
    · exact Front.Shows.shows_refl _ s
    · rename_i entries later hdirs
      split
      · rename_i pressed selection1 s1 heq
        have hshown := menu_menusShown _ _ _ _ _ heq
        have h1 : Front.Shows browserMenu s s1 :=
          shows_of_cons hshown (Or.inr ⟨rfl, hpath.begins⟩)
        split_ifs
        · split
          · exact h1
          · rename_i name hname
            have hp := setPath_menusShown (path ++ "/" ++ name) s1
            split
            · rename_i s2 heq2
              exact h1.shows_trans (shows_of_same (menusShown_of_eq hp heq2 rfl))
            · rename_i s2 heq2
              exact (h1.shows_trans (shows_of_same (menusShown_of_eq hp heq2 rfl))).shows_trans
                (ih _ _ _ (hpath.append name).parent)
            · rename_i result s2 _ _ heq2
              exact (h1.shows_trans (shows_of_same (menusShown_of_eq hp heq2 rfl))).shows_trans
                (ih _ _ _ (hpath.append name))
            · rename_i s2 heq2
              exact h1.shows_trans (shows_of_same (menusShown_of_eq hp heq2 rfl))
            · rename_i s2 heq2
              exact h1.shows_trans (shows_of_same (menusShown_of_eq hp heq2 rfl))
        · exact h1.shows_trans (ih _ _ _ hpath.parent)
        · have hm : Front.Shows browserMenu s1 (settingsMenu s1).state :=
            settingsMenuLoop_shows browserMenu (Or.inl rfl) _ _ s1
          split
          · rename_i u s2 heq2
            have h2 : Front.Shows browserMenu s1 s2 := by
              rw [heq2] at hm
              exact hm
            exact (h1.shows_trans h2).shows_trans (ih _ _ _ hpath)
          · rename_i s2 heq2
            rw [heq2] at hm
            exact h1.shows_trans hm
          · rename_i s2 heq2
            rw [heq2] at hm
            exact h1.shows_trans hm
        · exact h1.shows_trans (ih _ _ _ hpath)
      · rename_i s1 heq
        have hsame := menu_pending_menusShown _ _ _ _ (Or.inl heq)
        exact shows_of_same hsame
      · rename_i s1 heq
        have hsame := menu_pending_menusShown _ _ _ _ (Or.inr heq)
        exact shows_of_same hsame

theorem fileBrowserLoop_selected (fuel : Nat) (path : String) (selection : Nat) (s : Front)
    (entries : List (String × Bool)) (later : List (List (String × Bool)))
    (pressed chosen : Nat) (s1 : Front) (name : String)
    (hdirs : s.dirs = entries :: later)
    (hmenu : ({ s with dirs := later } : Front).menu
        { title := "NooDS", subtitle := path, items := listFiles entries, subitems := none
          buttonMask := s.confirmButton ||| s.cancelButton ||| SCE_CTRL_TRIANGLE }
        selection = .done (pressed, chosen) s1)
    (hconfirm : pressed &&& s1.confirmButton ≠ 0)
    (hname : (listFiles entries)[chosen]? = some name) :
    fileBrowserLoop (fuel + 1) path selection s =
      match setPath (path ++ "/" ++ name) s1 with
      | .done 2 s2 => .done () s2
      | .done 1 s2 => fileBrowserLoop fuel (parentPath (path ++ "/" ++ name)) 0 s2
      | .done _ s2 => fileBrowserLoop fuel (path ++ "/" ++ name) 0 s2
      | .pending s2 => .pending s2
      | .undefined s2 => .undefined s2 := by
  have hlen : (listFiles entries).length > 0 := by
    have := (List.getElem?_eq_some_iff.mp hname).1
    omega
  rw [fileBrowserLoop, hdirs]
  dsimp only
  rw [hmenu]
  dsimp only
  rw [if_pos ⟨hconfirm, hlen⟩, hname]

theorem fileBrowserLoop_cancelled (fuel : Nat) (path : String) (selection : Nat) (s : Front)
    (entries : List (String × Bool)) (later : List (List (String × Bool)))
    (pressed chosen : Nat) (s1 : Front)
    (hdirs : s.dirs = entries :: later)
    (hmenu : ({ s with dirs := later } : Front).menu
        { title := "NooDS", subtitle := path, items := listFiles entries, subitems := none
          buttonMask := s.confirmButton ||| s.cancelButton ||| SCE_CTRL_TRIANGLE }
        selection = .done (pressed, chosen) s1)
    (hnot : ¬(pressed &&& s1.confirmButton ≠ 0 ∧ (listFiles entries).length > 0))
    (hcancel : pressed &&& s1.cancelButton ≠ 0) (hpath : path ≠ "ux0:") :
    fileBrowserLoop (fuel + 1) path selection s = fileBrowserLoop fuel (parentPath path) 0 s1 := by
  rw [fileBrowserLoop, hdirs]
  dsimp only
  rw [hmenu]
  dsimp only
  rw [if_neg hnot, if_pos ⟨hcancel, hpath⟩]

theorem fileBrowserLoop_cancelled_at_root (fuel selection : Nat) (s : Front)
    (entries : List (String × Bool)) (later : List (List (String × Bool)))
    (pressed chosen : Nat) (s1 : Front)
    (hdirs : s.dirs = entries :: later)
    (hmenu : ({ s with dirs := later } : Front).menu
        { title := "NooDS", subtitle := "ux0:", items := listFiles entries, subitems := none
          buttonMask := s.confirmButton ||| s.cancelButton ||| SCE_CTRL_TRIANGLE }
        selection = .done (pressed, chosen) s1)
    (hnot : ¬(pressed &&& s1.confirmButton ≠ 0 ∧ (listFiles entries).length > 0))
    (htriangle : pressed &&& SCE_CTRL_TRIANGLE = 0) :
    fileBrowserLoop (fuel + 1) "ux0:" selection s = fileBrowserLoop fuel "ux0:" chosen s1 := by
  rw [fileBrowserLoop, hdirs]
  dsimp only
  rw [hmenu]
  dsimp only
  rw [if_neg hnot, if_neg (fun h => h.2 rfl), if_neg (fun h => h htriangle)]

/-- C24: the path of the file browser makes a round trip. Cutting `p + "/" + f` at its last
`/` gives `p` back when `f` contains no `/`. In the loop of `fileBrowser`, confirming the
entry `f` at the path `p` passes `p + "/" + f` to `setPath`; when that is no ROM the loop goes
on at `p + "/" + f`, when the ROM fails to load it goes on at `p` again, and when it loads the
browser returns. A cancel press at `p + "/" + f` makes the loop go on at `p`, and a cancel
press at `ux0:` makes it go on at `ux0:`. Every menu that `fileBrowser` shows, for all
inputs and whatever the entry names contain, has a subtitle that begins with `ux0:` or is the
settings menu. The last part is a run through these cases. -/
theorem fileBrowser_path_round_trip :
    (∀ path name : String, '/' ∉ name.data → parentPath (path ++ "/" ++ name) = path) ∧
    (∀ (fuel : Nat) (path : String) (selection : Nat) (s : Front)
      (entries : List (String × Bool)) (later : List (List (String × Bool)))
      (pressed chosen : Nat) (s1 : Front) (name : String),
      s.dirs = entries :: later →
      ({ s with dirs := later } : Front).menu
        { title := "NooDS", subtitle := path, items := listFiles entries, subitems := none
          buttonMask := s.confirmButton ||| s.cancelButton ||| SCE_CTRL_TRIANGLE }
        selection = .done (pressed, chosen) s1 →
      pressed &&& s1.confirmButton ≠ 0 → (listFiles entries)[chosen]? = some name →
      (∀ s2, setPath (path ++ "/" ++ name) s1 = .done 0 s2 →
        fileBrowserLoop (fuel + 1) path selection s =
          fileBrowserLoop fuel (path ++ "/" ++ name) 0 s2) ∧
      (∀ s2, '/' ∉ name.data → setPath (path ++ "/" ++ name) s1 = .done 1 s2 →
        fileBrowserLoop (fuel + 1) path selection s = fileBrowserLoop fuel path 0 s2) ∧
      (∀ s2, setPath (path ++ "/" ++ name) s1 = .done 2 s2 →
        fileBrowserLoop (fuel + 1) path selection s = .done () s2)) ∧
    (∀ (fuel : Nat) (path name : String) (selection : Nat) (s : Front)
      (entries : List (String × Bool)) (later : List (List (String × Bool)))
      (pressed chosen : Nat) (s1 : Front),
      s.dirs = entries :: later →
      ({ s with dirs := later } : Front).menu
        { title := "NooDS", subtitle := path ++ "/" ++ name, items := listFiles entries
          subitems := none
          buttonMask := s.confirmButton ||| s.cancelButton ||| SCE_CTRL_TRIANGLE }
        selection = .done (pressed, chosen) s1 →
      ¬(pressed &&& s1.confirmButton ≠ 0 ∧ (listFiles entries).length > 0) →
      pressed &&& s1.cancelButton ≠ 0 → '/' ∉ name.data →
      fileBrowserLoop (fuel + 1) (path ++ "/" ++ name) selection s =
        fileBrowserLoop fuel path 0 s1) ∧
    (∀ (fuel selection : Nat) (s : Front)
      (entries : List (String × Bool)) (later : List (List (String × Bool)))
      (pressed chosen : Nat) (s1 : Front),
      s.dirs = entries :: later →
      ({ s with dirs := later } : Front).menu
        { title := "NooDS", subtitle := "ux0:", items := listFiles entries, subitems := none
          buttonMask := s.confirmButton ||| s.cancelButton ||| SCE_CTRL_TRIANGLE }
        selection = .done (pressed, chosen) s1 →
      ¬(pressed &&& s1.confirmButton ≠ 0 ∧ (listFiles entries).length > 0) →
      pressed &&& s1.cancelButton ≠ 0 → pressed &&& SCE_CTRL_TRIANGLE = 0 →
      fileBrowserLoop (fuel + 1) "ux0:" selection s = fileBrowserLoop fuel "ux0:" chosen s1) ∧
    (∀ (s : Front) (m : String × String), m ∈ menusShown (fileBrowser s).state.trace →
      m ∈ menusShown s.trace ∨ m = ("Settings", "") ∨ (m.1 = "NooDS" ∧ beginsWithRoot m.2)) ∧
    (menusShown (fileBrowser exampleBrowse).state.trace).reverse =
      [("NooDS", "ux0:"), ("NooDS", "ux0:"), ("NooDS", "ux0:/roms"), ("NooDS", "ux0:"),
       ("NooDS", "ux0:/roms"), ("NooDS", "ux0:/roms")] ∧
    (∃ t, fileBrowser exampleBrowse = .done () t ∧ t.ndsPath = "ux0:/roms/a.nds") := by
  refine ⟨parentPath_append, ?_, ?_, ?_, ?_, ?_, ?_⟩
  · intro fuel path selection s entries later pressed chosen s1 name hdirs hmenu hconfirm hname
    have hstep := fileBrowserLoop_selected fuel path selection s entries later pressed chosen s1
      name hdirs hmenu hconfirm hname
    refine ⟨?_, ?_, ?_⟩
    · intro s2 hset
      rw [hstep, hset]
    · intro s2 hslash hset
      rw [hstep, hset]
      show fileBrowserLoop fuel (parentPath (path ++ "/" ++ name)) 0 s2 = _
      rw [parentPath_append path name hslash]
    · intro s2 hset
      rw [hstep, hset]
  · intro fuel path name selection s entries later pressed chosen s1 hdirs hmenu hnot hcancel
      hslash
    rw [fileBrowserLoop_cancelled fuel (path ++ "/" ++ name) selection s entries later pressed
      chosen s1 hdirs hmenu hnot hcancel (append_ne_root path name),
      parentPath_append path name hslash]
  · intro fuel selection s entries later pressed chosen s1 hdirs hmenu hnot _ htriangle
    exact fileBrowserLoop_cancelled_at_root fuel selection s entries later pressed chosen s1
      hdirs hmenu hnot htriangle
  · intro s m hm
    exact fileBrowserLoop_shows _ "ux0:" 0 s underRoot_root m hm
  · with_unfolding_all rfl
  · exact ⟨_, by with_unfolding_all rfl, by with_unfolding_all rfl⟩

end NooDS
